import Mathlib

/-!
# plcpi: command dispatch and register access

A shallow embedding of `src/plcpi.c` (the command-line tool of the Sequent
Microsystems PLC Pi card) and of `src/cli.h`.

* The header `plcpi.h` is not among the sources: every macro and enumerator
  it defines is a field of `Consts` and the functions take the record as their
  first argument.
* The bus layer (`comm.h`) is an external collaborator: `Bus` gives the answer
  of each primitive as a function of the operations issued so far, and every
  call made by `plcpi.c` is appended to `World.trace`.
* Process state is passed explicitly in `World`: the bus trace, the global
  `gHwVer`, the text written to standard output and the value of the
  semaphore.
* A function pointer is the name of the function (`PFunc`); the handlers that
  `plcpi.c` only declares and the key-press watcher of `thread.h` are fields of
  `Ext`.
* `main` also returns the list of the handler calls it made.
* A `float` or `double` is the rational it denotes, and every floating
  operation rounds its exact result to the nearest value of the format
  (`toFloat`, `toDouble`).
-/

namespace Plcpi

/-! ## Constants of `plcpi.h` -/

/-- The macros and enumerators of `plcpi.h` that `plcpi.c` uses. -/
structure Consts where
  OK : Int
  ERROR : Int
  FAIL : Int
  ARG_ERR : Int
  ARG_CNT_ERR : Int
  OFF : Int
  ON : Int
  STATE_COUNT : Int
  YES : Int
  RETRY_TIMES : Int
  SLAVE_OWN_ADDRESS_BASE : Int
  CHANNEL_NR_MIN : Int
  RELAY_CH_NR_MAX : Int
  OD_CH_NR_MAX : Int
  OD_PWM_VAL_MAX : Int
  I2C_MEM_RELAY_VAL_ADD : Int
  I2C_MEM_REVISION_HW_MAJOR_ADD : Int
  I2C_MEM_REVISION_MAJOR_ADD : Int
  I2C_MEM_DIAG_TEMPERATURE_ADD : Int
  I2C_MEM_OD_PWM_VAL_RAW_ADD : Int
  I2C_MEM_OD_P_SET_VALUE : Int
  I2C_MEM_OD_P_SET_CMD : Int
  I2C_MEM_OD_PULSE_CNT_SET : Int
  I2C_MEM_OD_PWM_FREQUENCY : Int
  I2C_MEM_OD_PWM_FREQUENCY_CH1 : Int
  I2C_MEM_ODP_ACC : Int
  I2C_MEM_ODP_CMD : Int
  I2C_MEM_ENCODER_LIMIT : Int

/-! ## The bus and the process state -/

/-- One call into the bus layer declared in `comm.h`. -/
inductive BusOp where
  | setup (add : Int)
  | mem8Read (dev add : Int) (size : Nat)
  | mem8Write (dev add : Int) (bytes : List Nat)
  | readByteAS (dev add : Int)
  | readWordAS (dev add : Int)
  | readDWord (dev add : Int)
  deriving DecidableEq, Repr

/-- The answers of the bus layer.  Each field receives the operations issued
before the call; a read gives a status and the bytes (or the value) left in the
caller's buffer. -/
structure Bus where
  setup : List BusOp → Int → Int
  mem8Read : List BusOp → Int → Int → Nat → Int × List Nat
  mem8Write : List BusOp → Int → Int → List Nat → Int
  readByteAS : List BusOp → Int → Int → Int × Nat
  readWordAS : List BusOp → Int → Int → Int × Nat
  readDWord : List BusOp → Int → Int → Int × Nat

/-- Process state: bus operations issued so far (oldest first), the global
`gHwVer`, standard output, the value of the semaphore `/SMI2C_SEM`, the number
of calls of `checkThreadResult` so far and the text written to the result file
of the relay test. -/
structure World where
  trace : List BusOp
  gHwVer : Nat
  out : String
  sem : Int
  polls : Nat
  file : String
  deriving DecidableEq

/-- Appends to standard output, as `printf` of an already formatted text. -/
def printf (s : String) (w : World) : World :=
  { w with out := w.out ++ s }

/-- The byte `i` of a buffer filled by a read. -/
def byteAt (buff : List Nat) (i : Nat) : Nat :=
  buff.getD i 0 % 256

/-- Call of `i2cSetup`: the handle the bus answers, the call recorded. -/
def i2cSetup (B : Bus) (add : Int) (w : World) : Int × World :=
  (B.setup w.trace add, { w with trace := w.trace ++ [BusOp.setup add] })

/-- Call of `i2cMem8Read`: status, buffer contents, the call recorded. -/
def i2cMem8Read (B : Bus) (dev add : Int) (size : Nat) (w : World) :
    Int × List Nat × World :=
  ((B.mem8Read w.trace dev add size).1, (B.mem8Read w.trace dev add size).2,
    { w with trace := w.trace ++ [BusOp.mem8Read dev add size] })

/-- Call of `i2cMem8Write`: status, the call and its bytes recorded. -/
def i2cMem8Write (B : Bus) (dev add : Int) (bytes : List Nat) (w : World) :
    Int × World :=
  (B.mem8Write w.trace dev add bytes,
    { w with trace := w.trace ++ [BusOp.mem8Write dev add bytes] })

/-- Call of `i2cReadByteAS`: status and the `u8` read. -/
def i2cReadByteAS (B : Bus) (dev add : Int) (w : World) : Int × Nat × World :=
  ((B.readByteAS w.trace dev add).1, (B.readByteAS w.trace dev add).2 % 256,
    { w with trace := w.trace ++ [BusOp.readByteAS dev add] })

/-- Call of `i2cReadWordAS`: status and the `u16` read. -/
def i2cReadWordAS (B : Bus) (dev add : Int) (w : World) : Int × Nat × World :=
  ((B.readWordAS w.trace dev add).1, (B.readWordAS w.trace dev add).2 % 65536,
    { w with trace := w.trace ++ [BusOp.readWordAS dev add] })

/-- Call of `i2cReadDWord`: status and the `u32` read. -/
def i2cReadDWord (B : Bus) (dev add : Int) (w : World) : Int × Nat × World :=
  ((B.readDWord w.trace dev add).1, (B.readDWord w.trace dev add).2 % 4294967296,
    { w with trace := w.trace ++ [BusOp.readDWord dev add] })

/-! ## Board initialisation -/

/-- Function `doBoardInit`, plcpi.c:75. -/
def doBoardInit (K : Consts) (B : Bus) (stack : Int) (w : World) : Int × World :=
  if stack < 0 ∨ stack > 7 then
    (K.ERROR, printf "Invalid stack level [0..7]!" w)
  else
    let add := stack + K.SLAVE_OWN_ADDRESS_BASE
    let r1 := i2cSetup B add w
    let dev := r1.1
    if dev = -1 then
      (K.ERROR, r1.2)
    else
      let r2 := i2cMem8Read B dev K.I2C_MEM_REVISION_HW_MAJOR_ADD 1 r1.2
      if K.ERROR = r2.1 then
        (K.ERROR, printf ("IO-PLUS id " ++ toString stack ++ " not detected\n") r2.2.2)
      else
        (dev, { r2.2.2 with gHwVer := byteAt r2.2.1 0 })

/-- Function `boardCheck`, plcpi.c:106. -/
def boardCheck (K : Consts) (B : Bus) (stack : Int) (w : World) : Int × World :=
  if stack < 0 ∨ stack > 7 then
    (K.ERROR, printf "Invalid stack level [0..7]!" w)
  else
    let add := stack + K.SLAVE_OWN_ADDRESS_BASE
    let r1 := i2cSetup B add w
    let dev := r1.1
    if dev = -1 then
      (K.ERROR, r1.2)
    else
      let r2 := i2cMem8Read B dev K.I2C_MEM_REVISION_MAJOR_ADD 1 r1.2
      if K.ERROR = r2.1 then
        (K.ERROR, r2.2.2)
      else
        (K.OK, r2.2.2)


/-! ## Machine integers and libc -/

/-- Conversion to `u8`. -/
def toU8 (x : Int) : Nat :=
  (x % 256).toNat

/-- Conversion to `u16`. -/
def toU16 (x : Int) : Nat :=
  (x % 65536).toNat

/-- Conversion to `u32` / `unsigned int`. -/
def toU32 (x : Int) : Nat :=
  (x % 4294967296).toNat

/-- The `int` with the bit pattern of the 32-bit unsigned `u`. -/
def toI32 (u : Nat) : Int :=
  if u % 4294967296 < 2147483648 then (u % 4294967296 : Nat)
  else ((u % 4294967296 : Nat) : Int) - 4294967296

/-- The two bytes `memcpy` takes from a `u16` (the target is little-endian). -/
def le16 (raw : Nat) : List Nat :=
  [raw % 256, raw / 256 % 256]

/-- The four bytes `memcpy` takes from a `u32`. -/
def le32 (raw : Nat) : List Nat :=
  [raw % 256, raw / 256 % 256, raw / 65536 % 256, raw / 16777216 % 256]

/-- The `int` value of `1 << k`.  C leaves the shift undefined for a count
outside 0..30; the callers use `k = channel - 1` with a validated channel. -/
def shl1 (k : Int) : Nat :=
  2 ^ k.toNat % 4294967296

/-- The `u8` stored by `buff[0] |= 1 << k`. -/
def setBit8 (b : Nat) (k : Int) : Nat :=
  (b ||| shl1 k) % 256

/-- The `u8` stored by `buff[0] &= ~(1 << k)`: `~` is the 32-bit complement. -/
def clearBit8 (b : Nat) (k : Int) : Nat :=
  (b &&& (4294967295 - shl1 k)) % 256

/-! ### Floating point

`float` and `double` are the IEEE 754 formats binary32 and binary64, and an
expression of type `float` is evaluated in `float`, each operation rounded to
the nearest value, as on the ARM processors of the Raspberry Pi.  A finite
floating value is the rational it denotes; infinities and NaN are not
represented. -/

/-- The integer nearest to `x`, a tie going to the even one: the default
rounding direction of IEEE 754 arithmetic. -/
def roundHalfEven (x : ℚ) : Int :=
  if x - ⌊x⌋ < 1 / 2 then ⌊x⌋
  else if 1 / 2 < x - ⌊x⌋ then ⌊x⌋ + 1
  else if ⌊x⌋ % 2 = 0 then ⌊x⌋
  else ⌊x⌋ + 1

/-- The exponent of the unit in the last place of `q` in a binary format with
`p` significant bits whose smallest positive value is `2 ^ emin`. -/
def ulpExp (p : Nat) (emin : Int) (q : ℚ) : Int :=
  max (Int.log 2 |q| - ((p : Int) - 1)) emin

/-- The value of the format nearest to `q`.  The exponent has no upper bound:
where the format overflows to an infinity, this gives a value beyond its
largest finite one. -/
def roundBinary (p : Nat) (emin : Int) (q : ℚ) : ℚ :=
  (roundHalfEven (q / (2 : ℚ) ^ ulpExp p emin q) : ℚ) * (2 : ℚ) ^ ulpExp p emin q

/-- Rounding to `float` (binary32). -/
def toFloat (q : ℚ) : ℚ :=
  roundBinary 24 (-149) q

/-- Rounding to `double` (binary64). -/
def toDouble (q : ℚ) : ℚ :=
  roundBinary 53 (-1074) q

/-- Conversion of a floating value to `int`: truncation toward zero. -/
def truncToInt (q : ℚ) : Int :=
  if 0 ≤ q then ⌊q⌋ else ⌈q⌉

/-- Function `tolower` in the C locale, on character codes. -/
def tolower (c : Char) : Nat :=
  if 65 ≤ c.toNat ∧ c.toNat ≤ 90 then c.toNat + 32 else c.toNat

/-- Comparison of two C strings ignoring case, on their characters. -/
def strcasecmpAux : List Char → List Char → Int
  | [], [] => 0
  | [], b :: _ => 0 - (tolower b : Int)
  | a :: _, [] => (tolower a : Int)
  | a :: as, b :: bs =>
    if tolower a = tolower b then strcasecmpAux as bs
    else (tolower a : Int) - (tolower b : Int)

/-- Function `strcasecmp` of libc: zero exactly when the strings agree up to the case of
ASCII letters (a C string holds no NUL character). -/
def strcasecmp (a b : String) : Int :=
  strcasecmpAux a.data b.data

/-- The libc conversions the handlers call.  The `double` that `atof` returns
and the one `printf` formats are the rationals they denote. -/
structure Libc where
  atoi : String → Int
  atol : String → Int
  atof : String → ℚ
  /-- The text `printf` produces for `%0.2f`. -/
  fmtF2 : ℚ → String
  /-- Whether `fopen(path, "w")` gives a stream. -/
  fopenW : String → Bool

/-- Text of `printf("%02d", n)` for a byte `n`. -/
def fmt02d (n : Nat) : String :=
  if n < 10 then "0" ++ toString n else toString n

/-- A run ends without a result when it reads `argv[k]` outside `0..argc-1`
(undefined behaviour) or when a loop does not finish within the step budget. -/
inductive Fault where
  | argvRange
  | fuel
  deriving DecidableEq, Repr

/-- Outcome of a handler or of `main`: a status and the state it leaves. -/
abbrev Run := Except Fault (Int × World)

/-- Reads `argv[k]`. -/
def argvAt (argv : List String) (k : Int) : Except Fault String :=
  if k < 0 then .error Fault.argvRange
  else
    match argv[k.toNat]? with
    | some s => .ok s
    | none => .error Fault.argvRange

/-! ## Relays -/

/-- Function `relayChSet`, plcpi.c:368.  `channel` is a `u8`. -/
def relayChSet (K : Consts) (B : Bus) (dev : Int) (channel : Nat) (state : Int)
    (w : World) : Int × World :=
  if (channel : Int) < K.CHANNEL_NR_MIN ∨ (channel : Int) > K.RELAY_CH_NR_MAX then
    (K.ERROR, printf "Invalid relay nr!\n" w)
  else
    let r := i2cMem8Read B dev K.I2C_MEM_RELAY_VAL_ADD 1 w
    if K.FAIL = r.1 then
      (K.FAIL, r.2.2)
    else if state = K.OFF then
      i2cMem8Write B dev K.I2C_MEM_RELAY_VAL_ADD
        [clearBit8 (byteAt r.2.1 0) ((channel : Int) - 1)] r.2.2
    else if state = K.ON then
      i2cMem8Write B dev K.I2C_MEM_RELAY_VAL_ADD
        [setBit8 (byteAt r.2.1 0) ((channel : Int) - 1)] r.2.2
    else
      (K.ERROR, printf "Invalid relay state!\n" r.2.2)

/-- Function `relayChGet`, plcpi.c:401.  The pointer `state` is `none` when NULL and
holds the pointed value otherwise; the result carries the value it points to
afterwards. -/
def relayChGet (K : Consts) (B : Bus) (dev : Int) (channel : Nat)
    (state : Option Int) (w : World) : Int × Option Int × World :=
  match state with
  | none => (K.ERROR, none, w)
  | some s =>
    if (channel : Int) < K.CHANNEL_NR_MIN ∨ (channel : Int) > K.RELAY_CH_NR_MAX then
      (K.ERROR, some s, printf "Invalid relay nr!\n" w)
    else
      let r := i2cReadByteAS B dev K.I2C_MEM_RELAY_VAL_ADD w
      if K.OK ≠ r.1 then
        (K.ERROR, some s, r.2.2)
      else if r.2.1 &&& shl1 ((channel : Int) - 1) ≠ 0 then
        (K.OK, some K.ON, r.2.2)
      else
        (K.OK, some K.OFF, r.2.2)

/-- Function `relaySet`, plcpi.c:435. -/
def relaySet (K : Consts) (B : Bus) (dev : Int) (val : Int) (w : World) :
    Int × World :=
  i2cMem8Write B dev K.I2C_MEM_RELAY_VAL_ADD [toU8 val] w

/-- Function `relayGet`, plcpi.c:444.  The pointer `val` is modelled as in
`relayChGet`. -/
def relayGet (K : Consts) (B : Bus) (dev : Int) (val : Option Int) (w : World) :
    Int × Option Int × World :=
  match val with
  | none => (K.ERROR, none, w)
  | some v =>
    let r := i2cReadByteAS B dev K.I2C_MEM_RELAY_VAL_ADD w
    if K.OK ≠ r.1 then
      (K.ERROR, some v, r.2.2)
    else
      (K.OK, some (r.2.1 : Int), r.2.2)

/-! ## Open-drain outputs: duty cycle, pulses, frequency, movement profile -/

/-- Function `odGet`, plcpi.c:846.  The result carries the `float` stored
through `val` (unchanged when the call fails): `100 * (float)raw / OD_PWM_VAL_MAX`
is a product and a quotient of `float`. -/
def odGet (K : Consts) (B : Bus) (dev : Int) (ch : Int) (val : ℚ) (w : World) :
    Int × ℚ × World :=
  if ch < K.CHANNEL_NR_MIN ∨ ch > K.OD_CH_NR_MAX then
    (K.ERROR, val, printf "Open drain channel out of range!\n" w)
  else
    let r := i2cReadWordAS B dev (K.I2C_MEM_OD_PWM_VAL_RAW_ADD + 2 * (ch - 1)) w
    if K.OK ≠ r.1 then
      (K.ERROR, val, printf "Fail to read!\n" r.2.2)
    else
      (K.OK, toFloat (toFloat (100 * toFloat (r.2.1 : ℚ)) / toFloat (K.OD_PWM_VAL_MAX : ℚ)),
        r.2.2)

/-- The value of `raw` in `odSet`: `(u16)ceil(OD_PWM_VAL_MAX * val / 100)`
after the two clamps.  `val` is a `float` and `OD_PWM_VAL_MAX` an integer
constant, so the product and the quotient are operations of `float`, each
rounded; `ceil` takes the quotient as a `double`, which holds it exactly. -/
def odRaw (K : Consts) (val : ℚ) : Nat :=
  let val1 := if val < 0 then 0 else val
  let val2 := if val1 > 100 then 100 else val1
  toU16 ⌈toFloat (toFloat (toFloat (K.OD_PWM_VAL_MAX : ℚ) * val2) / 100)⌉

/-- Function `odSet`, plcpi.c:865.  `val` is the `float` the caller passes. -/
def odSet (K : Consts) (B : Bus) (dev : Int) (ch : Int) (val : ℚ) (w : World) :
    Int × World :=
  if ch < K.CHANNEL_NR_MIN ∨ ch > K.OD_CH_NR_MAX then
    (K.ERROR, printf "Open drain channel out of range!\n" w)
  else
    let r := i2cMem8Write B dev (K.I2C_MEM_OD_PWM_VAL_RAW_ADD + 2 * (ch - 1))
      (le16 (odRaw K val)) w
    if K.OK ≠ r.1 then
      (K.ERROR, printf "Fail to write!\n" r.2)
    else
      (K.OK, r.2)

/-- Macro `PULSE_SAVE_MASK`, plcpi.c:1027. -/
def PULSE_SAVE_MASK : Nat := 0x10

/-- Macro `PULSE_EXEC_MASK`, plcpi.c:1028. -/
def PULSE_EXEC_MASK : Nat := 0x20

/-- Function `odWritePulses`, plcpi.c:990 (`SINGLE_TRANSFER` is defined).  `val` is an
`unsigned int`. -/
def odWritePulses (K : Consts) (B : Bus) (dev : Int) (ch : Int) (val : Nat)
    (w : World) : Int × World :=
  if ch < K.CHANNEL_NR_MIN ∨ ch > 2 * K.OD_CH_NR_MAX then
    (K.ERROR, printf "Open drain channel out of range!\n" w)
  else
    let r := i2cMem8Write B dev K.I2C_MEM_OD_P_SET_VALUE (le32 val ++ [toU8 ch]) w
    if K.OK ≠ r.1 then
      (K.ERROR, printf "Fail to write!\n" r.2)
    else
      (K.OK, r.2)

/-- Function `odSaveOdPulses`, plcpi.c:1030. -/
def odSaveOdPulses (K : Consts) (B : Bus) (dev : Int) (ch : Int) (val : Nat)
    (w : World) : Int × World :=
  if ch < K.CHANNEL_NR_MIN ∨ ch > 2 * K.OD_CH_NR_MAX then
    (K.ERROR, printf "Open drain channel out of range!\n" w)
  else
    let r := i2cMem8Write B dev K.I2C_MEM_OD_P_SET_VALUE
      (le32 val ++ [(toU32 ch ||| PULSE_SAVE_MASK) % 256]) w
    if K.OK ≠ r.1 then
      (K.ERROR, printf "Fail to write!\n" r.2)
    else
      (K.OK, r.2)

/-- Function `odExecPulses`, plcpi.c:1053. -/
def odExecPulses (K : Consts) (B : Bus) (dev : Int) (ch : Int) (w : World) :
    Int × World :=
  if ch < K.CHANNEL_NR_MIN ∨ ch > 2 * K.OD_CH_NR_MAX then
    (K.ERROR, printf "Open drain channel out of range!\n" w)
  else
    let r := i2cMem8Write B dev K.I2C_MEM_OD_P_SET_CMD
      [((0x0f &&& toU8 ch) ||| PULSE_EXEC_MASK) % 256] w
    if K.OK ≠ r.1 then
      (K.ERROR, printf "Fail to write!\n" r.2)
    else
      (K.OK, r.2)

/-- Function `odResetPulses`, plcpi.c:1073. -/
def odResetPulses (K : Consts) (B : Bus) (dev : Int) (ch : Int) (w : World) :
    Int × World :=
  odWritePulses K B dev ch 0 w

/-- Function `odReadPulses`, plcpi.c:1078. -/
def odReadPulses (K : Consts) (B : Bus) (dev : Int) (ch : Int) (val : Nat)
    (w : World) : Int × Nat × World :=
  if ch < K.CHANNEL_NR_MIN ∨ ch > K.OD_CH_NR_MAX then
    (K.ERROR, val, printf "Open drain channel out of range!\n" w)
  else
    let r := i2cReadDWord B dev (K.I2C_MEM_OD_PULSE_CNT_SET + 4 * (ch - 1)) w
    if K.OK ≠ r.1 then
      (K.ERROR, val, printf "Fail to read!\n" r.2.2)
    else
      (K.OK, r.2.1, r.2.2)

/-- Function `pwmFreqGet`, plcpi.c:1283. -/
def pwmFreqGet (K : Consts) (B : Bus) (dev : Int) (val : Int) (w : World) :
    Int × Int × World :=
  let r := i2cReadWordAS B dev K.I2C_MEM_OD_PWM_FREQUENCY w
  if K.OK ≠ r.1 then
    (K.ERROR, val, printf "Fail to read!\n" r.2.2)
  else
    (K.OK, (r.2.1 : Int), r.2.2)

/-- The value of `raw` in `pwmFreqSet` and `pwmChFreqSet`: `(u16)val` after the
two clamps. -/
def pwmRaw (val : Int) : Nat :=
  let val1 := if val < 10 then 10 else val
  let val2 := if val1 > 65500 then 65500 else val1
  toU16 val2

/-- Function `pwmFreqSet`, plcpi.c:1296. -/
def pwmFreqSet (K : Consts) (B : Bus) (dev : Int) (val : Int) (w : World) :
    Int × World :=
  let r := i2cMem8Write B dev K.I2C_MEM_OD_PWM_FREQUENCY (le16 (pwmRaw val)) w
  if K.OK ≠ r.1 then
    (K.ERROR, printf "Fail to write!\n" r.2)
  else
    (K.OK, r.2)

/-- Function `pwmChFreqSet`, plcpi.c:1319. -/
def pwmChFreqSet (K : Consts) (B : Bus) (dev : Int) (ch : Int) (val : Int)
    (w : World) : Int × World :=
  let r := i2cMem8Write B dev (K.I2C_MEM_OD_PWM_FREQUENCY_CH1 + (ch - 1) * 2)
    (le16 (pwmRaw val)) w
  if K.OK ≠ r.1 then
    (K.ERROR, printf "Fail to write!\n" r.2)
  else
    (K.OK, r.2)

/-- Macro `MAX_ACC`, plcpi.c:1456. -/
def MAX_ACC : Int := 60000

/-- Macro `MAX_SPEED`, plcpi.c:1457. -/
def MAX_SPEED : Int := 60000

/-- Macro `MIN_SPEED`, plcpi.c:1458. -/
def MIN_SPEED : Int := 10

/-- Function `odOutMoveSet`, plcpi.c:1460.  The two speed tests print and fall
through. -/
def odOutMoveSet (K : Consts) (B : Bus) (dev : Int) (ch acc dec minSpd maxSpd : Int)
    (w : World) : Int × World :=
  if ch ≤ 0 ∨ ch > 4 then
    (-1, printf "invalid Channel number [1..4]\n" w)
  else if acc < 0 ∨ acc > MAX_ACC then
    (-1, printf "Invalid acceleration value\n" w)
  else if dec < 0 ∨ dec > MAX_ACC then
    (-1, printf "Invalid deceleration value\n" w)
  else
    let w1 := if maxSpd < MIN_SPEED ∨ maxSpd > MAX_SPEED then
      printf "Invalid speed [10..60000]\n" w else w
    let w2 := if minSpd < MIN_SPEED ∨ minSpd > maxSpd then
      printf "Invalid speed [10..60000]\n" w1 else w1
    let r1 := i2cMem8Write B dev K.I2C_MEM_ODP_ACC
      (le16 (toU16 acc) ++ le16 (toU16 dec) ++ le16 (toU16 maxSpd) ++ le16 (toU16 minSpd)) w2
    if K.OK ≠ r1.1 then
      (-1, printf "Fail to write\n" r1.2)
    else
      let r2 := i2cMem8Write B dev K.I2C_MEM_ODP_CMD [toU8 ch] r1.2
      if K.OK ≠ r2.1 then
        (-1, printf "Fail to write\n" r2.2)
      else
        (K.OK, r2.2)

/-- Function `encSetThreshold`, plcpi.c:1556. -/
def encSetThreshold (K : Consts) (B : Bus) (dev : Int) (ch : Int) (val : Nat)
    (w : World) : Int × World :=
  if ch < K.CHANNEL_NR_MIN ∨ ch > K.OD_CH_NR_MAX then
    (K.ERROR, printf "Open drain channel out of range!\n" w)
  else
    let r := i2cMem8Write B dev K.I2C_MEM_ENCODER_LIMIT (le32 val ++ [toU8 ch]) w
    if K.OK ≠ r.1 then
      (K.ERROR, printf "Fail to write!\n" r.2)
    else
      (K.OK, r.2)

/-! ## The command table (`cli.h` and the descriptors of `plcpi.c`) -/

/-- The functions a descriptor of `gCmdArray` points to.  The handlers of the
optocoupled inputs and encoders are declared in `plcpi.h` and defined in
another translation unit. -/
inductive PFunc where
  | doHelp | doVersion | doWarranty | doList | doBoard
  | doRelayWrite | doRelayRead | doRelayTest
  | doGpioEncoderCntRead | doGpioEncoderCntReset | doInCmdSet
  | doOptoRead | doOptoEdgeWrite | doOptoEdgeRead | doOptoCntRead | doOptoCntReset
  | doOptoEncoderWrite | doOptoEncoderRead | doOptoEncoderCntRead | doOptoEncoderCntReset
  | doOdRead | doOdWrite | doOdCntRead | doOdCntWrite | doOdCntSave | doOdCntExec
  | doOdCntReset | doPwmFreqRead | doPwmFreqWrite | doMoveParWrite | doEncThWr
  deriving DecidableEq, Repr

/-- Type `CliCmdType`, cli.h:7.  `name` is `none` for a NULL pointer and `pFunc`
names the function pointed to. -/
structure CliCmdType where
  name : Option String
  namePos : Int
  pFunc : PFunc
  help : String
  usage1 : String
  usage2 : String
  «example» : String
  deriving DecidableEq

/-- Descriptor `CMD_HELP`, plcpi.c:131. -/
def CMD_HELP : CliCmdType where
  name := some "-h"
  namePos := 1
  pFunc := PFunc.doHelp
  help := "\t-h\t\tDisplay the list of command options or one command option details\n"
  usage1 := "\tUsage:\t\tplcpi -h    Display command options list\n"
  usage2 := "\tUsage:\t\tplcpi -h <param>   Display help for <param> command option\n"
  «example» := "\tExample:\t\tplcpi -h rread    Display help for \"rread\" command option\n"

/-- Descriptor `CMD_VERSION`, plcpi.c:186. -/
def CMD_VERSION : CliCmdType where
  name := some "-v"
  namePos := 1
  pFunc := PFunc.doVersion
  help := "\t-v\t\tDisplay the plcpi command version number\n"
  usage1 := "\tUsage:\t\tplcpi -v\n"
  usage2 := ""
  «example» := "\tExample:\t\tplcpi -v  Display the version number\n"

/-- Descriptor `CMD_WAR`, plcpi.c:202. -/
def CMD_WAR : CliCmdType where
  name := some "-warranty"
  namePos := 1
  pFunc := PFunc.doWarranty
  help := "\t-warranty\tDisplay the warranty\n"
  usage1 := "\tUsage:\t\tplcpi -warranty\n"
  usage2 := ""
  «example» := "\tExample:\t\tplcpi -warranty  Display the warranty text\n"

/-- Descriptor `CMD_LIST`, plcpi.c:213. -/
def CMD_LIST : CliCmdType where
  name := some "-list"
  namePos := 1
  pFunc := PFunc.doList
  help := "\t-list:\t\tList all plcpi boards connected,return the # of boards and stack level for every board\n"
  usage1 := "\tUsage:\t\tplcpi -list\n"
  usage2 := ""
  «example» := "\tExample:\t\tplcpi -list display: 1,0 \n"

/-- Descriptor `CMD_BOARD`, plcpi.c:250. -/
def CMD_BOARD : CliCmdType where
  name := some "board"
  namePos := 2
  pFunc := PFunc.doBoard
  help := "\tboard\t\tDisplay the board status and firmware version number\n"
  usage1 := "\tUsage:\t\tplcpi <stack> board\n"
  usage2 := ""
  «example» := "\tExample:\t\tplcpi 0 board  Display vcc, temperature, firmware version \n"

/-- Descriptor `CMD_RELAY_WRITE`, plcpi.c:461. -/
def CMD_RELAY_WRITE : CliCmdType where
  name := some "relwr"
  namePos := 2
  pFunc := PFunc.doRelayWrite
  help := "\trelwr:\t\tSet relays On/Off\n"
  usage1 := "\tUsage:\t\tplcpi <stack> relwr <channel> <on/off>\n"
  usage2 := "\tUsage:\t\tplcpi <stack> relwr <value>\n"
  «example» := "\tExample:\t\tplcpi 0 relwr 2 1; Set Relay #2 on Board #0 On\n"

/-- Descriptor `CMD_RELAY_READ`, plcpi.c:577. -/
def CMD_RELAY_READ : CliCmdType where
  name := some "relrd"
  namePos := 2
  pFunc := PFunc.doRelayRead
  help := "\trelrd:\t\tRead relays status\n"
  usage1 := "\tUsage:\t\tplcpi <stack> relrd <channel>\n"
  usage2 := "\tUsage:\t\tplcpi <stack> relrd\n"
  «example» := "\tExample:\t\tplcpi 0 relrd 2; Read Status of Relay #2 on Board #0\n"

/-- Descriptor `CMD_TEST`, plcpi.c:638. -/
def CMD_TEST : CliCmdType where
  name := some "reltest"
  namePos := 2
  pFunc := PFunc.doRelayTest
  help := "\treltest:\tTurn ON and OFF the relays until press a key\n"
  usage1 := "\tUsage:\t\tplcpi <stack> reltest\n"
  usage2 := ""
  «example» := "\tExample:\t\tplcpi 0 reltest\n"

/-- Descriptor `CMD_GPIO_ENC_CNT_READ`, plcpi.c:777. -/
def CMD_GPIO_ENC_CNT_READ : CliCmdType where
  name := some "cntencrd"
  namePos := 2
  pFunc := PFunc.doGpioEncoderCntRead
  help := "\tcntencrd:\tRead PLC Pi08 encoder count \n"
  usage1 := "\tUsage:\t\tplcpi <stack> cntencrd \n"
  usage2 := ""
  «example» := "\tExample:\t\tplcpi 0 cntencrd ; Read couter of the PLC Pi08 encoder \n"

/-- Descriptor `CMD_GPIO_ENC_CNT_RESET`, plcpi.c:782. -/
def CMD_GPIO_ENC_CNT_RESET : CliCmdType where
  name := some "cntencrst"
  namePos := 2
  pFunc := PFunc.doGpioEncoderCntReset
  help := "\tcntencrst:\tReset PLC Pi08 encoder count \n"
  usage1 := "\tUsage:\t\tplcpi <stack> cntencrst \n"
  usage2 := ""
  «example» := "\tExample:\t\tplcpi 0 cntencrst 2; Reset contor of the PLC Pi08 encoder\n"

/-- Descriptor `CMD_OPTO_OD_CMD_SET`, plcpi.c:787. -/
def CMD_OPTO_OD_CMD_SET : CliCmdType where
  name := some "incmd"
  namePos := 2
  pFunc := PFunc.doInCmdSet
  help := "\tincmd:\tSet PLC Pi08 command for input channel \n"
  usage1 := "\tUsage:\t\tplcpi <stack> incmd <inCh> <outCh> <cnt>\n"
  usage2 := ""
  «example» := "\tExample:\t\tplcpi 0 incmd 2 1 1000; PLC Pi08 od channel 1 will start 1000 pulses on rising edge of the input channel 2\n"

/-- Descriptor `CMD_OPTO_READ`, plcpi.c:793. -/
def CMD_OPTO_READ : CliCmdType where
  name := some "optrd"
  namePos := 2
  pFunc := PFunc.doOptoRead
  help := "\toptrd:\t\tRead optocoupled inputs status\n"
  usage1 := "\tUsage:\t\tplcpi <stack> optrd <channel>\n"
  usage2 := "\tUsage:\t\tplcpi <stack> optrd\n"
  «example» := "\tExample:\t\tplcpi 0 optrd 2; Read Status of Optocoupled input ch #2 on Board #0\n"

/-- Descriptor `CMD_OPTO_EDGE_WRITE`, plcpi.c:799. -/
def CMD_OPTO_EDGE_WRITE : CliCmdType where
  name := some "optedgewr"
  namePos := 2
  pFunc := PFunc.doOptoEdgeWrite
  help := "\toptedgewr:\tSet optocoupled channel counting edges  0- count disable; 1-count rising edges; 2 - count falling edges; 3 - count both edges\n"
  usage1 := "\tUsage:\t\tplcpi <stack> optedgewr <channel> <edges> \n"
  usage2 := ""
  «example» := "\tExample:\tplcpi 0 optedgewr 2 1; Set Optocoupled channel #2 on Board #0 to count rising edges\n"

/-- Descriptor `CMD_OPTO_EDGE_READ`, plcpi.c:805. -/
def CMD_OPTO_EDGE_READ : CliCmdType where
  name := some "optedgerd"
  namePos := 2
  pFunc := PFunc.doOptoEdgeRead
  help := "\toptedgerd:\tRead optocoupled counting edges 0 - none; 1 - rising; 2 - falling; 3 - both\n"
  usage1 := "\tUsage:\t\tplcpi <stack> optedgerd <pin>\n"
  usage2 := ""
  «example» := "\tExample:\t\tplcpi 0 optedgerd 2; Read counting edges of optocoupled channel #2 on Board #0\n"

/-- Descriptor `CMD_OPTO_CNT_READ`, plcpi.c:811. -/
def CMD_OPTO_CNT_READ : CliCmdType where
  name := some "optcntrd"
  namePos := 2
  pFunc := PFunc.doOptoCntRead
  help := "\toptcntrd:\tRead potocoupled inputs edges count for one pin\n"
  usage1 := "\tUsage:\t\tplcpi <stack> optcntrd <channel>\n"
  usage2 := ""
  «example» := "\tExample:\t\tplcpi 0 optcntrd 2; Read contor of opto input #2 on Board #0\n"

/-- Descriptor `CMD_OPTO_CNT_RESET`, plcpi.c:816. -/
def CMD_OPTO_CNT_RESET : CliCmdType where
  name := some "optcntrst"
  namePos := 2
  pFunc := PFunc.doOptoCntReset
  help := "\toptcntrst:\tReset optocoupled inputs edges count for one pin\n"
  usage1 := "\tUsage:\t\tplcpi <stack> optcntrst <channel>\n"
  usage2 := ""
  «example» := "\tExample:\t\tplcpi 0 optcntrst 2; Reset contor of opto input #2 on Board #0\n"

/-- Descriptor `CMD_OPTO_ENC_WRITE`, plcpi.c:822. -/
def CMD_OPTO_ENC_WRITE : CliCmdType where
  name := some "optencwr"
  namePos := 2
  pFunc := PFunc.doOptoEncoderWrite
  help := "\toptencwr:\tEnable / Disable optocoupled quadrature encoder, encoder 1 connected to opto ch1 and 2, encoder 2 on ch3 and 4 ... \n"
  usage1 := "\tUsage:\t\tplcpi <stack> optencwr <channel> <0/1> \n"
  usage2 := ""
  «example» := "\tExample:\tplcpi 0 optencwr 2 1; Enable encoder on opto channel 3/4  on Board stack level 0\n"

/-- Descriptor `CMD_OPTO_ENC_READ`, plcpi.c:828. -/
def CMD_OPTO_ENC_READ : CliCmdType where
  name := some "optencrd"
  namePos := 2
  pFunc := PFunc.doOptoEncoderRead
  help := "\toptencrd:\tRead optocoupled quadrature encoder state 0- disabled 1 - enabled\n"
  usage1 := "\tUsage:\t\tplcpi <stack> optencrd <channel>\n"
  usage2 := ""
  «example» := "\tExample:\t\tplcpi 0 optencrd 2; Read state of optocoupled encoder channel #2 on Board #0\n"

/-- Descriptor `CMD_OPTO_ENC_CNT_READ`, plcpi.c:834. -/
def CMD_OPTO_ENC_CNT_READ : CliCmdType where
  name := some "optcntencrd"
  namePos := 2
  pFunc := PFunc.doOptoEncoderCntRead
  help := "\toptcntencrd:\tRead potocoupled encoder count for one channel\n"
  usage1 := "\tUsage:\t\tplcpi <stack> optcntencrd <channel>\n"
  usage2 := ""
  «example» := "\tExample:\t\tplcpi 0 optcntencrd 2; Read contor of opto encoder #2 on Board #0\n"

/-- Descriptor `CMD_OPTO_ENC_CNT_RESET`, plcpi.c:840. -/
def CMD_OPTO_ENC_CNT_RESET : CliCmdType where
  name := some "optcntencrst"
  namePos := 2
  pFunc := PFunc.doOptoEncoderCntReset
  help := "\toptcntencrst:\tReset optocoupled encoder count \n"
  usage1 := "\tUsage:\t\tplcpi <stack> optcntencrst <channel>\n"
  usage2 := ""
  «example» := "\tExample:\t\tplcpi 0 optcntencrst 2; Reset contor of encoder #2 on Board #0\n"

/-- Descriptor `CMD_OD_READ`, plcpi.c:895. -/
def CMD_OD_READ : CliCmdType where
  name := some "odrd"
  namePos := 2
  pFunc := PFunc.doOdRead
  help := "\todrd:\t\tRead open drain output pwm value (0% - 100%)\n"
  usage1 := "\tUsage:\t\tplcpi <stack> odrd <channel>\n"
  usage2 := ""
  «example» := "\tExample:\t\tplcpi 0 odrd 2; Read pwm value of open drain channel #2 on Board #0\n"

/-- Descriptor `CMD_OD_WRITE`, plcpi.c:939. -/
def CMD_OD_WRITE : CliCmdType where
  name := some "odwr"
  namePos := 2
  pFunc := PFunc.doOdWrite
  help := "\todwr:\t\tWrite open drain output pwm value (0% - 100%), Warning: This function change the output of the coresponded DAC channel\n"
  usage1 := "\tUsage:\t\tplcpi <stack> odwr <channel> <value>\n"
  usage2 := ""
  «example» := "\tExample:\t\tplcpi 0 odwr 2 12.5; Write pwm 12.5% to open drain channel #2 on Board #0\n"

/-- Descriptor `CMD_OD_CNT_READ`, plcpi.c:1097. -/
def CMD_OD_CNT_READ : CliCmdType where
  name := some "odcrd"
  namePos := 2
  pFunc := PFunc.doOdCntRead
  help := "\todcrd:\t\tRead open drain remaining pulses to perform\n"
  usage1 := "\tUsage:\t\tplcpi <stack> odcrd <channel>\n"
  usage2 := ""
  «example» := "\tExample:\t\tplcpi 0 odcrd 2; Read remaining pulses to perform of open drain channel #2 on Board #0\n"

/-- Descriptor `CMD_OD_CNT_WRITE`, plcpi.c:1131. -/
def CMD_OD_CNT_WRITE : CliCmdType where
  name := some "odcwr"
  namePos := 2
  pFunc := PFunc.doOdCntWrite
  help := "\todcwr:\t\t\tWrite open drain output pulses to perform, value 0..65535. The open-drain channel will output <value> # of pulses 50% fill factor with current pwm frequency\n"
  usage1 := "\tUsage:\t\tplcpi <stack> odcwr <channel> <value>\n"
  usage2 := ""
  «example» := "\tExample:\t\tplcpi 0 odwr 2 100; set 100 pulses to perform for open drain channel #2 on Board #0\n"

/-- Descriptor `CMD_OD_CNT_SAVE`, plcpi.c:1170. -/
def CMD_OD_CNT_SAVE : CliCmdType where
  name := some "odcs"
  namePos := 2
  pFunc := PFunc.doOdCntSave
  help := "\todcs:\t\t\tSave pulses counts to be executed with single byte command\n"
  usage1 := "\tUsage:\t\tplcpi <stack> odcs <channel> <value>\n"
  usage2 := ""
  «example» := "\tExample:\t\tplcpi 0 odcs 2 100; set 100 pulses to be performed for open drain channel #2 on Board #0\n"

/-- Descriptor `CMD_OD_CNT_EXEC`, plcpi.c:1209. -/
def CMD_OD_CNT_EXEC : CliCmdType where
  name := some "odcx"
  namePos := 2
  pFunc := PFunc.doOdCntExec
  help := "\todcx:\t\t\tExecute previous saved pulses counts with single byte command\n"
  usage1 := "\tUsage:\t\tplcpi <stack> odcx <channel>\n"
  usage2 := ""
  «example» := "\tExample:\t\tplcpi 0 odcx 2 -> execute previous saved pulses for open drain channel #2 on Board #0\n"

/-- Descriptor `CMD_OD_CNT_RST`, plcpi.c:1246. -/
def CMD_OD_CNT_RST : CliCmdType where
  name := some "odcrst"
  namePos := 2
  pFunc := PFunc.doOdCntReset
  help := "\todcrst:\t\t\tReset open drain output pulses to perform\n"
  usage1 := "\tUsage:\t\tplcpi <stack> odcrst <channel>\n"
  usage2 := ""
  «example» := "\tExample:\t\tplcpi 0 odwr 2; stop pulses for open drain channel #2 on Board #0\n"

/-- Descriptor `CMD_PWM_FREQ_READ`, plcpi.c:1345. -/
def CMD_PWM_FREQ_READ : CliCmdType where
  name := some "pwmfrd"
  namePos := 2
  pFunc := PFunc.doPwmFreqRead
  help := "\tpwmfrd:\t\tRead open-drain pwm frequency in Hz \n"
  usage1 := "\tUsage:\t\tplcpi <stack> pwmfrd\n"
  usage2 := ""
  «example» := "\tExample:\t\tplcpi 0 pwmfrd; Read the pwm frequency for all open drain output channels\n"

/-- Descriptor `CMD_PWM_FREQ_WRITE`, plcpi.c:1387. -/
def CMD_PWM_FREQ_WRITE : CliCmdType where
  name := some "pwmfwr"
  namePos := 2
  pFunc := PFunc.doPwmFreqWrite
  help := "\tpwmfwr:\t\tWrite open dran output pwm frequency in Hz [10..64000]\n"
  usage1 := "\tUsage:\t\tplcpi <stack> pwmfwr <value>\n"
  usage2 := "\tUsage:\t\tplcpi <stack> pwmfwr <channel> <value>\n"
  «example» := "\tExample:\t\tplcpi 0 dacwr 200; Set the open-drain output pwm frequency to 200Hz \n"

/-- Descriptor `CMD_MV_P_WRITE`, plcpi.c:1513. -/
def CMD_MV_P_WRITE : CliCmdType where
  name := some "mvpwr"
  namePos := 2
  pFunc := PFunc.doMoveParWrite
  help := "\tmvpwr:\t\tWrite open drain output movement profile parameters\n"
  usage1 := "\tUsage:\t\tplcpi <stack> mvpwr <channel> <acc> <dec> <min_speed> <max_speed>\n"
  usage2 := ""
  «example» := "\tExample:\t\tplcpi 0 mvpwr 1 1000 500 1000 20000; Set the open-drain output profile parameters \n"

/-- Descriptor `CMD_ENC_TH_WRITE`, plcpi.c:1580. -/
def CMD_ENC_TH_WRITE : CliCmdType where
  name := some "encthwr"
  namePos := 2
  pFunc := PFunc.doEncThWr
  help := "\tencthwr:\t\t\tSet the encoder threshold value and od channel action\n"
  usage1 := "\tUsage:\t\tplcpi <stack> encthwr <channel> <value>\n"
  usage2 := ""
  «example» := "\tExample:\t\tplcpi 0 encthwr 2 1000; set 1000 the threshold for encoder to reset open drain channel #2 pulses on Board #0\n"

/-- Table `gCmdArray`, plcpi.c:1621, up to its NULL terminator.  `HW_DEBUG` is not
defined, so `CMD_ERR` is not an entry. -/
def gCmdArray : List CliCmdType :=
  [CMD_VERSION, CMD_HELP, CMD_WAR, CMD_LIST, CMD_BOARD,
   CMD_RELAY_WRITE, CMD_RELAY_READ, CMD_TEST, CMD_GPIO_ENC_CNT_READ,
   CMD_GPIO_ENC_CNT_RESET, CMD_OPTO_READ, CMD_OPTO_EDGE_READ,
   CMD_OPTO_EDGE_WRITE, CMD_OPTO_CNT_READ, CMD_OPTO_CNT_RESET,
   CMD_OPTO_ENC_WRITE, CMD_OPTO_ENC_READ, CMD_OPTO_ENC_CNT_READ,
   CMD_OPTO_ENC_CNT_RESET, CMD_OD_READ, CMD_OD_WRITE, CMD_OD_CNT_READ,
   CMD_OD_CNT_WRITE, CMD_OD_CNT_SAVE, CMD_OD_CNT_EXEC, CMD_OD_CNT_RST,
   CMD_PWM_FREQ_READ, CMD_PWM_FREQ_WRITE, CMD_OPTO_OD_CMD_SET, CMD_ENC_TH_WRITE,
   CMD_MV_P_WRITE]

/-- The loop of `usage` over the table. -/
def usageLoop : List CliCmdType → World → World
  | [], w => w
  | d :: rest, w =>
    if d.name ≠ none then
      let w1 := if d.usage1.length > 2 then printf d.usage1 w else w
      let w2 := if d.usage2.length > 2 then printf d.usage2 w1 else w1
      usageLoop rest w2
    else
      usageLoop rest w

/-- Function `usage`, plcpi.c:53. -/
def usage (w : World) : World :=
  printf "Type plcpi -h <command> for more help\n"
    (printf "Where: <stack> = Board level id = 0..7\n" (usageLoop gCmdArray w))

/-! ## Handlers without board access -/

/-- First loop of `doHelp`: the entry at which the scan stops with `break`. -/
def helpFind (tok : String) : List CliCmdType → Option CliCmdType
  | [] => none
  | d :: rest =>
    match d.name with
    | some nm => if strcasecmp tok nm = 0 then some d else helpFind tok rest
    | none => helpFind tok rest

/-- Second loop of `doHelp`: prints the help line of the first named entry. -/
def helpFirst : List CliCmdType → World → World
  | [], w => w
  | d :: rest, w => if d.name ≠ none then printf d.help w else helpFirst rest w

/-- Third loop of `doHelp`: prints the help line of every named entry. -/
def helpAll : List CliCmdType → World → World
  | [], w => w
  | d :: rest, w =>
    if d.name ≠ none then helpAll rest (printf d.help w) else helpAll rest w

/-- Function `doHelp`, plcpi.c:137. -/
def doHelp (K : Consts) (argc : Int) (argv : List String) (w : World) : Run :=
  if argc = 3 then
    (argvAt argv 2).bind fun a2 =>
    match helpFind a2 gCmdArray with
    | some d => .ok (K.OK, printf (d.help ++ d.usage1 ++ d.usage2 ++ d.«example») w)
    | none =>
      .ok (K.OK, helpFirst gCmdArray (printf ("Option \"" ++ a2 ++ "\" not found\n") w))
  else
    .ok (K.OK, helpAll gCmdArray w)

/-- Macro `VERSION_BASE`, plcpi.c:26. -/
def VERSION_BASE : Int := 1

/-- Macro `VERSION_MAJOR`, plcpi.c:27. -/
def VERSION_MAJOR : Int := 1

/-- Macro `VERSION_MINOR`, plcpi.c:28. -/
def VERSION_MINOR : Int := 0

/-- Function `doVersion`, plcpi.c:190. -/
def doVersion (K : Consts) (_argc : Int) (_argv : List String) (w : World) : Run :=
  let w1 := printf ("plcpi v" ++ toString VERSION_BASE ++ "." ++ toString VERSION_MAJOR
    ++ "." ++ toString VERSION_MINOR
    ++ " Copyright (c) 2016 - 2023 Sequent Microsystems\n") w
  let w2 := printf "\nThis is free software with ABSOLUTELY NO WARRANTY.\n" w1
  .ok (K.OK, printf "For details type: plcpi -warranty\n" w2)

/-- The text `warranty`, plcpi.c:37. -/
def warranty : String :=
  "\t       Copyright (c) 2016-2024 Sequent Microsystems\n"
  ++ "                                                             \n"
  ++ "\t\tThis program is free software; you can redistribute it and/or modify\n"
  ++ "\t\tit under the terms of the GNU Leser General Public License as published\n"
  ++ "\t\tby the Free Software Foundation, either version 3 of the License, or\n"
  ++ "\t\t(at your option) any later version.\n"
  ++ "                                    \n"
  ++ "\t\tThis program is distributed in the hope that it will be useful,\n"
  ++ "\t\tbut WITHOUT ANY WARRANTY; without even the implied warranty of\n"
  ++ "\t\tMERCHANTABILITY or FITNESS FOR A PARTICULAR PURPOSE.  See the\n"
  ++ "\t\tGNU Lesser General Public License for more details.\n"
  ++ "\t\t\t\n"
  ++ "\t\tYou should have received a copy of the GNU Lesser General Public License\n"
  ++ "\t\talong with this program. If not, see <http://www.gnu.org/licenses/>."

/-- Function `doWarranty`, plcpi.c:206. -/
def doWarranty (K : Consts) (_argc : Int) (_argv : List String) (w : World) : Run :=
  .ok (K.OK, printf (warranty ++ "\n") w)

/-- The probing loop of `doList`: the stack levels still to probe, the levels
found so far (`ids[0..cnt-1]`), the state. -/
def listLoop (K : Consts) (B : Bus) : List Int → List Int → World → List Int × World
  | [], ids, w => (ids, w)
  | i :: rest, ids, w =>
    let r := boardCheck K B i w
    if r.1 = K.OK then listLoop K B rest (ids ++ [i]) r.2
    else listLoop K B rest ids r.2

/-- Function `doList`, plcpi.c:218. -/
def doList (K : Consts) (B : Bus) (_argc : Int) (_argv : List String) (w : World) :
    Run :=
  let r := listLoop K B [0, 1, 2, 3, 4, 5, 6, 7] [] w
  let cnt := r.1.length
  let w1 := printf (toString cnt ++ " board(s) detected\n") r.2
  let w2 := if cnt > 0 then printf "Id:" w1 else w1
  let w3 := r.1.reverse.foldl (fun acc i => printf (" " ++ toString i) acc) w2
  .ok (K.OK, printf "\n" w3)

/-! ## Handlers of the board, relay and open-drain commands -/

/-- Function `doBoard`, plcpi.c:255.  `resp` keeps the upper half of the status of the
first read when `memcpy` overwrites its lower two bytes; `voltage` is a `float`. -/
def doBoard (K : Consts) (B : Bus) (L : Libc) (argc : Int) (argv : List String)
    (w : World) : Run :=
  if argc ≠ 3 then
    .ok (K.ARG_ERR, printf "Invalid arguments number type \"plcpi -h\" for details\n" w)
  else
    (argvAt argv 1).bind fun a1 =>
    let r := doBoardInit K B (L.atoi a1) w
    let dev := r.1
    if dev ≤ 0 then
      .ok (K.FAIL, r.2)
    else
      let r1 := i2cMem8Read B dev K.I2C_MEM_DIAG_TEMPERATURE_ADD 3 r.2
      if K.FAIL = r1.1 then
        .ok (K.FAIL, printf "Fail to read board info!\n" r1.2.2)
      else
        let temperature : Int := byteAt r1.2.1 0
        let resp : Int := toI32 (toU32 r1.1 / 65536 * 65536
          + byteAt r1.2.1 1 + 256 * byteAt r1.2.1 2)
        let voltage : ℚ := toFloat (toFloat (resp : ℚ) / 1000)
        let r2 := i2cMem8Read B dev K.I2C_MEM_REVISION_HW_MAJOR_ADD 4 r1.2.2
        if K.FAIL = r2.1 then
          .ok (K.FAIL, printf "Fail to read board info!\n" r2.2.2)
        else
          .ok (K.OK, printf ("Hardware " ++ fmt02d (byteAt r2.2.1 0) ++ "."
            ++ fmt02d (byteAt r2.2.1 1) ++ ", Firmware " ++ fmt02d (byteAt r2.2.1 2)
            ++ "." ++ fmt02d (byteAt r2.2.1 3) ++ ", CPU temperature "
            ++ toString temperature ++ " C, voltage " ++ L.fmtF2 voltage ++ " V\n")
            r2.2.2)

/-- How a loop of a handler ends. -/
inductive LoopExit where
  /-- A `return code` inside the body. -/
  | ret (code : Int) (w : World)
  /-- The loop condition became false with this value of `retry`. -/
  | done (retry : Int) (w : World)
  /-- The step budget ran out before the loop ended. -/
  | spin

/-- The write-verify loop of the single-channel form of `doRelayWrite`,
plcpi.c:516.  `retry` falls by one in each iteration, so the first argument,
`RETRY_TIMES` at the call, counts the iterations that can still start: at `0`
the test `retry > 0` fails. -/
def relayChWriteLoop (K : Consts) (B : Bus) (dev : Int) (pin : Int) (state : Int) :
    Nat → Int → Int → World → LoopExit
  | 0, retry, _, w => .done retry w
  | n + 1, retry, stateR, w =>
    if retry > 0 ∧ stateR ≠ state then
      let r1 := relayChSet K B dev (toU8 pin) state w
      if K.OK ≠ r1.1 then
        .ret K.FAIL (printf "Fail to write relay\n" r1.2)
      else
        let r2 := relayChGet K B dev (toU8 pin) (some stateR) r1.2
        if K.OK ≠ r2.1 then
          .ret K.FAIL (printf "Fail to read relay\n" r2.2.2)
        else
          relayChWriteLoop K B dev pin state n (retry - 1) (r2.2.1.getD stateR) r2.2.2
    else
      .done retry w

/-- The write-verify loop of the whole-register form of `doRelayWrite`,
plcpi.c:553.  The body does not change `retry`; the first argument is the step
budget. -/
def relayWriteLoop (K : Consts) (B : Bus) (dev : Int) (val : Int) :
    Nat → Int → Int → World → LoopExit
  | 0, _, _, _ => .spin
  | n + 1, retry, valR, w =>
    if retry > 0 ∧ valR ≠ val then
      let r1 := relaySet K B dev val w
      if K.OK ≠ r1.1 then
        .ret K.FAIL (printf "Fail to write relay!\n" r1.2)
      else
        let r2 := relayGet K B dev (some valR) r1.2
        if K.OK ≠ r2.1 then
          .ret K.FAIL (printf "Fail to read relay!\n" r2.2.2)
        else
          relayWriteLoop K B dev val n retry (r2.2.1.getD valR) r2.2.2
    else
      .done retry w

/-- Function `doRelayWrite`, plcpi.c:467.  `fuel` bounds the iterations of the
whole-register loop. -/
def doRelayWrite (K : Consts) (B : Bus) (L : Libc) (fuel : Nat) (argc : Int)
    (argv : List String) (w : World) : Run :=
  if argc ≠ 5 ∧ argc ≠ 4 then
    .ok (K.FAIL, printf CMD_RELAY_WRITE.usage2 (printf CMD_RELAY_WRITE.usage1 w))
  else
    (argvAt argv 1).bind fun a1 =>
    let r := doBoardInit K B (L.atoi a1) w
    let dev := r.1
    if dev ≤ 0 then
      .ok (K.FAIL, r.2)
    else if argc = 5 then
      (argvAt argv 3).bind fun a3 =>
      let pin := L.atoi a3
      if pin < K.CHANNEL_NR_MIN ∨ pin > K.RELAY_CH_NR_MAX then
        .ok (K.FAIL, printf "Relay number value out of range\n" r.2)
      else
        (argvAt argv 4).bind fun a4 =>
        let parsed : Option Int :=
          if strcasecmp a4 "up" = 0 ∨ strcasecmp a4 "on" = 0 then some K.ON
          else if strcasecmp a4 "down" = 0 ∨ strcasecmp a4 "off" = 0 then some K.OFF
          else if L.atoi a4 ≥ K.STATE_COUNT ∨ L.atoi a4 < 0 then none
          else some (L.atoi a4)
        match parsed with
        | none => .ok (K.FAIL, printf "Invalid relay state!\n" r.2)
        | some state =>
          match relayChWriteLoop K B dev pin state K.RETRY_TIMES.toNat K.RETRY_TIMES
              K.STATE_COUNT r.2 with
          | .ret code w1 => .ok (code, w1)
          | .spin => .error Fault.fuel
          | .done retry w1 =>
            if retry = 0 then .ok (K.FAIL, printf "Fail to write relay\n" w1)
            else .ok (K.OK, w1)
    else
      (argvAt argv 3).bind fun a3 =>
      let val := L.atoi a3
      if val < 0 ∨ val > 255 then
        .ok (K.FAIL, printf "Invalid relay value\n" r.2)
      else
        match relayWriteLoop K B dev val fuel K.RETRY_TIMES (-1) r.2 with
        | .ret code w1 => .ok (code, w1)
        | .spin => .error Fault.fuel
        | .done retry w1 =>
          if retry = 0 then .ok (K.FAIL, printf "Fail to write relay!\n" w1)
          else .ok (K.OK, w1)

/-- Function `doRelayRead`, plcpi.c:583. -/
def doRelayRead (K : Consts) (B : Bus) (L : Libc) (argc : Int) (argv : List String)
    (w : World) : Run :=
  (argvAt argv 1).bind fun a1 =>
  let r := doBoardInit K B (L.atoi a1) w
  let dev := r.1
  if dev ≤ 0 then
    .ok (K.FAIL, r.2)
  else if argc = 4 then
    (argvAt argv 3).bind fun a3 =>
    let pin := L.atoi a3
    if pin < K.CHANNEL_NR_MIN ∨ pin > K.RELAY_CH_NR_MAX then
      .ok (K.FAIL, printf "Relay number value out of range!\n" r.2)
    else
      let g := relayChGet K B dev (toU8 pin) (some K.STATE_COUNT) r.2
      if K.OK ≠ g.1 then
        .ok (K.FAIL, printf "Fail to read!\n" g.2.2)
      else if g.2.1.getD K.STATE_COUNT ≠ 0 then
        .ok (K.OK, printf "1\n" g.2.2)
      else
        .ok (K.OK, printf "0\n" g.2.2)
  else if argc = 3 then
    let g := relayGet K B dev (some 0) r.2
    if K.OK ≠ g.1 then
      .ok (K.FAIL, printf "Fail to read!\n" g.2.2)
    else
      .ok (K.OK, printf (toString (g.2.1.getD 0) ++ "\n") g.2.2)
  else
    .ok (K.FAIL, printf CMD_RELAY_READ.usage2 (printf CMD_RELAY_READ.usage1 r.2))

/-- Function `doOdRead`, plcpi.c:901. -/
def doOdRead (K : Consts) (B : Bus) (L : Libc) (argc : Int) (argv : List String)
    (w : World) : Run :=
  (argvAt argv 1).bind fun a1 =>
  let r := doBoardInit K B (L.atoi a1) w
  let dev := r.1
  if dev ≤ 0 then
    .ok (K.FAIL, r.2)
  else if argc = 4 then
    (argvAt argv 3).bind fun a3 =>
    let ch := L.atoi a3
    if ch < K.CHANNEL_NR_MIN ∨ ch > K.OD_CH_NR_MAX then
      .ok (K.FAIL, printf "Open drain channel out of range!\n" r.2)
    else
      let g := odGet K B dev ch 0 r.2
      if K.OK ≠ g.1 then
        .ok (K.FAIL, printf "Fail to read!\n" g.2.2)
      else
        .ok (K.OK, printf (L.fmtF2 g.2.1 ++ "\n") g.2.2)
  else
    .ok (K.FAIL, printf ("Invalid params number:\n " ++ CMD_OD_READ.usage1) r.2)

/-- Function `doOdWrite`, plcpi.c:945.  The `double` of `atof` is stored in the
`float proc`, which rounds it, before the range test. -/
def doOdWrite (K : Consts) (B : Bus) (L : Libc) (argc : Int) (argv : List String)
    (w : World) : Run :=
  (argvAt argv 1).bind fun a1 =>
  let r := doBoardInit K B (L.atoi a1) w
  let dev := r.1
  if dev ≤ 0 then
    .ok (K.FAIL, r.2)
  else if argc = 5 then
    (argvAt argv 3).bind fun a3 =>
    let ch := L.atoi a3
    if ch < K.CHANNEL_NR_MIN ∨ ch > K.OD_CH_NR_MAX then
      .ok (K.FAIL, printf "Open drain channel out of range!\n" r.2)
    else
      (argvAt argv 4).bind fun a4 =>
      let proc := toFloat (L.atof a4)
      if proc < 0 ∨ proc > 100 then
        .ok (K.FAIL, printf "Invalid open drain pwm value, must be 0..100 \n" r.2)
      else
        let s := odSet K B dev ch proc r.2
        if K.OK ≠ s.1 then
          .ok (K.FAIL, printf "Fail to write!\n" s.2)
        else
          .ok (K.OK, printf "done\n" s.2)
  else
    .ok (K.FAIL, printf ("Invalid params number:\n " ++ CMD_OD_WRITE.usage1) r.2)

/-- Function `doOdCntRead`, plcpi.c:1103.  The `unsigned int` is printed with `%d`. -/
def doOdCntRead (K : Consts) (B : Bus) (L : Libc) (argc : Int) (argv : List String)
    (w : World) : Run :=
  (argvAt argv 1).bind fun a1 =>
  let r := doBoardInit K B (L.atoi a1) w
  let dev := r.1
  if dev ≤ 0 then
    .ok (K.FAIL, r.2)
  else if argc = 4 then
    (argvAt argv 3).bind fun a3 =>
    let ch := L.atoi a3
    let g := odReadPulses K B dev ch 0 r.2
    if K.OK ≠ g.1 then
      .ok (K.FAIL, g.2.2)
    else
      .ok (K.OK, printf (toString (toI32 g.2.1) ++ "\n") g.2.2)
  else
    .ok (K.ARG_CNT_ERR, r.2)

/-- Function `doOdCntWrite`, plcpi.c:1137. -/
def doOdCntWrite (K : Consts) (B : Bus) (L : Libc) (argc : Int) (argv : List String)
    (w : World) : Run :=
  (argvAt argv 1).bind fun a1 =>
  let r := doBoardInit K B (L.atoi a1) w
  let dev := r.1
  if dev ≤ 0 then
    .ok (K.FAIL, r.2)
  else if argc = 5 then
    (argvAt argv 3).bind fun a3 =>
    let ch := L.atoi a3
    (argvAt argv 4).bind fun a4 =>
    let value := toU32 (L.atol a4)
    let s := odWritePulses K B dev ch value r.2
    if K.OK ≠ s.1 then
      .ok (K.FAIL, s.2)
    else
      .ok (K.OK, printf "done\n" s.2)
  else
    .ok (K.FAIL, printf ("Invalid params number:\n " ++ CMD_OD_CNT_WRITE.usage1) r.2)

/-- Function `doOdCntSave`, plcpi.c:1176. -/
def doOdCntSave (K : Consts) (B : Bus) (L : Libc) (argc : Int) (argv : List String)
    (w : World) : Run :=
  (argvAt argv 1).bind fun a1 =>
  let r := doBoardInit K B (L.atoi a1) w
  let dev := r.1
  if dev ≤ 0 then
    .ok (K.FAIL, r.2)
  else if argc = 5 then
    (argvAt argv 3).bind fun a3 =>
    let ch := L.atoi a3
    (argvAt argv 4).bind fun a4 =>
    let value := toU32 (L.atol a4)
    let s := odSaveOdPulses K B dev ch value r.2
    if K.OK ≠ s.1 then
      .ok (K.FAIL, s.2)
    else
      .ok (K.OK, printf "done\n" s.2)
  else
    .ok (K.FAIL, printf ("Invalid params number:\n " ++ CMD_OD_CNT_SAVE.usage1) r.2)

/-- Function `doOdCntExec`, plcpi.c:1215. -/
def doOdCntExec (K : Consts) (B : Bus) (L : Libc) (argc : Int) (argv : List String)
    (w : World) : Run :=
  (argvAt argv 1).bind fun a1 =>
  let r := doBoardInit K B (L.atoi a1) w
  let dev := r.1
  if dev ≤ 0 then
    .ok (K.FAIL, r.2)
  else if argc = 4 then
    (argvAt argv 3).bind fun a3 =>
    let ch := L.atoi a3
    let s := odExecPulses K B dev ch r.2
    if K.OK ≠ s.1 then
      .ok (K.FAIL, s.2)
    else
      .ok (K.OK, printf "done\n" s.2)
  else
    .ok (K.FAIL, printf ("Invalid params number:\n " ++ CMD_OD_CNT_EXEC.usage1) r.2)

/-- Function `doOdCntReset`, plcpi.c:1252. -/
def doOdCntReset (K : Consts) (B : Bus) (L : Libc) (argc : Int) (argv : List String)
    (w : World) : Run :=
  (argvAt argv 1).bind fun a1 =>
  let r := doBoardInit K B (L.atoi a1) w
  let dev := r.1
  if dev ≤ 0 then
    .ok (K.FAIL, r.2)
  else if argc = 4 then
    (argvAt argv 3).bind fun a3 =>
    let ch := L.atoi a3
    let s := odResetPulses K B dev ch r.2
    if K.OK ≠ s.1 then
      .ok (K.FAIL, s.2)
    else
      .ok (K.OK, printf "done\n" s.2)
  else
    .ok (K.FAIL, printf ("Invalid params number:\n " ++ CMD_OD_CNT_RST.usage1) r.2)

/-- Function `doPwmFreqRead`, plcpi.c:1351. -/
def doPwmFreqRead (K : Consts) (B : Bus) (L : Libc) (argc : Int) (argv : List String)
    (w : World) : Run :=
  (argvAt argv 1).bind fun a1 =>
  let r := doBoardInit K B (L.atoi a1) w
  let dev := r.1
  if dev ≤ 0 then
    .ok (K.FAIL, r.2)
  else if r.2.gHwVer < 3 then
    .ok (K.FAIL, printf
      "This feature is available on hardware versions greater or equal to 3.0!\n" r.2)
  else if argc = 3 then
    let g := pwmFreqGet K B dev 0 r.2
    if K.OK ≠ g.1 then
      .ok (K.FAIL, printf "Fail to read!\n" g.2.2)
    else
      .ok (K.OK, printf (toString g.2.1 ++ " Hz\n") g.2.2)
  else
    .ok (K.FAIL, printf ("Invalid params number:\n " ++ CMD_PWM_FREQ_READ.usage1) r.2)

/-- Function `doPwmFreqWrite`, plcpi.c:1394.  The result of `atof` is converted to the
`int val`. -/
def doPwmFreqWrite (K : Consts) (B : Bus) (L : Libc) (argc : Int) (argv : List String)
    (w : World) : Run :=
  (argvAt argv 1).bind fun a1 =>
  let r := doBoardInit K B (L.atoi a1) w
  let dev := r.1
  if dev ≤ 0 then
    .ok (K.FAIL, r.2)
  else if r.2.gHwVer < 3 then
    .ok (K.FAIL, printf
      "This feature is available on hardware versions greater or equal to 3.0!\n" r.2)
  else if argc = 4 then
    (argvAt argv 3).bind fun a3 =>
    let val := truncToInt (L.atof a3)
    if val < 10 ∨ val > 65500 then
      .ok (K.FAIL, printf "Invalid pwm frequency value, must be 10..65000 \n" r.2)
    else
      let s := pwmFreqSet K B dev val r.2
      if K.OK ≠ s.1 then
        .ok (K.FAIL, printf "Fail to write!\n" s.2)
      else
        .ok (K.OK, printf "done\n" s.2)
  else if argc = 5 then
    (argvAt argv 3).bind fun a3 =>
    let channel := L.atoi a3
    if channel < 1 ∨ channel > 4 then
      .ok (K.FAIL, printf "Invalid channel number, must be 1..4 \n" r.2)
    else
      (argvAt argv 4).bind fun a4 =>
      let val := truncToInt (L.atof a4)
      if val < 10 ∨ val > 65500 then
        .ok (K.FAIL, printf "Invalid pwm frequency value, must be 10..65000 \n" r.2)
      else
        let s := pwmChFreqSet K B dev channel val r.2
        if K.OK ≠ s.1 then
          .ok (K.FAIL, printf "Fail to write!\n" s.2)
        else
          .ok (K.OK, printf "done\n" s.2)
  else
    .ok (K.FAIL, printf ("Invalid params number:\n " ++ CMD_PWM_FREQ_WRITE.usage1) r.2)

/-- Function `doMoveParWrite`, plcpi.c:1520. -/
def doMoveParWrite (K : Consts) (B : Bus) (L : Libc) (argc : Int) (argv : List String)
    (w : World) : Run :=
  (argvAt argv 1).bind fun a1 =>
  let r := doBoardInit K B (L.atoi a1) w
  let dev := r.1
  if dev ≤ 0 then
    .ok (K.FAIL, r.2)
  else if r.2.gHwVer < 3 then
    .ok (K.FAIL, printf
      "This feature is available on hardware versions greater or equal to 3.0!\n" r.2)
  else if argc ≠ 8 then
    .ok (K.FAIL, printf ("Invalid argument number " ++ CMD_MV_P_WRITE.usage1) r.2)
  else
    (argvAt argv 3).bind fun a3 =>
    (argvAt argv 4).bind fun a4 =>
    (argvAt argv 5).bind fun a5 =>
    (argvAt argv 6).bind fun a6 =>
    (argvAt argv 7).bind fun a7 =>
    .ok (odOutMoveSet K B dev (L.atoi a3) (L.atoi a4) (L.atoi a5) (L.atoi a6)
      (L.atoi a7) r.2)

/-- Function `doEncThWr`, plcpi.c:1586. -/
def doEncThWr (K : Consts) (B : Bus) (L : Libc) (argc : Int) (argv : List String)
    (w : World) : Run :=
  (argvAt argv 1).bind fun a1 =>
  let r := doBoardInit K B (L.atoi a1) w
  let dev := r.1
  if dev ≤ 0 then
    .ok (K.FAIL, r.2)
  else if argc = 5 then
    (argvAt argv 3).bind fun a3 =>
    let ch := L.atoi a3
    (argvAt argv 4).bind fun a4 =>
    let value := toU32 (L.atol a4)
    let s := encSetThreshold K B dev ch value r.2
    if K.OK ≠ s.1 then
      .ok (K.FAIL, s.2)
    else
      .ok (K.OK, printf "done\n" s.2)
  else
    .ok (K.FAIL, printf ("Invalid params number:\n " ++ CMD_ENC_TH_WRITE.usage1) r.2)

/-! ## The relay self-test -/

/-- What the other translation units of the program supply: the handlers
`plcpi.c` only declares, and the answer of `checkThreadResult` (`thread.h`) at
its `k`-th call, `k = 0, 1, ...`. -/
structure Ext where
  handler : PFunc → Int → List String → World → Run
  checkThreadResult : Nat → Int

/-- Call `checkThreadResult()`: the answer of the watcher at this poll. -/
def checkThreadResult (X : Ext) (w : World) : Int × World :=
  (X.checkThreadResult w.polls, { w with polls := w.polls + 1 })

/-- Call `fprintf(file, ...)`: appends to the result file. -/
def fprintf (s : String) (w : World) : World :=
  { w with file := w.file ++ s }

/-- Table `relayOrder`, plcpi.c:651. -/
def relayOrder : List Nat := [1, 2, 3, 4, 5, 6, 7, 8]

/-- The loop at plcpi.c:687, which switches one relay on and reads the
register back; the result is the final `retry`.  The body never lowers
`retry` while both calls succeed; the first argument is the step budget. -/
def relayTestOnLoop (K : Consts) (B : Bus) (dev : Int) (ch : Nat) (relVal : Nat) :
    Nat → Int → Int → World → Option (Int × World)
  | 0, _, _, _ => none
  | n + 1, retry, valR, w =>
    if retry > 0 ∧ toU32 valR &&& relVal = 0 then
      let r1 := relayChSet K B dev ch K.ON w
      if K.OK ≠ r1.1 then
        some (0, r1.2)
      else
        let r2 := relayGet K B dev (some valR) r1.2
        if K.OK ≠ r2.1 then
          relayTestOnLoop K B dev ch relVal n 0 (r2.2.1.getD valR) r2.2.2
        else
          relayTestOnLoop K B dev ch relVal n retry (r2.2.1.getD valR) r2.2.2
    else
      some (retry, w)

/-- The loop at plcpi.c:720, which switches one relay off. -/
def relayTestOffLoop (K : Consts) (B : Bus) (dev : Int) (ch : Nat) (relVal : Nat) :
    Nat → Int → Int → World → Option (Int × World)
  | 0, _, _, _ => none
  | n + 1, retry, valR, w =>
    if retry > 0 ∧ toU32 valR &&& relVal ≠ 0 then
      let r1 := relayChSet K B dev ch K.OFF w
      let retry1 := if K.OK ≠ r1.1 then 0 else retry
      let r2 := relayGet K B dev (some valR) r1.2
      let retry2 := if K.OK ≠ r2.1 then 0 else retry1
      relayTestOffLoop K B dev ch relVal n retry2 (r2.2.1.getD valR) r2.2.2
    else
      some (retry, w)

/-- The `for` loop at plcpi.c:676 over the relays still to switch on;
`relayResult` enters as the third argument. -/
def relayTestOnPass (K : Consts) (B : Bus) (X : Ext) (fuel : Nat) (dev : Int) :
    List Nat → Int → World → LoopExit
  | [], relayResult, w => .done relayResult w
  | ch :: rest, _, w =>
    let p := checkThreadResult X w
    if p.1 ≠ 0 then
      .done p.1 p.2
    else
      match relayTestOnLoop K B dev ch (shl1 ((ch : Int) - 1)) fuel
          K.RETRY_TIMES 0 p.2 with
      | none => .spin
      | some (retry, w1) =>
        if retry = 0 then .ret K.FAIL (printf "Fail to write relay\n" w1)
        else relayTestOnPass K B X fuel dev rest p.1 w1

/-- The `for` loop at plcpi.c:710 over the relays still to switch off. -/
def relayTestOffPass (K : Consts) (B : Bus) (X : Ext) (fuel : Nat) (dev : Int) :
    List Nat → Int → World → LoopExit
  | [], relayResult, w => .done relayResult w
  | ch :: rest, _, w =>
    let p := checkThreadResult X w
    if p.1 ≠ 0 then
      .done p.1 p.2
    else
      match relayTestOffLoop K B dev ch (shl1 ((ch : Int) - 1)) fuel
          K.RETRY_TIMES 0xff p.2 with
      | none => .spin
      | some (retry, w1) =>
        if retry = 0 then .ret K.FAIL (printf "Fail to write relay!\n" w1)
        else relayTestOffPass K B X fuel dev rest p.1 w1

/-- The loop `while (relayResult == 0)` at plcpi.c:674; the first argument is
the step budget. -/
def relayTestWhile (K : Consts) (B : Bus) (X : Ext) (fuel : Nat) (dev : Int) :
    Nat → Int → World → LoopExit
  | 0, _, _ => .spin
  | n + 1, relayResult, w =>
    if relayResult = 0 then
      match relayTestOnPass K B X fuel dev relayOrder relayResult w with
      | .done res1 w1 =>
        match relayTestOffPass K B X fuel dev relayOrder res1 w1 with
        | .done res2 w2 => relayTestWhile K B X fuel dev n res2 w2
        | .ret code w2 => .ret code w2
        | .spin => .spin
      | .ret code w1 => .ret code w1
      | .spin => .spin
    else
      .done relayResult w

/-- Function `doRelayTest`, plcpi.c:642.  `startThread`, `busyWait` and `fclose` leave
the state of the model as it is; `file` is true when the stream is open. -/
def doRelayTest (K : Consts) (B : Bus) (L : Libc) (X : Ext) (fuel : Nat) (argc : Int)
    (argv : List String) (w : World) : Run :=
  (argvAt argv 1).bind fun a1 =>
  let r := doBoardInit K B (L.atoi a1) w
  let dev := r.1
  if dev ≤ 0 then
    .ok (K.FAIL, r.2)
  else
    let opened : Except Fault (Bool × World) :=
      if argc = 4 then
        (argvAt argv 3).bind fun a3 =>
        if L.fopenW a3 then .ok (true, { r.2 with file := "" })
        else .ok (false, printf "Fail to open result file\n" r.2)
      else .ok (false, r.2)
    opened.bind fun fw =>
    let file := fw.1
    (argvAt argv 2).bind fun a2 =>
    if strcasecmp a2 "reltest" = 0 then
      let w1 := printf ("Are all relays and LEDs turning on and off in sequence?\n"
        ++ "Press y for Yes or any key for No....") fw.2
      match relayTestWhile K B X fuel dev fuel 0 w1 with
      | .spin => .error Fault.fuel
      | .ret code w2 => .ok (code, w2)
      | .done relayResult w2 =>
        let w3 :=
          if relayResult = K.YES then
            if file then fprintf "Relay Test ............................ PASS\n" w2
            else printf "Relay Test ............................ PASS\n" w2
          else
            if file then fprintf "Relay Test ............................ FAIL!\n" w2
            else printf "Relay Test ............................ FAIL!\n" w2
        .ok (K.OK, (relaySet K B dev 0 w3).2)
    else
      .ok (K.FAIL, usage fw.2)

/-! ## Dispatch -/

/-- The call `gCmdArray[i]->pFunc(argc, argv)`.  `fuel` is the step budget of
the loops that have no bound of their own. -/
def callPFunc (K : Consts) (B : Bus) (L : Libc) (X : Ext) (fuel : Nat) :
    PFunc → Int → List String → World → Run
  | .doHelp => doHelp K
  | .doVersion => doVersion K
  | .doWarranty => doWarranty K
  | .doList => doList K B
  | .doBoard => doBoard K B L
  | .doRelayWrite => doRelayWrite K B L fuel
  | .doRelayRead => doRelayRead K B L
  | .doRelayTest => doRelayTest K B L X fuel
  | .doOdRead => doOdRead K B L
  | .doOdWrite => doOdWrite K B L
  | .doOdCntRead => doOdCntRead K B L
  | .doOdCntWrite => doOdCntWrite K B L
  | .doOdCntSave => doOdCntSave K B L
  | .doOdCntExec => doOdCntExec K B L
  | .doOdCntReset => doOdCntReset K B L
  | .doPwmFreqRead => doPwmFreqRead K B L
  | .doPwmFreqWrite => doPwmFreqWrite K B L
  | .doMoveParWrite => doMoveParWrite K B L
  | .doEncThWr => doEncThWr K B L
  | .doGpioEncoderCntRead => X.handler .doGpioEncoderCntRead
  | .doGpioEncoderCntReset => X.handler .doGpioEncoderCntReset
  | .doInCmdSet => X.handler .doInCmdSet
  | .doOptoRead => X.handler .doOptoRead
  | .doOptoEdgeWrite => X.handler .doOptoEdgeWrite
  | .doOptoEdgeRead => X.handler .doOptoEdgeRead
  | .doOptoCntRead => X.handler .doOptoCntRead
  | .doOptoCntReset => X.handler .doOptoCntReset
  | .doOptoEncoderWrite => X.handler .doOptoEncoderWrite
  | .doOptoEncoderRead => X.handler .doOptoEncoderRead
  | .doOptoEncoderCntRead => X.handler .doOptoEncoderCntRead
  | .doOptoEncoderCntReset => X.handler .doOptoEncoderCntReset

/-- One handler call made by `main`: the function and the arguments passed. -/
structure Call where
  pFunc : PFunc
  argc : Int
  argv : List String
  deriving DecidableEq

/-- The release of the semaphore before `main` returns (plcpi.c:1671). -/
def semRelease (w : World) : World :=
  if w.sem < 1 then { w with sem := w.sem + 1 } else w

/-- What `main` does with the status `ret` of the handler of `d`
(plcpi.c:1661). -/
def afterHandler (K : Consts) (d : CliCmdType) (ret : Int) (w : World) : Int × World :=
  let w1 :=
    if ret = K.ARG_CNT_ERR then
      let wa := printf d.usage1 (printf "Invalid parameters number!\n" w)
      if d.usage2.length > 2 then printf d.usage2 wa else wa
    else w
  (ret, semRelease w1)

/-- The scan of `main` over the entries of the table from `gCmdArray[i]` on
(plcpi.c:1654).  The first component lists the handler calls made. -/
def mainLoop (K : Consts) (B : Bus) (L : Libc) (X : Ext) (fuel : Nat) (argc : Int)
    (argv : List String) : List CliCmdType → World → List Call × Run
  | [], w => ([], .ok (-1, semRelease (usage (printf "Invalid command option\n" w))))
  | d :: rest, w =>
    match d.name with
    | none => mainLoop K B L X fuel argc argv rest w
    | some name =>
      if d.namePos < argc then
        match argvAt argv d.namePos with
        | .error e => ([], .error e)
        | .ok tok =>
          if strcasecmp tok name = 0 then
            ([Call.mk d.pFunc argc argv],
              (callPFunc K B L X fuel d.pFunc argc argv w).bind fun rw =>
                .ok (afterHandler K d rw.1 rw.2))
          else
            mainLoop K B L X fuel argc argv rest w
      else
        mainLoop K B L X fuel argc argv rest w

/-- Function `main`, plcpi.c:1639.  `argc` is the length of `argv`; `sem_wait` takes the
semaphore (the wait for another process to release it is outside the
model). -/
def main (K : Consts) (B : Bus) (L : Libc) (X : Ext) (fuel : Nat) (argv : List String)
    (w : World) : List Call × Run :=
  let argc : Int := argv.length
  if argc = 1 then
    ([], .ok (-1, usage w))
  else
    mainLoop K B L X fuel argc argv gCmdArray { w with sem := w.sem - 1 }

/-! ## A concrete environment

The functions above take the constants, the bus, libc and the other
translation units as arguments.  The definitions below give one value for each,
so that the model runs on concrete command lines. -/

/-- Modelled from the spec: `plcpi.h` is not among the sources.  The
specification fixes the channel ranges (relays 1-8, open-drain channels 1-4),
the status 0 of a successful run and non-zero statuses for a generic failure
and for a wrong argument count.  The other values (the failure codes, which
only need to be non-zero and to keep `ARG_ERR` apart from `ARG_CNT_ERR`, the
retry count, the bus address and the register offsets) are one admissible
choice. -/
def card : Consts where
  OK := 0
  ERROR := -1
  FAIL := -1
  ARG_ERR := -2
  ARG_CNT_ERR := -3
  OFF := 0
  ON := 1
  STATE_COUNT := 2
  YES := 1
  RETRY_TIMES := 10
  SLAVE_OWN_ADDRESS_BASE := 0x28
  CHANNEL_NR_MIN := 1
  RELAY_CH_NR_MAX := 8
  OD_CH_NR_MAX := 4
  OD_PWM_VAL_MAX := 10000
  I2C_MEM_RELAY_VAL_ADD := 0
  I2C_MEM_REVISION_HW_MAJOR_ADD := 120
  I2C_MEM_REVISION_MAJOR_ADD := 122
  I2C_MEM_DIAG_TEMPERATURE_ADD := 114
  I2C_MEM_OD_PWM_VAL_RAW_ADD := 20
  I2C_MEM_OD_P_SET_VALUE := 60
  I2C_MEM_OD_P_SET_CMD := 64
  I2C_MEM_OD_PULSE_CNT_SET := 65
  I2C_MEM_OD_PWM_FREQUENCY := 81
  I2C_MEM_OD_PWM_FREQUENCY_CH1 := 83
  I2C_MEM_ODP_ACC := 91
  I2C_MEM_ODP_CMD := 99
  I2C_MEM_ENCODER_LIMIT := 100

/-- The registers of the boards after one more bus operation: a write stores
its bytes at consecutive offsets of the device written to. -/
def storeStep (m : Int → Int → Nat) : BusOp → Int → Int → Nat
  | .mem8Write dev add bytes => fun d a =>
    if d = dev ∧ add ≤ a ∧ a < add + bytes.length then byteAt bytes (a - add).toNat
    else m d a
  | _ => m

/-- The registers after the operations of a trace, from the contents `init`. -/
def storeMem (init : Int → Int → Nat) (t : List BusOp) : Int → Int → Nat :=
  t.foldl storeStep init

/-- A bus on which every transaction succeeds and every register is a stored
byte: a read returns what was last written, or the initial content.  The
handle of a board is its bus address. -/
def storeBus (K : Consts) (init : Int → Int → Nat) : Bus where
  setup _ add := add
  mem8Read t dev add size :=
    (K.OK, (List.range size).map fun (i : Nat) => storeMem init t dev (add + (i : Int)))
  mem8Write _ _ _ _ := K.OK
  readByteAS t dev add := (K.OK, storeMem init t dev add)
  readWordAS t dev add :=
    (K.OK, storeMem init t dev add % 256 + 256 * (storeMem init t dev (add + 1) % 256))
  readDWord t dev add :=
    (K.OK, storeMem init t dev add % 256 + 256 * (storeMem init t dev (add + 1) % 256)
      + 65536 * (storeMem init t dev (add + 2) % 256)
      + 16777216 * (storeMem init t dev (add + 3) % 256))

/-- The value of the decimal digits at the head of a text, after `acc`. -/
def digitsVal : List Char → Nat → Nat
  | [], acc => acc
  | c :: cs, acc =>
    if 48 ≤ c.toNat ∧ c.toNat ≤ 57 then digitsVal cs (acc * 10 + (c.toNat - 48))
    else acc

/-- Function `isspace` in the C locale. -/
def isspace (c : Char) : Bool :=
  c.toNat = 32 ∨ (9 ≤ c.toNat ∧ c.toNat ≤ 13)

/-- Function `atoi` on texts whose value fits an `int`: blanks, a sign, digits. -/
def atoiDec (s : String) : Int :=
  match s.data.dropWhile isspace with
  | '-' :: cs => -(digitsVal cs 0 : Int)
  | '+' :: cs => (digitsVal cs 0 : Int)
  | cs => (digitsVal cs 0 : Int)

/-- The decimal text `s` read as blanks, a sign, digits and an optional
fraction after a point: the signed integer made of all its digits, and the
number of digits of the fraction. -/
def decParts (s : String) : Int × Nat :=
  let body : List Char → Int × Nat := fun cs =>
    let ip := cs.takeWhile Char.isDigit
    let fp := match cs.dropWhile Char.isDigit with
      | '.' :: r => r.takeWhile Char.isDigit
      | _ => []
    ((digitsVal (ip ++ fp) 0 : Int), fp.length)
  match s.data.dropWhile isspace with
  | '-' :: cs => (-(body cs).1, (body cs).2)
  | '+' :: cs => body cs
  | cs => body cs

/-- Function `atof` on texts in plain decimal notation (no exponent): the
`double` nearest to the number written. -/
def atofDec (s : String) : ℚ :=
  toDouble (((decParts s).1 : ℚ) / (10 : ℚ) ^ (decParts s).2)

/-- Text of `%0.2f` for a value: the nearest hundredth, a tie going to the even
one. -/
def fmtF2Dec (q : ℚ) : String :=
  let n : Int := roundHalfEven (q * 100)
  (if q < 0 then "-" else "") ++ toString (n.natAbs / 100) ++ "." ++ fmt02d (n.natAbs % 100)

/-- A libc for concrete runs; every `fopen` succeeds. -/
def stdlib : Libc where
  atoi := atoiDec
  atol := atoiDec
  atof := atofDec
  fmtF2 := fmtF2Dec
  fopenW _ := true

/-- Other translation units for concrete runs: each declared handler prints
nothing and returns `OK`, and the key-press watcher answers `YES` from its
third poll on. -/
def extStub (K : Consts) : Ext where
  handler _ _ _ w := .ok (K.OK, w)
  checkThreadResult k := if k < 2 then 0 else K.YES

/-- An initial state: nothing issued, nothing printed, semaphore free. -/
def w0 : World where
  trace := []
  gHwVer := 0
  out := ""
  sem := 1
  polls := 0
  file := ""

/-- Registers that hold hardware version 3 at every board, zero elsewhere. -/
def regs3 : Int → Int → Nat :=
  fun _ a => if a = card.I2C_MEM_REVISION_HW_MAJOR_ADD then 3 else 0

/-! ## Notions used in the statements -/

/-- The test `main` applies to an entry of the table (plcpi.c:1656-1658): the
name is not NULL, `namePos < argc`, and `argv[namePos]` compares equal to the
name under `strcasecmp`. -/
def matchesAt (d : CliCmdType) (argc : Int) (argv : List String) : Bool :=
  match d.name with
  | none => false
  | some name =>
    decide (d.namePos < argc) &&
      (match argvAt argv d.namePos with
       | .ok tok => decide (strcasecmp tok name = 0)
       | .error _ => false)

/-- The global usage listing: the usage lines of the commands, `usage1` then
`usage2` where the command has one, in the order of `gCmdArray`, followed by
the two closing lines. -/
def usageText : String :=
  "\tUsage:\t\tplcpi -v\n" ++
  "\tUsage:\t\tplcpi -h    Display command options list\n" ++
  "\tUsage:\t\tplcpi -h <param>   Display help for <param> command option\n" ++
  "\tUsage:\t\tplcpi -warranty\n" ++
  "\tUsage:\t\tplcpi -list\n" ++
  "\tUsage:\t\tplcpi <stack> board\n" ++
  "\tUsage:\t\tplcpi <stack> relwr <channel> <on/off>\n" ++
  "\tUsage:\t\tplcpi <stack> relwr <value>\n" ++
  "\tUsage:\t\tplcpi <stack> relrd <channel>\n" ++
  "\tUsage:\t\tplcpi <stack> relrd\n" ++
  "\tUsage:\t\tplcpi <stack> reltest\n" ++
  "\tUsage:\t\tplcpi <stack> cntencrd \n" ++
  "\tUsage:\t\tplcpi <stack> cntencrst \n" ++
  "\tUsage:\t\tplcpi <stack> optrd <channel>\n" ++
  "\tUsage:\t\tplcpi <stack> optrd\n" ++
  "\tUsage:\t\tplcpi <stack> optedgerd <pin>\n" ++
  "\tUsage:\t\tplcpi <stack> optedgewr <channel> <edges> \n" ++
  "\tUsage:\t\tplcpi <stack> optcntrd <channel>\n" ++
  "\tUsage:\t\tplcpi <stack> optcntrst <channel>\n" ++
  "\tUsage:\t\tplcpi <stack> optencwr <channel> <0/1> \n" ++
  "\tUsage:\t\tplcpi <stack> optencrd <channel>\n" ++
  "\tUsage:\t\tplcpi <stack> optcntencrd <channel>\n" ++
  "\tUsage:\t\tplcpi <stack> optcntencrst <channel>\n" ++
  "\tUsage:\t\tplcpi <stack> odrd <channel>\n" ++
  "\tUsage:\t\tplcpi <stack> odwr <channel> <value>\n" ++
  "\tUsage:\t\tplcpi <stack> odcrd <channel>\n" ++
  "\tUsage:\t\tplcpi <stack> odcwr <channel> <value>\n" ++
  "\tUsage:\t\tplcpi <stack> odcs <channel> <value>\n" ++
  "\tUsage:\t\tplcpi <stack> odcx <channel>\n" ++
  "\tUsage:\t\tplcpi <stack> odcrst <channel>\n" ++
  "\tUsage:\t\tplcpi <stack> pwmfrd\n" ++
  "\tUsage:\t\tplcpi <stack> pwmfwr <value>\n" ++
  "\tUsage:\t\tplcpi <stack> pwmfwr <channel> <value>\n" ++
  "\tUsage:\t\tplcpi <stack> incmd <inCh> <outCh> <cnt>\n" ++
  "\tUsage:\t\tplcpi <stack> encthwr <channel> <value>\n" ++
  "\tUsage:\t\tplcpi <stack> mvpwr <channel> <acc> <dec> <min_speed> <max_speed>\n" ++
  "Where: <stack> = Board level id = 0..7\n" ++
  "Type plcpi -h <command> for more help\n"

/-- Whether two descriptors have the same match key: equal `namePos` and names
that compare equal under `strcasecmp`. -/
def sameKey (d e : CliCmdType) : Bool :=
  decide (d.namePos = e.namePos) &&
    (match d.name, e.name with
     | some n, some m => decide (strcasecmp n m = 0)
     | _, _ => false)

/-- The text `u` occurs in the output `out`. -/
abbrev occursIn (u out : String) : Prop :=
  u.data <:+: out.data

/-- The argument counts a handler of `plcpi.c` accepts, as its tests of `argc`
read: any other count takes the handler to its argument-count branch. -/
def acceptedArgc : PFunc → List Int
  | .doBoard => [3]
  | .doRelayWrite => [4, 5]
  | .doRelayRead => [3, 4]
  | .doOdRead => [4]
  | .doOdWrite => [5]
  | .doOdCntRead => [4]
  | .doOdCntWrite => [5]
  | .doOdCntSave => [5]
  | .doOdCntExec => [4]
  | .doOdCntReset => [4]
  | .doPwmFreqRead => [3]
  | .doPwmFreqWrite => [4, 5]
  | .doMoveParWrite => [8]
  | .doEncThWr => [5]
  | _ => []

/-- The descriptors whose handler is defined in `plcpi.c` and tests `argc`
against fixed counts: board, relwr, relrd, odrd, odwr, odcrd, odcwr, odcs, odcx,
odcrst, pwmfrd, pwmfwr, mvpwr, encthwr. -/
def fixedArgcCmds : List CliCmdType :=
  [CMD_BOARD, CMD_RELAY_WRITE, CMD_RELAY_READ, CMD_OD_READ, CMD_OD_WRITE,
   CMD_OD_CNT_READ, CMD_OD_CNT_WRITE, CMD_OD_CNT_SAVE, CMD_OD_CNT_EXEC, CMD_OD_CNT_RST,
   CMD_PWM_FREQ_READ, CMD_PWM_FREQ_WRITE, CMD_MV_P_WRITE, CMD_ENC_TH_WRITE]

/-- Whether a bus operation is a write. -/
def isWrite : BusOp → Bool
  | .mem8Write _ _ _ => true
  | _ => false

/-- The writes of a trace, in the order issued. -/
def writesOf (t : List BusOp) : List BusOp :=
  t.filter isWrite

/-- A handler rejects its arguments from the state `base` reached by the board
initialisation: it returns `FAIL`, prints a message and issues no further bus
operation. -/
def rejectsFrom (K : Consts) (base : World) (r : Run) : Prop :=
  ∃ w1 msg, r = .ok (K.FAIL, w1) ∧ msg ≠ "" ∧ w1.out = base.out ++ msg ∧
    w1.trace = base.trace

/-- A bus on which every transaction succeeds and the relay register reads 0
whatever was written: the value written is never observed.  Block reads give
the byte 3 (a board of hardware version 3). -/
def stuckBus (K : Consts) : Bus where
  setup _ add := add
  mem8Read _ _ _ size := (K.OK, List.replicate size 3)
  mem8Write _ _ _ _ := K.OK
  readByteAS _ _ _ := (K.OK, 0)
  readWordAS _ _ _ := (K.OK, 0)
  readDWord _ _ _ := (K.OK, 0)

/-- A bus on which every transaction succeeds and the relay register reads
0xFF once `n` writes have been issued, and 0 before: a relay switched on is
observed at the read-back of the `n`-th write and not earlier. -/
def lateBus (K : Consts) (n : Nat) : Bus where
  setup _ add := add
  mem8Read _ _ _ size := (K.OK, List.replicate size 3)
  mem8Write _ _ _ _ := K.OK
  readByteAS t _ _ := (K.OK, if n ≤ (writesOf t).length then 0xFF else 0)
  readWordAS _ _ _ := (K.OK, 0)
  readDWord _ _ _ := (K.OK, 0)

/-- The handlers `plcpi.c` defines itself; the others are only declared in
`plcpi.h` and defined in another translation unit. -/
def definedInPlcpi : PFunc → Bool
  | .doHelp | .doVersion | .doWarranty | .doList | .doBoard
  | .doRelayWrite | .doRelayRead | .doRelayTest
  | .doOdRead | .doOdWrite | .doOdCntRead | .doOdCntWrite | .doOdCntSave | .doOdCntExec
  | .doOdCntReset | .doPwmFreqRead | .doPwmFreqWrite | .doMoveParWrite | .doEncThWr => true
  | _ => false

/-- The bytes the writes of a trace store in register `add` of the board with
handle `dev`, in the order stored: a write of `n` bytes at `a` stores its
byte `k` in register `a + k`, as `storeStep` does. -/
def storedAt (dev add : Int) : List BusOp → List Nat
  | [] => []
  | .mem8Write d a bytes :: t =>
    if d = dev ∧ a ≤ add ∧ add < a + bytes.length then
      byteAt bytes (add - a).toNat :: storedAt dev add t
    else storedAt dev add t
  | _ :: t => storedAt dev add t

/-! ## Theorems -/

/-! ### Board initialisation rejects a stack level outside 0..7 (C1) -/

/-- C1: for a stack level below 0 or above 7, `doBoardInit` and `boardCheck`
return `ERROR`, issue no bus operation (the trace is the one they started
with: no `i2cSetup`, no register read) and leave `gHwVer` as it was. -/
theorem doBoardInit_invalid_stack (K : Consts) (B : Bus) (stack : Int) (w : World)
    (h : stack < 0 ∨ stack > 7) :
    (doBoardInit K B stack w).1 = K.ERROR ∧
    (doBoardInit K B stack w).2.trace = w.trace ∧
    (doBoardInit K B stack w).2.gHwVer = w.gHwVer ∧
    (boardCheck K B stack w).1 = K.ERROR ∧
    (boardCheck K B stack w).2.trace = w.trace ∧
    (boardCheck K B stack w).2.gHwVer = w.gHwVer := by
  simp [doBoardInit, boardCheck, h, printf]

/-- Stack level 8 is rejected without touching the bus. -/
theorem doBoardInit_invalid_stack_witness :
    ((8 : Int) < 0 ∨ (8 : Int) > 7) ∧
    ((doBoardInit card (storeBus card regs3) 8 w0).1 = card.ERROR ∧
    (doBoardInit card (storeBus card regs3) 8 w0).2.trace = w0.trace ∧
    (doBoardInit card (storeBus card regs3) 8 w0).2.gHwVer = w0.gHwVer ∧
    (boardCheck card (storeBus card regs3) 8 w0).1 = card.ERROR ∧
    (boardCheck card (storeBus card regs3) 8 w0).2.trace = w0.trace ∧
    (boardCheck card (storeBus card regs3) 8 w0).2.gHwVer = w0.gHwVer) :=
  ⟨by decide, doBoardInit_invalid_stack card (storeBus card regs3) 8 w0 (by decide)⟩

/-! ### Rounding to a binary floating-point format -/

/-- An integer is its own nearest integer. -/
theorem roundHalfEven_intCast (n : Int) : roundHalfEven (n : ℚ) = n := by
  unfold roundHalfEven
  simp

/-- Rounding to the nearest integer does not pass an integer bound from below. -/
theorem roundHalfEven_le (x : ℚ) (k : Int) (h : x ≤ k) : roundHalfEven x ≤ k := by
  have hf : ⌊x⌋ ≤ k := by
    have := Int.floor_le_floor h
    simpa using this
  unfold roundHalfEven
  rcases lt_or_eq_of_le hf with hlt | heq
  · split
    · exact hf
    · split
      · omega
      · split <;> omega
  · have hx : x = k := le_antisymm h (by rw [← heq]; exact Int.floor_le x)
    subst hx
    simp

/-- Rounding to the nearest integer does not pass an integer bound from above. -/
theorem le_roundHalfEven (x : ℚ) (k : Int) (h : (k : ℚ) ≤ x) : k ≤ roundHalfEven x := by
  have hf : k ≤ ⌊x⌋ := Int.le_floor.mpr h
  unfold roundHalfEven
  split
  · exact hf
  · split
    · omega
    · split <;> omega

/-- The nearest integer, when it is closer than one half. -/
theorem roundHalfEven_eq (x : ℚ) (m : Int) (h1 : (m : ℚ) - 1 / 2 < x)
    (h2 : x < (m : ℚ) + 1 / 2) : roundHalfEven x = m := by
  unfold roundHalfEven
  by_cases hm : (m : ℚ) ≤ x
  · have hf : ⌊x⌋ = m := by
      rw [Int.floor_eq_iff]
      constructor
      · exact hm
      · linarith
    rw [hf, if_pos (by linarith)]
  · have hm2 : x < m := not_le.mp hm
    have hf : ⌊x⌋ = m - 1 := by
      rw [Int.floor_eq_iff]
      push_cast
      constructor <;> linarith
    rw [hf]
    push_cast
    rw [if_neg (by linarith), if_pos (by linarith)]
    omega

/-- The unit in the last place of a value below `2 ^ p` in magnitude is at
most 1. -/
theorem ulpExp_nonpos (p : Nat) (emin : Int) (q : ℚ) (hp : 1 ≤ p) (hemin : emin ≤ 0)
    (hq : |q| < (2 : ℚ) ^ p) : ulpExp p emin q ≤ 0 := by
  unfold ulpExp
  apply max_le _ hemin
  rcases eq_or_lt_of_le (abs_nonneg q) with h0 | hpos
  · rw [← h0]
    simp
    omega
  · have : Int.log 2 |q| < (p : Int) := by
      rw [← Int.lt_zpow_iff_log_lt (by norm_num) hpos]
      exact_mod_cast hq
    omega

/-- Rounding a non-negative value keeps it at or below an integer bound that
the format holds exactly. -/
theorem roundBinary_le_int (p : Nat) (emin : Int) (q : ℚ) (n : Int) (hp : 1 ≤ p)
    (hemin : emin ≤ 0) (h0 : 0 ≤ q) (hq : q ≤ n) (hn : (n : ℚ) < (2 : ℚ) ^ p) :
    roundBinary p emin q ≤ n := by
  have he := ulpExp_nonpos p emin q hp hemin (by rw [abs_of_nonneg h0]; linarith)
  unfold roundBinary
  obtain ⟨k, hk⟩ : ∃ k : Nat, ulpExp p emin q = -(k : Int) := ⟨(-ulpExp p emin q).toNat, by omega⟩
  rw [hk, zpow_neg, zpow_natCast, div_inv_eq_mul]
  have h2 : (0 : ℚ) < 2 ^ k := by positivity
  have hr : roundHalfEven (q * 2 ^ k) ≤ n * 2 ^ k := by
    apply roundHalfEven_le
    push_cast
    exact mul_le_mul_of_nonneg_right hq h2.le
  have hr2 : (roundHalfEven (q * 2 ^ k) : ℚ) ≤ (n : ℚ) * 2 ^ k := by exact_mod_cast hr
  rw [← div_eq_mul_inv, div_le_iff₀ h2]
  exact hr2

/-- Rounding keeps a non-negative value non-negative. -/
theorem roundBinary_nonneg (p : Nat) (emin : Int) (q : ℚ) (h0 : 0 ≤ q) :
    0 ≤ roundBinary p emin q := by
  unfold roundBinary
  have h2 : (0 : ℚ) < (2 : ℚ) ^ ulpExp p emin q := by positivity
  have hr : (0 : Int) ≤ roundHalfEven (q / (2 : ℚ) ^ ulpExp p emin q) := by
    apply le_roundHalfEven
    simp only [Int.cast_zero]
    exact div_nonneg h0 h2.le
  have hr2 : (0 : ℚ) ≤ (roundHalfEven (q / (2 : ℚ) ^ ulpExp p emin q) : ℚ) := by
    exact_mod_cast hr
  exact mul_nonneg hr2 h2.le

/-- An integer below `2 ^ p` in magnitude is a value of the format. -/
theorem roundBinary_intCast (p : Nat) (emin : Int) (n : Int) (hp : 1 ≤ p)
    (hemin : emin ≤ 0) (hn : |(n : ℚ)| < (2 : ℚ) ^ p) :
    roundBinary p emin (n : ℚ) = n := by
  have he := ulpExp_nonpos p emin n hp hemin hn
  unfold roundBinary
  obtain ⟨k, hk⟩ : ∃ k : Nat, ulpExp p emin n = -(k : Int) := ⟨(-ulpExp p emin n).toNat, by omega⟩
  rw [hk, zpow_neg, zpow_natCast, div_inv_eq_mul]
  have h2 : (0 : ℚ) < 2 ^ k := by positivity
  have : ((n : ℚ) * 2 ^ k) = ((n * 2 ^ k : Int) : ℚ) := by push_cast; rfl
  rw [this, roundHalfEven_intCast]
  push_cast
  field_simp

/-- The rounding of a value whose binade is known. -/
theorem roundBinary_of_binade (p : Nat) (emin : Int) (q : ℚ) (k : Int)
    (h1 : (2 : ℚ) ^ k ≤ |q|) (h2 : |q| < (2 : ℚ) ^ (k + 1)) :
    roundBinary p emin q =
      (roundHalfEven (q / (2 : ℚ) ^ max (k - ((p : Int) - 1)) emin) : ℚ) *
        (2 : ℚ) ^ max (k - ((p : Int) - 1)) emin := by
  have hpos : 0 < |q| := lt_of_lt_of_le (by positivity) h1
  have hlog : Int.log 2 |q| = k := by
    have ha : k ≤ Int.log 2 |q| := by
      rw [← Int.zpow_le_iff_le_log (by norm_num) hpos]
      exact_mod_cast h1
    have hb : Int.log 2 |q| < k + 1 := by
      rw [← Int.lt_zpow_iff_log_lt (by norm_num) hpos]
      exact_mod_cast h2
    omega
  unfold roundBinary ulpExp
  rw [hlog]

/-- The rounding of a positive value whose binade is known. -/
theorem roundBinary_of_binade_pos (p : Nat) (emin : Int) (q : ℚ) (k e : Int)
    (h1 : (2 : ℚ) ^ k ≤ q) (h2 : q < (2 : ℚ) ^ (k + 1))
    (he : e = max (k - ((p : Int) - 1)) emin) :
    roundBinary p emin q = (roundHalfEven (q / (2 : ℚ) ^ e) : ℚ) * (2 : ℚ) ^ e := by
  have hpos : 0 < q := lt_of_lt_of_le (by positivity) h1
  rw [he]
  apply roundBinary_of_binade
  · rw [abs_of_pos hpos]; exact h1
  · rw [abs_of_pos hpos]; exact h2

/-- The nearest integer is at most one half away. -/
theorem abs_roundHalfEven_sub (x : ℚ) : |(roundHalfEven x : ℚ) - x| ≤ 1 / 2 := by
  have h0 : (⌊x⌋ : ℚ) ≤ x := Int.floor_le x
  have h1 : x < (⌊x⌋ : ℚ) + 1 := Int.lt_floor_add_one x
  unfold roundHalfEven
  rw [abs_le]
  split
  · constructor <;> linarith
  · split
    · push_cast
      constructor <;> linarith
    · split
      · constructor <;> linarith
      · push_cast
        constructor <;> linarith

/-- The unit in the last place of a non-zero value below `2 ^ k` in magnitude. -/
theorem ulpExp_le (p : Nat) (emin : Int) (q : ℚ) (k : Int) (h0 : q ≠ 0)
    (hq : |q| < (2 : ℚ) ^ k) : ulpExp p emin q ≤ max (k - p) emin := by
  have hpos : 0 < |q| := abs_pos.mpr h0
  have : Int.log 2 |q| < k := by
    rw [← Int.lt_zpow_iff_log_lt (by norm_num) hpos]
    exact_mod_cast hq
  unfold ulpExp
  apply max_le
  · exact le_trans (by omega) (le_max_left _ _)
  · exact le_max_right _ _

/-- Rounding moves a value below `2 ^ k` in magnitude by at most half a unit
in the last place. -/
theorem abs_roundBinary_sub (p : Nat) (emin : Int) (q : ℚ) (k : Int)
    (hq : |q| < (2 : ℚ) ^ k) :
    |roundBinary p emin q - q| ≤ (2 : ℚ) ^ max (k - p) emin / 2 := by
  by_cases h0 : q = 0
  · subst h0
    have : roundBinary p emin 0 = 0 := by
      unfold roundBinary roundHalfEven
      simp
    rw [this]
    simp
    positivity
  · have he := ulpExp_le p emin q k h0 hq
    have h2 : (0 : ℚ) < (2 : ℚ) ^ ulpExp p emin q := by positivity
    have hr := abs_roundHalfEven_sub (q / (2 : ℚ) ^ ulpExp p emin q)
    have heq : roundBinary p emin q - q =
        ((roundHalfEven (q / (2 : ℚ) ^ ulpExp p emin q) : ℚ) - q / (2 : ℚ) ^ ulpExp p emin q)
          * (2 : ℚ) ^ ulpExp p emin q := by
      unfold roundBinary
      field_simp
    rw [heq, abs_mul, abs_of_pos h2]
    have hmono : (2 : ℚ) ^ ulpExp p emin q ≤ (2 : ℚ) ^ max (k - (p : Int)) emin :=
      zpow_le_zpow_right₀ (by norm_num) he
    calc |(roundHalfEven (q / (2 : ℚ) ^ ulpExp p emin q) : ℚ) - q / (2 : ℚ) ^ ulpExp p emin q|
          * (2 : ℚ) ^ ulpExp p emin q
        ≤ 1 / 2 * (2 : ℚ) ^ ulpExp p emin q := mul_le_mul_of_nonneg_right hr h2.le
      _ ≤ 1 / 2 * (2 : ℚ) ^ max (k - (p : Int)) emin := by
          apply mul_le_mul_of_nonneg_left hmono (by norm_num)
      _ = (2 : ℚ) ^ max (k - (p : Int)) emin / 2 := by ring

/-! ### Duty cycle of an open-drain channel (C2) -/

/-- The two clamps of `odSet` compute `max 0 (min v 100)`. -/
theorem odClamp_eq (v : ℚ) :
    (if (if v < 0 then 0 else v) > 100 then (100 : ℚ) else (if v < 0 then 0 else v))
      = max 0 (min v 100) := by
  by_cases h0 : v < 0
  · have h1 : ¬ ((0 : ℚ) > 100) := by norm_num
    rw [if_pos h0, if_neg h1, min_eq_left (by linarith), max_eq_left (le_of_lt h0)]
  · rw [if_neg h0]
    push_neg at h0
    by_cases h1 : v > 100
    · rw [if_pos h1, min_eq_right (le_of_lt h1), max_eq_right (by norm_num)]
    · rw [if_neg h1]
      push_neg at h1
      rw [min_eq_left h1, max_eq_right h0]

/-- The cast to `u16` keeps a value in 0..65535. -/
theorem toU16_of_range (z : Int) (h0 : 0 ≤ z) (h1 : z ≤ 65535) : (toU16 z : Int) = z := by
  unfold toU16
  rw [Int.emod_eq_of_lt h0 (by omega), Int.toNat_of_nonneg h0]

/-- A `float` holds every integer below `2 ^ 24` in magnitude. -/
theorem toFloat_intCast (n : Int) (hn : |n| < 16777216) : toFloat (n : ℚ) = n := by
  unfold toFloat
  apply roundBinary_intCast 24 (-149) n (by norm_num) (by norm_num)
  have : |(n : ℚ)| < 16777216 := by exact_mod_cast hn
  norm_num
  exact this

/-- Rounding to `float` keeps a non-negative value at or below an integer
bound under `2 ^ 24`. -/
theorem toFloat_le_int (q : ℚ) (n : Int) (h0 : 0 ≤ q) (hq : q ≤ n) (hn : n < 16777216) :
    toFloat q ≤ n := by
  unfold toFloat
  apply roundBinary_le_int 24 (-149) q n (by norm_num) (by norm_num) h0 hq
  have : (n : ℚ) < 16777216 := by exact_mod_cast hn
  norm_num
  exact this

/-- For a percent in [0, 100] and a 16-bit maximum `M`, the count computed in
`float` lies in [0, M]. -/
theorem odFloat_range (M : Int) (c : ℚ) (hM : 0 ≤ M) (hM16 : M ≤ 65535) (hc0 : 0 ≤ c)
    (hc1 : c ≤ 100) :
    0 ≤ ⌈toFloat (toFloat ((M : ℚ) * c) / 100)⌉ ∧
    ⌈toFloat (toFloat ((M : ℚ) * c) / 100)⌉ ≤ M := by
  have hMq : (0 : ℚ) ≤ (M : ℚ) := by exact_mod_cast hM
  have hx0 : (0 : ℚ) ≤ (M : ℚ) * c := mul_nonneg hMq hc0
  have hx1 : (M : ℚ) * c ≤ ((M * 100 : Int) : ℚ) := by
    push_cast
    exact mul_le_mul_of_nonneg_left hc1 hMq
  have hf0 : 0 ≤ toFloat ((M : ℚ) * c) := roundBinary_nonneg 24 (-149) _ hx0
  have hf1 : toFloat ((M : ℚ) * c) ≤ ((M * 100 : Int) : ℚ) :=
    toFloat_le_int _ _ hx0 hx1 (by omega)
  have hy0 : (0 : ℚ) ≤ toFloat ((M : ℚ) * c) / 100 := div_nonneg hf0 (by norm_num)
  have hy1 : toFloat ((M : ℚ) * c) / 100 ≤ (M : ℚ) := by
    rw [div_le_iff₀ (by norm_num)]
    push_cast at hf1
    exact hf1
  constructor
  · apply Int.ceil_nonneg
    exact roundBinary_nonneg 24 (-149) _ hy0
  · rw [Int.ceil_le]
    exact toFloat_le_int _ _ hy0 hy1 (by omega)

/-- For a percent in [0, 100] the exact count `ceil(M * c / 100)` lies in [0, M]. -/
theorem odCeil_range (M : Int) (c : ℚ) (hM : 0 ≤ M) (hc0 : 0 ≤ c) (hc1 : c ≤ 100) :
    0 ≤ ⌈(M : ℚ) * c / 100⌉ ∧ ⌈(M : ℚ) * c / 100⌉ ≤ M := by
  have hMq : (0 : ℚ) ≤ (M : ℚ) := by exact_mod_cast hM
  constructor
  · apply Int.ceil_nonneg
    positivity
  · rw [Int.ceil_le]
    rw [div_le_iff₀ (by norm_num)]
    nlinarith

/-- The count computed in `float` does not exceed the exact count. -/
theorem odFloat_le_exact (M : Int) (c : ℚ) (hM : 0 ≤ M) (hM16 : M ≤ 65535) (hc0 : 0 ≤ c)
    (hc1 : c ≤ 100) :
    ⌈toFloat (toFloat ((M : ℚ) * c) / 100)⌉ ≤ ⌈(M : ℚ) * c / 100⌉ := by
  have hMq : (0 : ℚ) ≤ (M : ℚ) := by exact_mod_cast hM
  have hx0 : (0 : ℚ) ≤ (M : ℚ) * c := mul_nonneg hMq hc0
  obtain ⟨hk0, hk1⟩ := odCeil_range M c hM hc0 hc1
  have hle : (M : ℚ) * c / 100 ≤ (⌈(M : ℚ) * c / 100⌉ : ℚ) := Int.le_ceil _
  have hx1 : (M : ℚ) * c ≤ ((⌈(M : ℚ) * c / 100⌉ * 100 : Int) : ℚ) := by
    push_cast
    rw [div_le_iff₀ (by norm_num)] at hle
    exact hle
  have hf0 : 0 ≤ toFloat ((M : ℚ) * c) := roundBinary_nonneg 24 (-149) _ hx0
  have hf1 := toFloat_le_int _ _ hx0 hx1 (by omega)
  have hy0 : (0 : ℚ) ≤ toFloat ((M : ℚ) * c) / 100 := div_nonneg hf0 (by norm_num)
  have hy1 : toFloat ((M : ℚ) * c) / 100 ≤ (⌈(M : ℚ) * c / 100⌉ : ℚ) := by
    rw [div_le_iff₀ (by norm_num)]
    push_cast at hf1
    exact hf1
  rw [Int.ceil_le]
  exact toFloat_le_int _ _ hy0 hy1 (by omega)

/-- For a percent in [0, 100] and a 16-bit maximum `M`, the quotient computed
in `float` is within 1/200 of the exact quotient. -/
theorem odFloat_close (M : Int) (c : ℚ) (hM : 0 ≤ M) (hM16 : M ≤ 65535) (hc0 : 0 ≤ c)
    (hc1 : c ≤ 100) :
    |toFloat (toFloat ((M : ℚ) * c) / 100) - (M : ℚ) * c / 100| ≤ 1 / 200 := by
  have hMq : (0 : ℚ) ≤ (M : ℚ) := by exact_mod_cast hM
  have hMq2 : (M : ℚ) ≤ 65535 := by exact_mod_cast hM16
  have hx0 : (0 : ℚ) ≤ (M : ℚ) * c := mul_nonneg hMq hc0
  have hx1 : (M : ℚ) * c ≤ 6553500 := by nlinarith
  have hf0 : 0 ≤ toFloat ((M : ℚ) * c) := roundBinary_nonneg 24 (-149) _ hx0
  have hf1 : toFloat ((M : ℚ) * c) ≤ ((6553500 : Int) : ℚ) :=
    toFloat_le_int _ _ hx0 (by push_cast; exact hx1) (by norm_num)
  have e1 : |toFloat ((M : ℚ) * c) - (M : ℚ) * c| ≤ 1 / 4 := by
    have := abs_roundBinary_sub 24 (-149) ((M : ℚ) * c) 23
      (by rw [abs_of_nonneg hx0]; norm_num; linarith)
    have hm : max ((23 : Int) - (24 : Nat)) (-149) = -1 := by decide
    rw [hm] at this
    norm_num at this
    exact this
  have hy0 : (0 : ℚ) ≤ toFloat ((M : ℚ) * c) / 100 := div_nonneg hf0 (by norm_num)
  have hy1 : toFloat ((M : ℚ) * c) / 100 ≤ 65535 := by
    rw [div_le_iff₀ (by norm_num)]
    push_cast at hf1
    linarith
  have e2 : |toFloat (toFloat ((M : ℚ) * c) / 100) - toFloat ((M : ℚ) * c) / 100| ≤ 1 / 512 := by
    have := abs_roundBinary_sub 24 (-149) (toFloat ((M : ℚ) * c) / 100) 16
      (by rw [abs_of_nonneg hy0]; norm_num; linarith)
    have hm : max ((16 : Int) - (24 : Nat)) (-149) = -8 := by decide
    rw [hm] at this
    norm_num at this
    exact this
  rw [abs_le] at e1 e2 ⊢
  constructor <;> linarith [e1.1, e1.2, e2.1, e2.2]

/-- Two values at most 1/200 apart have ceilings at most 1 apart. -/
theorem ceil_close (a b : ℚ) (h : |a - b| ≤ 1 / 200) :
    ⌈b⌉ - 1 ≤ ⌈a⌉ ∧ ⌈a⌉ ≤ ⌈b⌉ + 1 := by
  rw [abs_le] at h
  constructor
  · have : ⌈b⌉ ≤ ⌈a + 1⌉ := Int.ceil_le_ceil (by linarith)
    rw [Int.ceil_add_one] at this
    omega
  · have : ⌈a⌉ ≤ ⌈b + 1⌉ := Int.ceil_le_ceil (by linarith)
    rw [Int.ceil_add_one] at this
    exact this

/-- The count `odSet` sends is the ceiling of the scaled, clamped percent, the
product and the quotient being those of `float`. -/
theorem odRaw_eq (K : Consts) (v : ℚ) (hM : 0 ≤ K.OD_PWM_VAL_MAX)
    (hM16 : K.OD_PWM_VAL_MAX ≤ 65535) :
    (odRaw K v : Int) =
      ⌈toFloat (toFloat ((K.OD_PWM_VAL_MAX : ℚ) * max 0 (min v 100)) / 100)⌉ := by
  have hc0 : (0 : ℚ) ≤ max 0 (min v 100) := le_max_left _ _
  have hc1 : max 0 (min v 100) ≤ (100 : ℚ) := max_le (by norm_num) (min_le_right _ _)
  have hr := odFloat_range K.OD_PWM_VAL_MAX _ hM hM16 hc0 hc1
  unfold odRaw
  simp only []
  rw [odClamp_eq, toFloat_intCast K.OD_PWM_VAL_MAX (by rw [abs_of_nonneg hM]; omega)]
  exact toU16_of_range _ hr.1 (le_trans hr.2 hM16)

/-- For a valid channel `odSet` issues one write, whatever its status. -/
theorem odSet_trace (K : Consts) (B : Bus) (dev ch : Int) (v : ℚ) (w : World)
    (hch : K.CHANNEL_NR_MIN ≤ ch ∧ ch ≤ K.OD_CH_NR_MAX) :
    (odSet K B dev ch v w).2.trace = w.trace ++
      [BusOp.mem8Write dev (K.I2C_MEM_OD_PWM_VAL_RAW_ADD + 2 * (ch - 1)) (le16 (odRaw K v))] := by
  have hg : ¬ (ch < K.CHANNEL_NR_MIN ∨ ch > K.OD_CH_NR_MAX) := by omega
  unfold odSet
  rw [if_neg hg]
  by_cases hw : K.OK ≠ (i2cMem8Write B dev (K.I2C_MEM_OD_PWM_VAL_RAW_ADD + 2 * (ch - 1))
      (le16 (odRaw K v)) w).1
  · simp only [if_pos hw]; rfl
  · simp only [if_neg hw]; rfl

/-- At 100 percent and above the count is the maximum. -/
theorem odRaw_full (K : Consts) (v : ℚ) (hM : 0 ≤ K.OD_PWM_VAL_MAX)
    (hM16 : K.OD_PWM_VAL_MAX ≤ 65535) (hv : 100 ≤ v) :
    (odRaw K v : Int) = K.OD_PWM_VAL_MAX := by
  rw [odRaw_eq K v hM hM16, min_eq_right hv, max_eq_right (by norm_num)]
  have h1 : (K.OD_PWM_VAL_MAX : ℚ) * 100 = ((K.OD_PWM_VAL_MAX * 100 : Int) : ℚ) := by
    push_cast
    rfl
  rw [h1, toFloat_intCast _ (by rw [abs_of_nonneg (by omega)]; omega)]
  push_cast
  rw [mul_div_assoc, div_self (by norm_num), mul_one,
    toFloat_intCast _ (by rw [abs_of_nonneg hM]; omega), Int.ceil_intCast]

/-- At 0 percent and below the count is 0. -/
theorem odRaw_zero (K : Consts) (v : ℚ) (hM : 0 ≤ K.OD_PWM_VAL_MAX)
    (hM16 : K.OD_PWM_VAL_MAX ≤ 65535) (hv : v ≤ 0) :
    odRaw K v = 0 := by
  have h : (odRaw K v : Int) = 0 := by
    rw [odRaw_eq K v hM hM16, min_eq_left (by linarith), max_eq_left hv, mul_zero]
    have h0 : toFloat 0 = 0 := by
      have := toFloat_intCast 0 (by norm_num)
      simpa using this
    rw [h0, zero_div, h0]
    simp
  exact_mod_cast h

/-- C2 (amended): for a valid open-drain channel and a percent value `v`,
`odSet` transmits the two little-endian bytes of the count
`raw = ceil(fl(fl(OD_PWM_VAL_MAX * clamp(v, 0, 100)) / 100))` to register
`I2C_MEM_OD_PWM_VAL_RAW_ADD + 2 * (ch - 1)`, where `fl` rounds to the nearest
`float`: the product and the quotient are computed in `float`.  The count is
the exact ceiling `ceil(OD_PWM_VAL_MAX * clamp(v, 0, 100) / 100)` or one less.
It lies in `[0, OD_PWM_VAL_MAX]`, it is `OD_PWM_VAL_MAX` for every `v ≥ 100`
and `0` for every `v ≤ 0`.  `OD_PWM_VAL_MAX` is a 16-bit maximum. -/
theorem odSet_transmits_clamped (K : Consts) (B : Bus) (dev ch : Int) (v : ℚ) (w : World)
    (hM : 0 ≤ K.OD_PWM_VAL_MAX) (hM16 : K.OD_PWM_VAL_MAX ≤ 65535)
    (hch : K.CHANNEL_NR_MIN ≤ ch ∧ ch ≤ K.OD_CH_NR_MAX) :
    ∃ raw : Nat,
      (raw : Int) =
        ⌈toFloat (toFloat ((K.OD_PWM_VAL_MAX : ℚ) * max 0 (min v 100)) / 100)⌉ ∧
      (odSet K B dev ch v w).2.trace = w.trace ++
        [BusOp.mem8Write dev (K.I2C_MEM_OD_PWM_VAL_RAW_ADD + 2 * (ch - 1))
          [raw % 256, raw / 256]] ∧
      raw / 256 < 256 ∧
      ⌈(K.OD_PWM_VAL_MAX : ℚ) * max 0 (min v 100) / 100⌉ - 1 ≤ (raw : Int) ∧
      (raw : Int) ≤ ⌈(K.OD_PWM_VAL_MAX : ℚ) * max 0 (min v 100) / 100⌉ ∧
      (raw : Int) ≤ K.OD_PWM_VAL_MAX ∧
      (100 ≤ v → (raw : Int) = K.OD_PWM_VAL_MAX) ∧
      (v ≤ 0 → raw = 0) := by
  have hc0 : (0 : ℚ) ≤ max 0 (min v 100) := le_max_left _ _
  have hc1 : max 0 (min v 100) ≤ (100 : ℚ) := max_le (by norm_num) (min_le_right _ _)
  have hr := odFloat_range K.OD_PWM_VAL_MAX _ hM hM16 hc0 hc1
  have hraw := odRaw_eq K v hM hM16
  have hle : (odRaw K v : Int) ≤ K.OD_PWM_VAL_MAX := by rw [hraw]; exact hr.2
  have hlt : odRaw K v / 256 < 256 := by omega
  have hlo := (ceil_close _ _ (odFloat_close K.OD_PWM_VAL_MAX _ hM hM16 hc0 hc1)).1
  have hhi := odFloat_le_exact K.OD_PWM_VAL_MAX _ hM hM16 hc0 hc1
  refine ⟨odRaw K v, hraw, ?_, hlt, ?_, ?_, hle, ?_, ?_⟩
  · rw [odSet_trace K B dev ch v w hch, le16, Nat.mod_eq_of_lt hlt]
  · rw [hraw]
    exact hlo
  · rw [hraw]
    exact hhi
  · exact odRaw_full K v hM hM16
  · exact odRaw_zero K v hM hM16

/-- A request of 150 percent on channel 2 sends the count of 100 percent. -/
theorem odSet_transmits_clamped_witness :
    (0 ≤ card.OD_PWM_VAL_MAX ∧ card.OD_PWM_VAL_MAX ≤ 65535 ∧
      (card.CHANNEL_NR_MIN ≤ 2 ∧ 2 ≤ card.OD_CH_NR_MAX)) ∧
    ∃ raw : Nat,
      (raw : Int) =
        ⌈toFloat (toFloat ((card.OD_PWM_VAL_MAX : ℚ) * max 0 (min 150 100)) / 100)⌉ ∧
      (odSet card (storeBus card regs3) 40 2 150 w0).2.trace = w0.trace ++
        [BusOp.mem8Write 40 (card.I2C_MEM_OD_PWM_VAL_RAW_ADD + 2 * (2 - 1))
          [raw % 256, raw / 256]] ∧
      raw / 256 < 256 ∧
      ⌈(card.OD_PWM_VAL_MAX : ℚ) * max 0 (min 150 100) / 100⌉ - 1 ≤ (raw : Int) ∧
      (raw : Int) ≤ ⌈(card.OD_PWM_VAL_MAX : ℚ) * max 0 (min 150 100) / 100⌉ ∧
      (raw : Int) ≤ card.OD_PWM_VAL_MAX ∧
      ((100 : ℚ) ≤ 150 → (raw : Int) = card.OD_PWM_VAL_MAX) ∧
      ((150 : ℚ) ≤ 0 → raw = 0) :=
  ⟨by decide, odSet_transmits_clamped card (storeBus card regs3) 40 2 150 w0
    (by decide) (by decide) (by decide)⟩

/-- The `float` nearest to 0.07. -/
theorem toFloat_seven_hundredths : toFloat (7 / 100) = 9395241 / 134217728 := by
  unfold toFloat
  rw [roundBinary_of_binade_pos 24 (-149) _ (-4) (-27) (by norm_num) (by norm_num)
    (by decide), roundHalfEven_eq _ 9395241 (by norm_num) (by norm_num)]
  norm_num

/-- The count of 0.07 percent: the product `10000 * 0.07f` rounds to 700. -/
theorem odRaw_seven_hundredths : odRaw card (9395241 / 134217728) = 7 := by
  have h : (odRaw card (9395241 / 134217728) : Int) = 7 := by
    rw [odRaw_eq card _ (by decide) (by decide)]
    have hM : ((card.OD_PWM_VAL_MAX : Int) : ℚ) = 10000 := by
      show ((10000 : Int) : ℚ) = 10000
      norm_num
    have hc : max (0 : ℚ) (min (9395241 / 134217728) 100) = 9395241 / 134217728 := by
      rw [min_eq_left (by norm_num), max_eq_right (by norm_num)]
    have h1 : toFloat (10000 * (9395241 / 134217728)) = 700 := by
      unfold toFloat
      rw [roundBinary_of_binade_pos 24 (-149) _ 9 (-14) (by norm_num) (by norm_num)
        (by decide), roundHalfEven_eq _ 11468800 (by norm_num) (by norm_num)]
      norm_num
    have h2 : toFloat ((700 : ℚ) / 100) = 7 := by
      have := toFloat_intCast 7 (by norm_num)
      norm_num at this ⊢
      exact this
    rw [hM, hc, h1, h2]
    norm_num
  exact_mod_cast h

/-- C2 as stated fails at 0.07 percent: the `float` nearest to 0.07 lies just
above it, so the exact count `ceil(10000 * v / 100)` is 8, but the product
`10000 * v` rounds to the `float` 700 and `odSet` transmits 7. -/
theorem odSet_exact_ceiling_counterexample :
    toFloat (7 / 100) = 9395241 / 134217728 ∧
    (odSet card (storeBus card regs3) 40 1 (9395241 / 134217728) w0).2.trace =
      [BusOp.mem8Write 40 20 [7, 0]] ∧
    ⌈(card.OD_PWM_VAL_MAX : ℚ) * max 0 (min (9395241 / 134217728) 100) / 100⌉ = 8 := by
  refine ⟨toFloat_seven_hundredths, ?_, ?_⟩
  · rw [odSet_trace card (storeBus card regs3) 40 1 _ w0 (by decide),
      odRaw_seven_hundredths]
    rfl
  · have hM : ((card.OD_PWM_VAL_MAX : Int) : ℚ) = 10000 := by
      show ((10000 : Int) : ℚ) = 10000
      norm_num
    rw [hM, min_eq_left (by norm_num), max_eq_right (by norm_num), Int.ceil_eq_iff]
    constructor <;> norm_num

/-! ### Relay round trips on the stored-register bus (C3, C4) -/

set_option maxRecDepth 100000 in
/-- After `|= 1 << k` the bit `k` of the byte is set, for `k` in 0..7. -/
theorem setBit8_test : ∀ k < 8, ∀ b < 256,
    (setBit8 b ((k : Nat) : Int)) % 256 &&& shl1 ((k : Nat) : Int) ≠ 0 := by
  unfold setBit8 shl1
  simp only [Int.toNat_ofNat]
  decide

set_option maxRecDepth 100000 in
/-- After `&= ~(1 << k)` the bit `k` of the byte is clear, for `k` in 0..7. -/
theorem clearBit8_test : ∀ k < 8, ∀ b < 256,
    (clearBit8 b ((k : Nat) : Int)) % 256 &&& shl1 ((k : Nat) : Int) = 0 := by
  unfold clearBit8 shl1
  simp only [Int.toNat_ofNat]
  decide

/-- A register holds the byte of the write that ends the trace. -/
theorem storeMem_snoc_write (init : Int → Int → Nat) (t : List BusOp) (dev add : Int)
    (x : Nat) :
    storeMem init (t ++ [BusOp.mem8Write dev add [x]]) dev add = x % 256 := by
  simp [storeMem, storeStep, byteAt]

/-- The one-byte read of the stored-register bus gives the register. -/
theorem byteAt_range_one (m : Int → Nat) (add : Int) :
    byteAt ((List.range 1).map fun i => m (add + (i : Nat))) 0 = m add % 256 := by
  have h : List.range 1 = [0] := rfl
  rw [h]
  simp [byteAt]

/-- On the stored-register bus `relayChSet` reads the register, writes it back
with the bit changed and returns `OK`. -/
theorem relayChSet_store (K : Consts) (init : Int → Int → Nat) (dev : Int) (ch : Nat)
    (state : Int) (w : World) (hfail : K.FAIL ≠ K.OK)
    (hch : K.CHANNEL_NR_MIN ≤ (ch : Int) ∧ (ch : Int) ≤ K.RELAY_CH_NR_MAX)
    (hs : state = K.OFF ∨ state = K.ON) :
    ∃ x : Nat,
      (x = if state = K.OFF
        then clearBit8 (storeMem init w.trace dev K.I2C_MEM_RELAY_VAL_ADD % 256) ((ch : Int) - 1)
        else setBit8 (storeMem init w.trace dev K.I2C_MEM_RELAY_VAL_ADD % 256) ((ch : Int) - 1)) ∧
      relayChSet K (storeBus K init) dev ch state w =
        (K.OK, { w with trace := w.trace ++
          [BusOp.mem8Read dev K.I2C_MEM_RELAY_VAL_ADD 1,
           BusOp.mem8Write dev K.I2C_MEM_RELAY_VAL_ADD [x]] }) := by
  have hg : ¬ ((ch : Int) < K.CHANNEL_NR_MIN ∨ (ch : Int) > K.RELAY_CH_NR_MAX) := by omega
  refine ⟨_, rfl, ?_⟩
  unfold relayChSet
  rw [if_neg hg]
  simp only [i2cMem8Read, i2cMem8Write, storeBus, if_neg hfail, byteAt_range_one]
  rcases hs with hs | hs
  · simp [hs]
  · by_cases h : K.ON = K.OFF
    · simp [hs, h]
    · simp [hs, h]

/-- On the stored-register bus `relayChGet` returns `OK` and reports the bit of the register. -/
theorem relayChGet_store (K : Consts) (init : Int → Int → Nat) (dev : Int) (ch : Nat)
    (s : Int) (w : World)
    (hch : K.CHANNEL_NR_MIN ≤ (ch : Int) ∧ (ch : Int) ≤ K.RELAY_CH_NR_MAX) :
    relayChGet K (storeBus K init) dev ch (some s) w =
      (K.OK,
        some (if storeMem init w.trace dev K.I2C_MEM_RELAY_VAL_ADD % 256
            &&& shl1 ((ch : Int) - 1) ≠ 0 then K.ON else K.OFF),
        { w with trace := w.trace ++ [BusOp.readByteAS dev K.I2C_MEM_RELAY_VAL_ADD] }) := by
  have hg : ¬ ((ch : Int) < K.CHANNEL_NR_MIN ∨ (ch : Int) > K.RELAY_CH_NR_MAX) := by omega
  unfold relayChGet
  simp only [if_neg hg, i2cReadByteAS, storeBus, ne_eq, not_true_eq_false, if_false]
  split <;> simp_all

/-- C3: on a bus where the relay register is a stored byte and every
transaction succeeds, for every relay channel 1..8 and every earlier history
of the register, `relayChSet(dev, ch, ON)` followed by `relayChGet(dev, ch, &s)`
returns `OK` with `s = ON`, and `relayChSet(dev, ch, OFF)` followed by
`relayChGet` returns `OK` with `s = OFF`. -/
theorem relayChSet_relayChGet_roundtrip (K : Consts) (init : Int → Int → Nat) (dev : Int)
    (ch : Nat) (s : Int) (w : World)
    (hfail : K.FAIL ≠ K.OK) (hmin : K.CHANNEL_NR_MIN ≤ 1) (hmax : 8 ≤ K.RELAY_CH_NR_MAX)
    (hch : 1 ≤ ch ∧ ch ≤ 8) :
    ((relayChSet K (storeBus K init) dev ch K.ON w).1 = K.OK ∧
      (relayChGet K (storeBus K init) dev ch (some s)
        (relayChSet K (storeBus K init) dev ch K.ON w).2).1 = K.OK ∧
      (relayChGet K (storeBus K init) dev ch (some s)
        (relayChSet K (storeBus K init) dev ch K.ON w).2).2.1 = some K.ON) ∧
    ((relayChSet K (storeBus K init) dev ch K.OFF w).1 = K.OK ∧
      (relayChGet K (storeBus K init) dev ch (some s)
        (relayChSet K (storeBus K init) dev ch K.OFF w).2).1 = K.OK ∧
      (relayChGet K (storeBus K init) dev ch (some s)
        (relayChSet K (storeBus K init) dev ch K.OFF w).2).2.1 = some K.OFF) := by
  have hr : K.CHANNEL_NR_MIN ≤ (ch : Int) ∧ (ch : Int) ≤ K.RELAY_CH_NR_MAX := by omega
  have hk : ((ch - 1 : Nat) : Int) = (ch : Int) - 1 := by omega
  have hk8 : ch - 1 < 8 := by omega
  have hsnoc : ∀ (x : Nat), storeMem init (w.trace ++
      [BusOp.mem8Read dev K.I2C_MEM_RELAY_VAL_ADD 1,
       BusOp.mem8Write dev K.I2C_MEM_RELAY_VAL_ADD [x]]) dev K.I2C_MEM_RELAY_VAL_ADD
      = x % 256 := by
    intro x
    have h2 : w.trace ++ [BusOp.mem8Read dev K.I2C_MEM_RELAY_VAL_ADD 1,
        BusOp.mem8Write dev K.I2C_MEM_RELAY_VAL_ADD [x]]
        = (w.trace ++ [BusOp.mem8Read dev K.I2C_MEM_RELAY_VAL_ADD 1])
          ++ [BusOp.mem8Write dev K.I2C_MEM_RELAY_VAL_ADD [x]] := by simp
    rw [h2, storeMem_snoc_write]
  have hb : storeMem init w.trace dev K.I2C_MEM_RELAY_VAL_ADD % 256 < 256 :=
    Nat.mod_lt _ (by norm_num)
  constructor
  · obtain ⟨x, hx, hset⟩ := relayChSet_store K init dev ch K.ON w hfail hr (Or.inr rfl)
    rw [hset, relayChGet_store K init dev ch s _ hr]
    refine ⟨rfl, rfl, ?_⟩
    simp only [hsnoc, Nat.mod_mod]
    by_cases h : K.ON = K.OFF
    · simp [h]
    · rw [if_neg h] at hx
      have ht := setBit8_test (ch - 1) hk8 _ hb
      rw [hk, ← hx] at ht
      rw [if_pos ht]
  · obtain ⟨x, hx, hset⟩ := relayChSet_store K init dev ch K.OFF w hfail hr (Or.inl rfl)
    rw [hset, relayChGet_store K init dev ch s _ hr]
    refine ⟨rfl, rfl, ?_⟩
    simp only [hsnoc, Nat.mod_mod]
    rw [if_pos rfl] at hx
    have ht := clearBit8_test (ch - 1) hk8 _ hb
    rw [hk, ← hx] at ht
    rw [if_neg (by simpa using ht)]

/-- Relay 3 of board 0, register initially 0. -/
theorem relayChSet_relayChGet_roundtrip_witness :
    (card.FAIL ≠ card.OK ∧ card.CHANNEL_NR_MIN ≤ 1 ∧ 8 ≤ card.RELAY_CH_NR_MAX ∧
      (1 ≤ 3 ∧ 3 ≤ 8)) ∧
    (((relayChSet card (storeBus card regs3) 40 3 card.ON w0).1 = card.OK ∧
      (relayChGet card (storeBus card regs3) 40 3 (some 2)
        (relayChSet card (storeBus card regs3) 40 3 card.ON w0).2).1 = card.OK ∧
      (relayChGet card (storeBus card regs3) 40 3 (some 2)
        (relayChSet card (storeBus card regs3) 40 3 card.ON w0).2).2.1 = some card.ON) ∧
    ((relayChSet card (storeBus card regs3) 40 3 card.OFF w0).1 = card.OK ∧
      (relayChGet card (storeBus card regs3) 40 3 (some 2)
        (relayChSet card (storeBus card regs3) 40 3 card.OFF w0).2).1 = card.OK ∧
      (relayChGet card (storeBus card regs3) 40 3 (some 2)
        (relayChSet card (storeBus card regs3) 40 3 card.OFF w0).2).2.1 = some card.OFF)) :=
  ⟨by decide, relayChSet_relayChGet_roundtrip card regs3 40 3 2 w0
    (by decide) (by decide) (by decide) (by decide)⟩

/-- The cast to `u8` is the residue modulo 256. -/
theorem toU8_cast (val : Int) : ((toU8 val : Nat) : Int) = val % 256 := by
  unfold toU8
  exact Int.toNat_of_nonneg (Int.emod_nonneg _ (by norm_num))

/-- A `u8` is below 256. -/
theorem toU8_lt (val : Int) : toU8 val < 256 := by
  have h := toU8_cast val
  have h2 : val % 256 < 256 := Int.emod_lt_of_pos _ (by norm_num)
  omega

/-- C4: on a bus where the relay register is a stored byte and every
transaction succeeds, for every integer `val`, `relaySet(dev, val)` followed by
`relayGet(dev, &r)` returns `OK` with `r = val mod 256`; for `val` in 0..255
(for instance 0xA5) the value read back is the value written. -/
theorem relaySet_relayGet_roundtrip (K : Consts) (init : Int → Int → Nat) (dev : Int)
    (val r0 : Int) (w : World) :
    (relaySet K (storeBus K init) dev val w).1 = K.OK ∧
    (relayGet K (storeBus K init) dev (some r0)
      (relaySet K (storeBus K init) dev val w).2).1 = K.OK ∧
    (relayGet K (storeBus K init) dev (some r0)
      (relaySet K (storeBus K init) dev val w).2).2.1 = some (val % 256) ∧
    (0 ≤ val ∧ val ≤ 255 →
      (relayGet K (storeBus K init) dev (some r0)
        (relaySet K (storeBus K init) dev val w).2).2.1 = some val) := by
  have hget : (relayGet K (storeBus K init) dev (some r0)
      (relaySet K (storeBus K init) dev val w).2).2.1 = some (val % 256) := by
    simp only [relayGet, relaySet, i2cMem8Write, i2cReadByteAS, storeBus, ne_eq,
      not_true_eq_false, if_false, storeMem_snoc_write, Nat.mod_mod]
    rw [Nat.mod_eq_of_lt (toU8_lt val), toU8_cast]
  refine ⟨rfl, ?_, hget, ?_⟩
  · simp [relayGet, i2cReadByteAS, storeBus]
  · intro h
    rw [hget, Int.emod_eq_of_lt h.1 (by omega)]

/-- The value 0xA5 written to the relay register of board 0 is read back. -/
theorem relaySet_relayGet_roundtrip_witness :
    (relayGet card (storeBus card regs3) 40 (some 0)
      (relaySet card (storeBus card regs3) 40 0xA5 w0).2).2.1 = some 0xA5 :=
  (relaySet_relayGet_roundtrip card regs3 40 0xA5 0 w0).2.2.2 (by decide)

/-! ### Dispatch (C5, C6, C7) -/

/-- Every call recorded by the scan comes from a matching entry of the table scanned. -/
theorem mainLoop_calls (K : Consts) (B : Bus) (L : Libc) (X : Ext) (fuel : Nat) (argc : Int)
    (argv : List String) (tbl : List CliCmdType) (w : World) (c : Call)
    (hc : c ∈ (mainLoop K B L X fuel argc argv tbl w).1) :
    ∃ d ∈ tbl, c = Call.mk d.pFunc argc argv ∧ matchesAt d argc argv = true := by
  induction tbl with
  | nil => simp [mainLoop] at hc
  | cons d rest ih =>
    unfold mainLoop at hc
    cases hn : d.name with
    | none =>
      rw [hn] at hc
      obtain ⟨e, he, h1, h2⟩ := ih hc
      exact ⟨e, List.mem_cons_of_mem _ he, h1, h2⟩
    | some name =>
      rw [hn] at hc
      simp only at hc
      by_cases hp : d.namePos < argc
      · rw [if_pos hp] at hc
        cases ha : argvAt argv d.namePos with
        | error e =>
          rw [ha] at hc
          simp at hc
        | ok tok =>
          rw [ha] at hc
          simp only at hc
          by_cases hs : strcasecmp tok name = 0
          · rw [if_pos hs] at hc
            simp only [List.mem_singleton] at hc
            refine ⟨d, List.mem_cons_self _ _, hc, ?_⟩
            simp [matchesAt, hn, hp, ha, hs]
          · rw [if_neg hs] at hc
            obtain ⟨e, he, h1, h2⟩ := ih hc
            exact ⟨e, List.mem_cons_of_mem _ he, h1, h2⟩
      · rw [if_neg hp] at hc
        obtain ⟨e, he, h1, h2⟩ := ih hc
        exact ⟨e, List.mem_cons_of_mem _ he, h1, h2⟩

/-- The test `matchesAt` spelled out. -/
theorem matchesAt_iff (d : CliCmdType) (argc : Int) (argv : List String) :
    matchesAt d argc argv = true ↔
      ∃ name tok, d.name = some name ∧ d.namePos < argc ∧
        argvAt argv d.namePos = .ok tok ∧ strcasecmp tok name = 0 := by
  unfold matchesAt
  cases hn : d.name with
  | none => simp
  | some name =>
    cases ha : argvAt argv d.namePos with
    | error e => simp
    | ok tok => simp

/-- Every call recorded by `main` comes from a matching descriptor of `gCmdArray`. -/
theorem main_calls (K : Consts) (B : Bus) (L : Libc) (X : Ext) (fuel : Nat)
    (argv : List String) (w : World) (c : Call)
    (hc : c ∈ (main K B L X fuel argv w).1) :
    ∃ d ∈ gCmdArray, c = Call.mk d.pFunc argv.length argv ∧
      matchesAt d argv.length argv = true := by
  unfold main at hc
  simp only at hc
  by_cases h1 : (argv.length : Int) = 1
  · rw [if_pos h1] at hc
    simp at hc
  · rw [if_neg h1] at hc
    exact mainLoop_calls K B L X fuel _ argv gCmdArray _ c hc

set_option maxRecDepth 100000 in
/-- No two entries of `gCmdArray` point to the same handler. -/
theorem gCmdArray_pFunc_nodup : (gCmdArray.map fun d => d.pFunc).Nodup := by
  decide

/-- An entry of `gCmdArray` is determined by its handler. -/
theorem gCmdArray_pFunc_inj (d : CliCmdType) (hd : d ∈ gCmdArray) (e : CliCmdType)
    (he : e ∈ gCmdArray) (h : d.pFunc = e.pFunc) : d = e :=
  List.inj_on_of_nodup_map gCmdArray_pFunc_nodup hd he h

/-- When no descriptor matches, `main` calls no handler. -/
theorem main_calls_nil (K : Consts) (B : Bus) (L : Libc) (X : Ext) (fuel : Nat)
    (argv : List String) (w : World)
    (h : ∀ d ∈ gCmdArray, matchesAt d argv.length argv = false) :
    (main K B L X fuel argv w).1 = [] := by
  rw [List.eq_nil_iff_forall_not_mem]
  intro c hc
  obtain ⟨d, hd, _, hm⟩ := main_calls K B L X fuel argv w c hc
  rw [h d hd] at hm
  exact Bool.false_ne_true hm

/-- C5: `main` calls the handler of a descriptor `d` of `gCmdArray` only if
`d.namePos < argc` and `argv[d.namePos]` equals `d.name` under `strcasecmp`.
The name at another position does not select the descriptor: with `board` at
position 1, or `-v` at position 2, no handler is called at all. -/
theorem main_dispatch_keyed_on_position (K : Consts) (B : Bus) (L : Libc) (X : Ext)
    (fuel : Nat) (argv : List String) (w : World) (d : CliCmdType) (c : Call)
    (hd : d ∈ gCmdArray) (hc : c ∈ (main K B L X fuel argv w).1)
    (hp : c.pFunc = d.pFunc) :
    (∃ name tok, d.name = some name ∧ d.namePos < (argv.length : Int) ∧
      argvAt argv d.namePos = .ok tok ∧ strcasecmp tok name = 0) ∧
    (main K B L X fuel ["plcpi", "board"] w).1 = [] ∧
    (main K B L X fuel ["plcpi", "0", "-v"] w).1 = [] := by
  refine ⟨?_, ?_, ?_⟩
  · obtain ⟨e, he, hce, hm⟩ := main_calls K B L X fuel argv w c hc
    have hde : d = e := by
      apply gCmdArray_pFunc_inj d hd e he
      rw [← hp, hce]
    rw [hde]
    exact (matchesAt_iff e _ argv).mp hm
  · exact main_calls_nil K B L X fuel _ w (by decide)
  · exact main_calls_nil K B L X fuel _ w (by decide)

/-- The command line `plcpi 0 board` selects `CMD_BOARD` by its third token. -/
theorem main_dispatch_keyed_on_position_witness :
    (CMD_BOARD ∈ gCmdArray ∧
      Call.mk PFunc.doBoard 3 ["plcpi", "0", "board"] ∈
        (main card (storeBus card regs3) stdlib (extStub card) 100
          ["plcpi", "0", "board"] w0).1 ∧
      (Call.mk PFunc.doBoard 3 ["plcpi", "0", "board"]).pFunc = CMD_BOARD.pFunc) ∧
    ((∃ name tok, CMD_BOARD.name = some name ∧
        CMD_BOARD.namePos < ((["plcpi", "0", "board"] : List String).length : Int) ∧
        argvAt ["plcpi", "0", "board"] CMD_BOARD.namePos = .ok tok ∧
        strcasecmp tok name = 0) ∧
      (main card (storeBus card regs3) stdlib (extStub card) 100 ["plcpi", "board"] w0).1
        = [] ∧
      (main card (storeBus card regs3) stdlib (extStub card) 100 ["plcpi", "0", "-v"] w0).1
        = []) :=
  ⟨by decide, main_dispatch_keyed_on_position card (storeBus card regs3) stdlib
    (extStub card) 100 ["plcpi", "0", "board"] w0 CMD_BOARD
    (Call.mk PFunc.doBoard 3 ["plcpi", "0", "board"]) (by decide) (by decide) (by decide)⟩

/-- A read of `argv[k]` with `0 <= k < argc` gives a token. -/
theorem argvAt_ok (argv : List String) (k : Int) (h0 : 0 ≤ k) (h1 : k < (argv.length : Int)) :
    ∃ tok, argvAt argv k = .ok tok := by
  have hk : k.toNat < argv.length := by omega
  refine ⟨argv[k.toNat], ?_⟩
  unfold argvAt
  rw [if_neg (by omega), List.getElem?_eq_getElem hk]

/-- The scan passes over an entry that does not match. -/
theorem mainLoop_skip (K : Consts) (B : Bus) (L : Libc) (X : Ext) (fuel : Nat)
    (argv : List String) (d : CliCmdType) (rest : List CliCmdType) (w : World)
    (hm : matchesAt d argv.length argv = false) (hpos : 0 ≤ d.namePos) :
    mainLoop K B L X fuel argv.length argv (d :: rest) w
      = mainLoop K B L X fuel argv.length argv rest w := by
  rw [mainLoop]
  cases hn : d.name with
  | none => rfl
  | some name =>
    simp only
    by_cases hp : d.namePos < (argv.length : Int)
    · obtain ⟨tok, ht⟩ := argvAt_ok argv d.namePos hpos hp
      have hs : ¬ strcasecmp tok name = 0 := by
        intro hs
        have : matchesAt d argv.length argv = true := by
          simp [matchesAt, hn, hp, ht, hs]
        rw [hm] at this
        exact Bool.false_ne_true this
      rw [if_pos hp, ht]
      simp only [if_neg hs]
    · rw [if_neg hp]

/-- At a matching entry the scan calls its handler and stops. -/
theorem mainLoop_hit (K : Consts) (B : Bus) (L : Libc) (X : Ext) (fuel : Nat)
    (argv : List String) (d : CliCmdType) (rest : List CliCmdType) (w : World)
    (hm : matchesAt d argv.length argv = true) :
    mainLoop K B L X fuel argv.length argv (d :: rest) w
      = ([Call.mk d.pFunc argv.length argv],
          (callPFunc K B L X fuel d.pFunc argv.length argv w).bind fun rw =>
            .ok (afterHandler K d rw.1 rw.2)) := by
  obtain ⟨name, tok, hn, hp, ht, hs⟩ := (matchesAt_iff d _ argv).mp hm
  rw [mainLoop, hn]
  simp only [if_pos hp, ht, if_pos hs]

/-- The scan calls the handler of the first matching entry. -/
theorem mainLoop_first (K : Consts) (B : Bus) (L : Libc) (X : Ext) (fuel : Nat)
    (argv : List String) (pre : List CliCmdType) (d : CliCmdType)
    (post : List CliCmdType) (w : World)
    (hpre : ∀ e ∈ pre, matchesAt e argv.length argv = false)
    (hpos : ∀ e ∈ pre, 0 ≤ e.namePos)
    (hm : matchesAt d argv.length argv = true) :
    mainLoop K B L X fuel argv.length argv (pre ++ d :: post) w
      = ([Call.mk d.pFunc argv.length argv],
          (callPFunc K B L X fuel d.pFunc argv.length argv w).bind fun rw =>
            .ok (afterHandler K d rw.1 rw.2)) := by
  induction pre with
  | nil => exact mainLoop_hit K B L X fuel argv d post w hm
  | cons e pre ih =>
    rw [List.cons_append, mainLoop_skip K B L X fuel argv e _ w
      (hpre e (List.mem_cons_self _ _)) (hpos e (List.mem_cons_self _ _))]
    exact ih (fun x hx => hpre x (List.mem_cons_of_mem _ hx))
      (fun x hx => hpos x (List.mem_cons_of_mem _ hx))

/-- When no entry matches, the scan ends in the usage branch. -/
theorem mainLoop_none (K : Consts) (B : Bus) (L : Libc) (X : Ext) (fuel : Nat)
    (argv : List String) (tbl : List CliCmdType) (w : World)
    (hno : ∀ e ∈ tbl, matchesAt e argv.length argv = false)
    (hpos : ∀ e ∈ tbl, 0 ≤ e.namePos) :
    mainLoop K B L X fuel argv.length argv tbl w
      = ([], .ok (-1, semRelease (usage (printf "Invalid command option\n" w)))) := by
  induction tbl with
  | nil => rfl
  | cons e tbl ih =>
    rw [mainLoop_skip K B L X fuel argv e _ w
      (hno e (List.mem_cons_self _ _)) (hpos e (List.mem_cons_self _ _))]
    exact ih (fun x hx => hno x (List.mem_cons_of_mem _ hx))
      (fun x hx => hpos x (List.mem_cons_of_mem _ hx))

/-- A list with an element satisfying `p` splits at the first such element. -/
theorem exists_first_match (p : CliCmdType → Bool) (l : List CliCmdType)
    (h : ∃ d ∈ l, p d = true) :
    ∃ pre d post, l = pre ++ d :: post ∧ p d = true ∧ ∀ e ∈ pre, p e = false := by
  induction l with
  | nil =>
    obtain ⟨d, hd, _⟩ := h
    simp at hd
  | cons a l ih =>
    by_cases ha : p a = true
    · exact ⟨[], a, l, rfl, ha, by simp⟩
    · have hex : ∃ d ∈ l, p d = true := by
        obtain ⟨d, hd, hpd⟩ := h
        rcases List.mem_cons.mp hd with hda | hdl
        · rw [hda] at hpd
          exact absurd hpd ha
        · exact ⟨d, hdl, hpd⟩
      obtain ⟨pre, d, post, hl, hpd, hpre⟩ := ih hex
      refine ⟨a :: pre, d, post, by rw [hl]; rfl, hpd, ?_⟩
      intro e he
      rcases List.mem_cons.mp he with hea | hep
      · rw [hea]
        simpa using ha
      · exact hpre e hep

/-- Every descriptor of `gCmdArray` has its name at position 1 or later. -/
theorem gCmdArray_namePos : ∀ d ∈ gCmdArray, 1 ≤ d.namePos := by
  decide

/-- The loop of `usage` only appends to standard output. -/
theorem usageLoop_eq (tbl : List CliCmdType) (w e : World) (he : e.out = "") :
    usageLoop tbl w = { w with out := w.out ++ (usageLoop tbl e).out } := by
  induction tbl generalizing w e with
  | nil => simp [usageLoop, he]
  | cons d rest ih =>
    have hempty : w0.out = "" := rfl
    unfold usageLoop
    by_cases hn : d.name ≠ none
    · simp only [if_pos hn]
      rw [ih _ _ hempty]
      conv_rhs => rw [ih _ _ hempty]
      by_cases h1 : d.usage1.length > 2 <;> by_cases h2 : d.usage2.length > 2 <;>
        simp [h1, h2, printf, he, String.append_assoc]
    · simp only [if_neg hn]
      exact ih w e he

set_option maxRecDepth 1000000 in
/-- From the empty output, `usage` prints the text `usageText`. -/
theorem usage_out (w : World) (h : w.out = "") : (usage w).out = usageText := by
  have h0 : (usage w0).out = usageText := by rfl
  rw [← h0]
  unfold usage
  rw [usageLoop_eq gCmdArray w w0 rfl]
  simp [printf, h]

/-- The call `usage()` appends `usageText` to standard output. -/
theorem usage_eq (w : World) : usage w = { w with out := w.out ++ usageText } := by
  rw [← usage_out w0 rfl]
  unfold usage
  rw [usageLoop_eq gCmdArray w w0 rfl]
  simp [printf, String.append_assoc]

/-- Releasing the semaphore changes neither the bus trace, `gHwVer` nor the output. -/
theorem semRelease_fields (w : World) :
    (semRelease w).trace = w.trace ∧ (semRelease w).gHwVer = w.gHwVer ∧
    (semRelease w).out = w.out := by
  unfold semRelease
  split <;> simp

/-- With `argc = 1` no descriptor matches. -/
theorem no_match_of_argc_one (argv : List String) (h : argv.length = 1) :
    ∀ d ∈ gCmdArray, matchesAt d argv.length argv = false := by
  intro d hd
  have hp := gCmdArray_namePos d hd
  unfold matchesAt
  cases hn : d.name with
  | none => rfl
  | some name =>
    have : ¬ d.namePos < (argv.length : Int) := by omega
    simp [this]

/-- C6: when at least one descriptor of `gCmdArray` matches (which needs
`argc >= 2`), `main` calls exactly one handler, the one of the first matching
descriptor in table order, passes it `argc` and `argv` as received, and ends
with the status (or the fault) of that handler. -/
theorem main_calls_first_match (K : Consts) (B : Bus) (L : Libc) (X : Ext) (fuel : Nat)
    (argv : List String) (w : World)
    (hex : ∃ d ∈ gCmdArray, matchesAt d argv.length argv = true) :
    2 ≤ argv.length ∧
    ∃ (i : Nat) (d : CliCmdType),
      gCmdArray[i]? = some d ∧ matchesAt d argv.length argv = true ∧
      (∀ j e, j < i → gCmdArray[j]? = some e → matchesAt e argv.length argv = false) ∧
      (main K B L X fuel argv w).1 = [Call.mk d.pFunc argv.length argv] ∧
      (main K B L X fuel argv w).2 =
        ((callPFunc K B L X fuel d.pFunc argv.length argv { w with sem := w.sem - 1 }).bind
          fun rw => .ok (afterHandler K d rw.1 rw.2)) ∧
      (∀ ret wh,
        callPFunc K B L X fuel d.pFunc argv.length argv { w with sem := w.sem - 1 }
          = .ok (ret, wh) →
        ∃ w1, (main K B L X fuel argv w).2 = .ok (ret, w1)) ∧
      (∀ f,
        callPFunc K B L X fuel d.pFunc argv.length argv { w with sem := w.sem - 1 }
          = .error f →
        (main K B L X fuel argv w).2 = .error f) := by
  have hargc : 2 ≤ argv.length := by
    obtain ⟨d, hd, hm⟩ := hex
    obtain ⟨name, tok, _, hp, _, _⟩ := (matchesAt_iff d _ argv).mp hm
    have := gCmdArray_namePos d hd
    omega
  refine ⟨hargc, ?_⟩
  obtain ⟨pre, d, post, hl, hm, hpre⟩ :=
    exists_first_match (fun d => matchesAt d argv.length argv) gCmdArray hex
  have hpos : ∀ e ∈ pre, 0 ≤ e.namePos := by
    intro e he
    have := gCmdArray_namePos e (by rw [hl]; exact List.mem_append_left _ he)
    omega
  have hmain : main K B L X fuel argv w =
      ([Call.mk d.pFunc argv.length argv],
        (callPFunc K B L X fuel d.pFunc argv.length argv { w with sem := w.sem - 1 }).bind
          fun rw => .ok (afterHandler K d rw.1 rw.2)) := by
    unfold main
    have h1 : ¬ ((argv.length : Int) = 1) := by omega
    simp only [if_neg h1]
    rw [hl]
    exact mainLoop_first K B L X fuel argv pre d post _ hpre hpos hm
  refine ⟨pre.length, d, ?_, hm, ?_, ?_, ?_, ?_, ?_⟩
  · rw [hl, List.getElem?_append_right (le_refl _)]
    simp
  · intro j e hj hje
    apply hpre
    rw [hl, List.getElem?_append_left hj] at hje
    exact List.getElem?_mem hje
  · rw [hmain]
  · rw [hmain]
  · intro ret wh hcall
    rw [hmain]
    simp only [hcall]
    exact ⟨_, rfl⟩
  · intro f hcall
    rw [hmain]
    simp only [hcall]
    rfl

/-- The command line `plcpi 0 BOARD`: the first match is entry 4, `CMD_BOARD`. -/
theorem main_calls_first_match_witness :
    (main card (storeBus card regs3) stdlib (extStub card) 100 ["plcpi", "0", "BOARD"] w0).1
      = [Call.mk PFunc.doBoard 3 ["plcpi", "0", "BOARD"]] ∧
    ∃ w1, (main card (storeBus card regs3) stdlib (extStub card) 100
      ["plcpi", "0", "BOARD"] w0).2 = .ok (0, w1) := by
  obtain ⟨_, i, d, hi, hm, hfirst, hcalls, _, hret, _⟩ :=
    main_calls_first_match card (storeBus card regs3) stdlib (extStub card) 100
      ["plcpi", "0", "BOARD"] w0 ⟨CMD_BOARD, by decide, by decide⟩
  have hcalls4 : (main card (storeBus card regs3) stdlib (extStub card) 100
      ["plcpi", "0", "BOARD"] w0).1 = [Call.mk PFunc.doBoard 3 ["plcpi", "0", "BOARD"]] := by
    decide
  refine ⟨hcalls4, ?_⟩
  rw [hcalls] at hcalls4
  have hp : d.pFunc = PFunc.doBoard := by
    have := List.head_eq_of_cons_eq hcalls4
    exact congrArg Call.pFunc this
  apply hret
  rw [hp]
  rfl

/-- C7: when no descriptor of `gCmdArray` matches at its position (in
particular when `argc = 1`), `main` calls no handler, issues no bus operation,
prints the usage listing `usageText`, the usage lines of all commands in table
order and the two closing lines (after the line `Invalid command option` when
`argc` is not 1), and returns -1. -/
theorem main_no_match_usage (K : Consts) (B : Bus) (L : Libc) (X : Ext) (fuel : Nat)
    (argv : List String) (w : World)
    (hno : argv.length = 1 ∨ ∀ d ∈ gCmdArray, matchesAt d argv.length argv = false) :
    (main K B L X fuel argv w).1 = [] ∧
    ∃ w1, (main K B L X fuel argv w).2 = .ok (-1, w1) ∧
      w1.trace = w.trace ∧ w1.gHwVer = w.gHwVer ∧
      w1.out = w.out ++ (if argv.length = 1 then "" else "Invalid command option\n")
        ++ usageText := by
  have hno2 : ∀ d ∈ gCmdArray, matchesAt d argv.length argv = false := by
    rcases hno with h | h
    · exact no_match_of_argc_one argv h
    · exact h
  refine ⟨main_calls_nil K B L X fuel argv w hno2, ?_⟩
  unfold main
  by_cases h1 : argv.length = 1
  · have h1i : (argv.length : Int) = 1 := by omega
    simp only [if_pos h1i, if_pos h1]
    refine ⟨_, rfl, ?_⟩
    rw [usage_eq]
    simp
  · have h1i : ¬ (argv.length : Int) = 1 := by omega
    simp only [if_neg h1i, if_neg h1]
    rw [mainLoop_none K B L X fuel argv gCmdArray _ hno2
      (fun e he => by have := gCmdArray_namePos e he; omega)]
    refine ⟨_, rfl, ?_⟩
    have hs := semRelease_fields (usage (printf "Invalid command option\n"
      { w with sem := w.sem - 1 }))
    rw [hs.1, hs.2.1, hs.2.2, usage_eq]
    simp [printf]

/-- The command lines `plcpi` and `plcpi board` match no descriptor. -/
theorem main_no_match_usage_witness :
    ((main card (storeBus card regs3) stdlib (extStub card) 100 ["plcpi"] w0).1 = [] ∧
      ∃ w1, (main card (storeBus card regs3) stdlib (extStub card) 100 ["plcpi"] w0).2
          = .ok (-1, w1) ∧
        w1.trace = w0.trace ∧ w1.gHwVer = w0.gHwVer ∧
        w1.out = w0.out ++ (if (["plcpi"] : List String).length = 1 then ""
          else "Invalid command option\n") ++ usageText) ∧
    ((main card (storeBus card regs3) stdlib (extStub card) 100 ["plcpi", "board"] w0).1
        = [] ∧
      ∃ w1, (main card (storeBus card regs3) stdlib (extStub card) 100
          ["plcpi", "board"] w0).2 = .ok (-1, w1) ∧
        w1.trace = w0.trace ∧ w1.gHwVer = w0.gHwVer ∧
        w1.out = w0.out ++ (if (["plcpi", "board"] : List String).length = 1 then ""
          else "Invalid command option\n") ++ usageText) :=
  ⟨main_no_match_usage card (storeBus card regs3) stdlib (extStub card) 100 ["plcpi"] w0
      (Or.inl rfl),
    main_no_match_usage card (storeBus card regs3) stdlib (extStub card) 100
      ["plcpi", "board"] w0 (Or.inr (by decide))⟩

/-! ### The command table (C8) -/

set_option maxRecDepth 1000000 in
/-- C8: in `gCmdArray`, no two entries at different places of the table have
the same pair (name up to case, `namePos`), and every entry before the NULL
terminator has a name that is not NULL. -/
theorem gCmdArray_keys_unique :
    gCmdArray.Pairwise (fun d e => sameKey d e = false) ∧
    gCmdArray.all (fun d => d.name.isSome) = true := by
  decide

/-! ### Wrong argument counts (C9) -/

/-- The status of the scan is the one its recorded call produced. -/
theorem mainLoop_run (K : Consts) (B : Bus) (L : Libc) (X : Ext) (fuel : Nat) (argc : Int)
    (argv : List String) (tbl : List CliCmdType) (w : World) (c : Call)
    (hc : c ∈ (mainLoop K B L X fuel argc argv tbl w).1) :
    ∃ d ∈ tbl, c = Call.mk d.pFunc argc argv ∧
      (mainLoop K B L X fuel argc argv tbl w).2 =
        ((callPFunc K B L X fuel d.pFunc argc argv w).bind fun rw =>
          .ok (afterHandler K d rw.1 rw.2)) := by
  induction tbl with
  | nil => simp [mainLoop] at hc
  | cons d rest ih =>
    unfold mainLoop at hc ⊢
    cases hn : d.name with
    | none =>
      rw [hn] at hc
      obtain ⟨e, he, h1, h2⟩ := ih hc
      exact ⟨e, List.mem_cons_of_mem _ he, h1, h2⟩
    | some name =>
      rw [hn] at hc
      simp only at hc ⊢
      by_cases hp : d.namePos < argc
      · rw [if_pos hp] at hc ⊢
        cases ha : argvAt argv d.namePos with
        | error e =>
          rw [ha] at hc
          simp at hc
        | ok tok =>
          rw [ha] at hc
          simp only at hc ⊢
          by_cases hs : strcasecmp tok name = 0
          · rw [if_pos hs] at hc ⊢
            simp only [List.mem_singleton] at hc
            exact ⟨d, List.mem_cons_self _ _, hc, rfl⟩
          · rw [if_neg hs] at hc ⊢
            obtain ⟨e, he, h1, h2⟩ := ih hc
            exact ⟨e, List.mem_cons_of_mem _ he, h1, h2⟩
      · rw [if_neg hp] at hc ⊢
        obtain ⟨e, he, h1, h2⟩ := ih hc
        exact ⟨e, List.mem_cons_of_mem _ he, h1, h2⟩

/-- When `main` records the call of `d`, its result is the result of that
handler passed through `afterHandler`. -/
theorem main_run (K : Consts) (B : Bus) (L : Libc) (X : Ext) (fuel : Nat)
    (argv : List String) (w : World) (d : CliCmdType) (hd : d ∈ gCmdArray)
    (hdisp : (main K B L X fuel argv w).1 = [Call.mk d.pFunc argv.length argv]) :
    (main K B L X fuel argv w).2 =
      ((callPFunc K B L X fuel d.pFunc argv.length argv { w with sem := w.sem - 1 }).bind
        fun rw => .ok (afterHandler K d rw.1 rw.2)) ∧
    matchesAt d argv.length argv = true := by
  have hc : Call.mk d.pFunc argv.length argv ∈ (main K B L X fuel argv w).1 := by
    rw [hdisp]
    exact List.mem_singleton_self _
  obtain ⟨e0, he0, hce0, hm0⟩ := main_calls K B L X fuel argv w _ hc
  have hde0 : d = e0 := gCmdArray_pFunc_inj d hd e0 he0 (congrArg Call.pFunc hce0)
  refine ⟨?_, by rw [hde0]; exact hm0⟩
  unfold main at hc ⊢
  simp only at hc ⊢
  by_cases h1 : (argv.length : Int) = 1
  · rw [if_pos h1] at hc
    simp at hc
  · rw [if_neg h1] at hc ⊢
    obtain ⟨e, he, hce, hrun⟩ := mainLoop_run K B L X fuel _ argv gCmdArray _ _ hc
    have hde : d = e := gCmdArray_pFunc_inj d hd e he (congrArg Call.pFunc hce)
    rw [hrun, hde]

/-- Text printed later keeps an occurrence. -/
theorem occursIn_append_right (u a b : String) (h : occursIn u a) : occursIn u (a ++ b) := by
  unfold occursIn at h ⊢
  rw [String.data_append]
  exact h.trans (List.infix_append' [] a.data b.data)

/-- A text occurs in an output that ends with it after some lead. -/
theorem occursIn_mid (u a b : String) : occursIn u (a ++ (b ++ u)) := by
  unfold occursIn
  rw [String.data_append, String.data_append, ← List.append_assoc]
  exact (List.suffix_append _ _).isInfix

/-- A text occurs in an output that ends with it. -/
theorem occursIn_suffix (u a : String) : occursIn u (a ++ u) := by
  unfold occursIn
  rw [String.data_append]
  exact (List.suffix_append _ _).isInfix

/-- After the handler, `main` keeps the status and appends to the output: the
usage text for `ARG_CNT_ERR`, nothing otherwise. -/
theorem afterHandler_out (K : Consts) (d : CliCmdType) (ret : Int) (w : World) :
    (afterHandler K d ret w).1 = ret ∧
    ∃ t, (afterHandler K d ret w).2.out = w.out ++ t ∧
      (ret = K.ARG_CNT_ERR → occursIn d.usage1 ((afterHandler K d ret w).2.out)) ∧
      (ret ≠ K.ARG_CNT_ERR → t = "") := by
  refine ⟨rfl, ?_⟩
  unfold afterHandler
  simp only
  rw [(semRelease_fields _).2.2]
  by_cases hr : ret = K.ARG_CNT_ERR
  · rw [if_pos hr]
    by_cases h2 : d.usage2.length > 2
    · rw [if_pos h2]
      refine ⟨"Invalid parameters number!\n" ++ d.usage1 ++ d.usage2, ?_, ?_, ?_⟩
      · simp [printf, String.append_assoc]
      · intro _
        simp only [printf]
        exact occursIn_append_right _ _ _ (occursIn_suffix _ _)
      · intro h; exact absurd hr h
    · rw [if_neg h2]
      refine ⟨"Invalid parameters number!\n" ++ d.usage1, ?_, ?_, ?_⟩
      · simp [printf, String.append_assoc]
      · intro _
        simp only [printf]
        exact occursIn_suffix _ _
      · intro h; exact absurd hr h
  · rw [if_neg hr]
    exact ⟨"", by simp, fun h => absurd h hr, fun _ => rfl⟩

/-- With `argc` other than 4 and 5, `doRelayWrite` prints its usage and fails. -/
theorem doRelayWrite_wrong_argc (K : Consts) (B : Bus) (L : Libc) (fuel : Nat) (argc : Int)
    (argv : List String) (w : World) (h : argc ∉ acceptedArgc PFunc.doRelayWrite) :
    ∃ w1, doRelayWrite K B L fuel argc argv w = .ok (K.FAIL, w1) ∧
      occursIn CMD_RELAY_WRITE.usage1 w1.out := by
  simp only [acceptedArgc, List.mem_cons, List.mem_singleton, List.not_mem_nil, or_false,
    not_or] at h
  unfold doRelayWrite
  rw [if_pos ⟨h.2, h.1⟩]
  refine ⟨_, rfl, ?_⟩
  simp only [printf]
  exact occursIn_append_right _ _ _ (occursIn_suffix _ _)

/-- With `argc` other than 3 and 4 on a detected board, `doRelayRead` prints its usage and fails. -/
theorem doRelayRead_wrong_argc (K : Consts) (B : Bus) (L : Libc) (argc : Int)
    (argv : List String) (w : World) (a1 : String) (h1 : argvAt argv 1 = .ok a1)
    (hb : 0 < (doBoardInit K B (L.atoi a1) w).1)
    (h : argc ∉ acceptedArgc PFunc.doRelayRead) :
    ∃ w1, doRelayRead K B L argc argv w = .ok (K.FAIL, w1) ∧
      occursIn CMD_RELAY_READ.usage1 w1.out := by
  simp only [acceptedArgc, List.mem_cons, List.mem_singleton, List.not_mem_nil, or_false,
    not_or] at h
  unfold doRelayRead
  rw [h1]
  simp only [Except.bind, if_neg (not_le.mpr hb), if_neg h.1, if_neg h.2]
  refine ⟨_, rfl, ?_⟩
  simp only [printf]
  exact occursIn_append_right _ _ _ (occursIn_suffix _ _)

/-- With `argc` other than 4 on a detected board, `doOdRead` prints its usage and fails. -/
theorem doOdRead_wrong_argc (K : Consts) (B : Bus) (L : Libc) (argc : Int)
    (argv : List String) (w : World) (a1 : String) (h1 : argvAt argv 1 = .ok a1)
    (hb : 0 < (doBoardInit K B (L.atoi a1) w).1)
    (h : argc ∉ acceptedArgc PFunc.doOdRead) :
    ∃ w1, doOdRead K B L argc argv w = .ok (K.FAIL, w1) ∧
      occursIn CMD_OD_READ.usage1 w1.out := by
  simp only [acceptedArgc, List.mem_cons, List.mem_singleton, List.not_mem_nil, or_false,
    not_or] at h
  unfold doOdRead
  rw [h1]
  simp only [Except.bind, if_neg (not_le.mpr hb), if_neg h]
  refine ⟨_, rfl, ?_⟩
  simp only [printf]
  exact occursIn_mid _ _ _

/-- With `argc` other than 5 on a detected board, `doOdWrite` prints its usage and fails. -/
theorem doOdWrite_wrong_argc (K : Consts) (B : Bus) (L : Libc) (argc : Int)
    (argv : List String) (w : World) (a1 : String) (h1 : argvAt argv 1 = .ok a1)
    (hb : 0 < (doBoardInit K B (L.atoi a1) w).1)
    (h : argc ∉ acceptedArgc PFunc.doOdWrite) :
    ∃ w1, doOdWrite K B L argc argv w = .ok (K.FAIL, w1) ∧
      occursIn CMD_OD_WRITE.usage1 w1.out := by
  simp only [acceptedArgc, List.mem_cons, List.mem_singleton, List.not_mem_nil, or_false,
    not_or] at h
  unfold doOdWrite
  rw [h1]
  simp only [Except.bind, if_neg (not_le.mpr hb), if_neg h]
  refine ⟨_, rfl, ?_⟩
  simp only [printf]
  exact occursIn_mid _ _ _

/-- With `argc` other than 5 on a detected board, `doOdCntWrite` prints its usage and fails. -/
theorem doOdCntWrite_wrong_argc (K : Consts) (B : Bus) (L : Libc) (argc : Int)
    (argv : List String) (w : World) (a1 : String) (h1 : argvAt argv 1 = .ok a1)
    (hb : 0 < (doBoardInit K B (L.atoi a1) w).1)
    (h : argc ∉ acceptedArgc PFunc.doOdCntWrite) :
    ∃ w1, doOdCntWrite K B L argc argv w = .ok (K.FAIL, w1) ∧
      occursIn CMD_OD_CNT_WRITE.usage1 w1.out := by
  simp only [acceptedArgc, List.mem_cons, List.mem_singleton, List.not_mem_nil, or_false,
    not_or] at h
  unfold doOdCntWrite
  rw [h1]
  simp only [Except.bind, if_neg (not_le.mpr hb), if_neg h]
  refine ⟨_, rfl, ?_⟩
  simp only [printf]
  exact occursIn_mid _ _ _

/-- With `argc` other than 5 on a detected board, `doOdCntSave` prints its usage and fails. -/
theorem doOdCntSave_wrong_argc (K : Consts) (B : Bus) (L : Libc) (argc : Int)
    (argv : List String) (w : World) (a1 : String) (h1 : argvAt argv 1 = .ok a1)
    (hb : 0 < (doBoardInit K B (L.atoi a1) w).1)
    (h : argc ∉ acceptedArgc PFunc.doOdCntSave) :
    ∃ w1, doOdCntSave K B L argc argv w = .ok (K.FAIL, w1) ∧
      occursIn CMD_OD_CNT_SAVE.usage1 w1.out := by
  simp only [acceptedArgc, List.mem_cons, List.mem_singleton, List.not_mem_nil, or_false,
    not_or] at h
  unfold doOdCntSave
  rw [h1]
  simp only [Except.bind, if_neg (not_le.mpr hb), if_neg h]
  refine ⟨_, rfl, ?_⟩
  simp only [printf]
  exact occursIn_mid _ _ _

/-- With `argc` other than 4 on a detected board, `doOdCntExec` prints its usage and fails. -/
theorem doOdCntExec_wrong_argc (K : Consts) (B : Bus) (L : Libc) (argc : Int)
    (argv : List String) (w : World) (a1 : String) (h1 : argvAt argv 1 = .ok a1)
    (hb : 0 < (doBoardInit K B (L.atoi a1) w).1)
    (h : argc ∉ acceptedArgc PFunc.doOdCntExec) :
    ∃ w1, doOdCntExec K B L argc argv w = .ok (K.FAIL, w1) ∧
      occursIn CMD_OD_CNT_EXEC.usage1 w1.out := by
  simp only [acceptedArgc, List.mem_cons, List.mem_singleton, List.not_mem_nil, or_false,
    not_or] at h
  unfold doOdCntExec
  rw [h1]
  simp only [Except.bind, if_neg (not_le.mpr hb), if_neg h]
  refine ⟨_, rfl, ?_⟩
  simp only [printf]
  exact occursIn_mid _ _ _

/-- With `argc` other than 4 on a detected board, `doOdCntReset` prints its usage and fails. -/
theorem doOdCntReset_wrong_argc (K : Consts) (B : Bus) (L : Libc) (argc : Int)
    (argv : List String) (w : World) (a1 : String) (h1 : argvAt argv 1 = .ok a1)
    (hb : 0 < (doBoardInit K B (L.atoi a1) w).1)
    (h : argc ∉ acceptedArgc PFunc.doOdCntReset) :
    ∃ w1, doOdCntReset K B L argc argv w = .ok (K.FAIL, w1) ∧
      occursIn CMD_OD_CNT_RST.usage1 w1.out := by
  simp only [acceptedArgc, List.mem_cons, List.mem_singleton, List.not_mem_nil, or_false,
    not_or] at h
  unfold doOdCntReset
  rw [h1]
  simp only [Except.bind, if_neg (not_le.mpr hb), if_neg h]
  refine ⟨_, rfl, ?_⟩
  simp only [printf]
  exact occursIn_mid _ _ _

/-- With `argc` other than 5 on a detected board, `doEncThWr` prints its usage and fails. -/
theorem doEncThWr_wrong_argc (K : Consts) (B : Bus) (L : Libc) (argc : Int)
    (argv : List String) (w : World) (a1 : String) (h1 : argvAt argv 1 = .ok a1)
    (hb : 0 < (doBoardInit K B (L.atoi a1) w).1)
    (h : argc ∉ acceptedArgc PFunc.doEncThWr) :
    ∃ w1, doEncThWr K B L argc argv w = .ok (K.FAIL, w1) ∧
      occursIn CMD_ENC_TH_WRITE.usage1 w1.out := by
  simp only [acceptedArgc, List.mem_cons, List.mem_singleton, List.not_mem_nil, or_false,
    not_or] at h
  unfold doEncThWr
  rw [h1]
  simp only [Except.bind, if_neg (not_le.mpr hb), if_neg h]
  refine ⟨_, rfl, ?_⟩
  simp only [printf]
  exact occursIn_mid _ _ _

/-- With `argc` other than 4 on a detected board, `doOdCntRead` returns
`ARG_CNT_ERR` and prints nothing. -/
theorem doOdCntRead_wrong_argc (K : Consts) (B : Bus) (L : Libc) (argc : Int)
    (argv : List String) (w : World) (a1 : String) (h1 : argvAt argv 1 = .ok a1)
    (hb : 0 < (doBoardInit K B (L.atoi a1) w).1)
    (h : argc ∉ acceptedArgc PFunc.doOdCntRead) :
    ∃ w1, doOdCntRead K B L argc argv w = .ok (K.ARG_CNT_ERR, w1) := by
  simp only [acceptedArgc, List.mem_cons, List.mem_singleton, List.not_mem_nil, or_false,
    not_or] at h
  unfold doOdCntRead
  rw [h1]
  simp only [Except.bind, if_neg (not_le.mpr hb), if_neg h]
  exact ⟨_, rfl⟩

/-- With `argc` other than 3 on a detected board of version 3 or more,
`doPwmFreqRead` prints its usage and fails. -/
theorem doPwmFreqRead_wrong_argc (K : Consts) (B : Bus) (L : Libc) (argc : Int)
    (argv : List String) (w : World) (a1 : String) (h1 : argvAt argv 1 = .ok a1)
    (hb : 0 < (doBoardInit K B (L.atoi a1) w).1)
    (hv : 3 ≤ (doBoardInit K B (L.atoi a1) w).2.gHwVer)
    (h : argc ∉ acceptedArgc PFunc.doPwmFreqRead) :
    ∃ w1, doPwmFreqRead K B L argc argv w = .ok (K.FAIL, w1) ∧
      occursIn CMD_PWM_FREQ_READ.usage1 w1.out := by
  simp only [acceptedArgc, List.mem_cons, List.mem_singleton, List.not_mem_nil, or_false,
    not_or] at h
  unfold doPwmFreqRead
  rw [h1]
  simp only [Except.bind, if_neg (not_le.mpr hb), if_neg (not_lt.mpr hv), if_neg h]
  refine ⟨_, rfl, ?_⟩
  simp only [printf]
  exact occursIn_mid _ _ _

/-- With `argc` other than 4 and 5 on a detected board of version 3 or more,
`doPwmFreqWrite` prints its usage and fails. -/
theorem doPwmFreqWrite_wrong_argc (K : Consts) (B : Bus) (L : Libc) (argc : Int)
    (argv : List String) (w : World) (a1 : String) (h1 : argvAt argv 1 = .ok a1)
    (hb : 0 < (doBoardInit K B (L.atoi a1) w).1)
    (hv : 3 ≤ (doBoardInit K B (L.atoi a1) w).2.gHwVer)
    (h : argc ∉ acceptedArgc PFunc.doPwmFreqWrite) :
    ∃ w1, doPwmFreqWrite K B L argc argv w = .ok (K.FAIL, w1) ∧
      occursIn CMD_PWM_FREQ_WRITE.usage1 w1.out := by
  simp only [acceptedArgc, List.mem_cons, List.mem_singleton, List.not_mem_nil, or_false,
    not_or] at h
  unfold doPwmFreqWrite
  rw [h1]
  simp only [Except.bind, if_neg (not_le.mpr hb), if_neg (not_lt.mpr hv), if_neg h.1,
    if_neg h.2]
  refine ⟨_, rfl, ?_⟩
  simp only [printf]
  exact occursIn_mid _ _ _

/-- With `argc` other than 8 on a detected board of version 3 or more,
`doMoveParWrite` prints its usage and fails. -/
theorem doMoveParWrite_wrong_argc (K : Consts) (B : Bus) (L : Libc) (argc : Int)
    (argv : List String) (w : World) (a1 : String) (h1 : argvAt argv 1 = .ok a1)
    (hb : 0 < (doBoardInit K B (L.atoi a1) w).1)
    (hv : 3 ≤ (doBoardInit K B (L.atoi a1) w).2.gHwVer)
    (h : argc ∉ acceptedArgc PFunc.doMoveParWrite) :
    ∃ w1, doMoveParWrite K B L argc argv w = .ok (K.FAIL, w1) ∧
      occursIn CMD_MV_P_WRITE.usage1 w1.out := by
  simp only [acceptedArgc, List.mem_cons, List.mem_singleton, List.not_mem_nil, or_false,
    not_or] at h
  unfold doMoveParWrite
  rw [h1]
  simp only [Except.bind, if_neg (not_le.mpr hb), if_neg (not_lt.mpr hv), ne_eq, h,
    not_false_eq_true, if_true]
  refine ⟨_, rfl, ?_⟩
  simp only [printf]
  exact occursIn_mid _ _ _

/-- With `argc` other than 3, `doBoard` prints its hint and returns `ARG_ERR`
before any bus access. -/
theorem doBoard_wrong_argc (K : Consts) (B : Bus) (L : Libc) (argc : Int)
    (argv : List String) (w : World) (h : argc ∉ acceptedArgc PFunc.doBoard) :
    doBoard K B L argc argv w = .ok (K.ARG_ERR,
      printf "Invalid arguments number type \"plcpi -h\" for details\n" w) := by
  simp only [acceptedArgc, List.mem_cons, List.mem_singleton, List.not_mem_nil, or_false,
    not_or] at h
  unfold doBoard
  rw [if_pos h]

/-- A handler that fails after printing `usage1`, or returns `ARG_CNT_ERR`,
makes the run end non-zero with `usage1` in the output. -/
theorem run_of_wrong_argc (K : Consts) (d : CliCmdType) (r m : Run) (code : Int) (w1 : World)
    (hrun : m = r.bind fun rw => .ok (afterHandler K d rw.1 rw.2))
    (hcall : r = .ok (code, w1))
    (hcode : (code = K.FAIL ∧ occursIn d.usage1 w1.out) ∨ code = K.ARG_CNT_ERR)
    (hFAIL : K.FAIL ≠ 0) (hCNT : K.ARG_CNT_ERR ≠ 0) :
    ∃ ret w2, m = .ok (ret, w2) ∧ ret ≠ 0 ∧ occursIn d.usage1 w2.out := by
  obtain ⟨_, t, ht, hin, hout⟩ := afterHandler_out K d code w1
  refine ⟨code, (afterHandler K d code w1).2, ?_, ?_, ?_⟩
  · rw [hrun, hcall]
    rfl
  · rcases hcode with h | h
    · rw [h.1]; exact hFAIL
    · rw [h]; exact hCNT
  · by_cases hc : code = K.ARG_CNT_ERR
    · exact hin hc
    · rcases hcode with h | h
      · rw [ht]
        exact occursIn_append_right _ _ _ h.2
      · exact absurd h hc

set_option maxRecDepth 100000 in
/-- The descriptors of `fixedArgcCmds` are entries of `gCmdArray`. -/
theorem fixedArgcCmds_sub : ∀ d ∈ fixedArgcCmds, d ∈ gCmdArray := by
  decide

/-- C9: for relwr, relrd, odrd, odwr, odcrd, odcwr, odcs, odcx, odcrst,
pwmfrd, pwmfwr, mvpwr and encthwr, a command line that dispatches to the
command with an argument count its handler does not accept, on a detected
board of hardware version 3 or more, ends with a non-zero status (`FAIL`, or
`ARG_CNT_ERR` for odcrd) and standard output contains `usage1` of the
descriptor.  `doBoard` departs from them: the run ends with the non-zero
status `ARG_ERR` after the line
`Invalid arguments number type "plcpi -h" for details`, and unless `ARG_ERR`
has the value of `ARG_CNT_ERR` that line, which does not contain `usage1` of
board, is all the run prints. -/
theorem wrong_argc_reports_usage (K : Consts) (B : Bus) (L : Libc) (X : Ext) (fuel : Nat)
    (argv : List String) (w : World) (d : CliCmdType)
    (hd : d ∈ fixedArgcCmds)
    (hdisp : (main K B L X fuel argv w).1 = [Call.mk d.pFunc argv.length argv])
    (hargc : (argv.length : Int) ∉ acceptedArgc d.pFunc)
    (hboard : ∃ a1, argvAt argv 1 = .ok a1 ∧
      0 < (doBoardInit K B (L.atoi a1) { w with sem := w.sem - 1 }).1 ∧
      3 ≤ (doBoardInit K B (L.atoi a1) { w with sem := w.sem - 1 }).2.gHwVer)
    (hFAIL : K.FAIL ≠ 0) (hCNT : K.ARG_CNT_ERR ≠ 0) (hARG : K.ARG_ERR ≠ 0) :
    (d ≠ CMD_BOARD →
      ∃ ret w1, (main K B L X fuel argv w).2 = .ok (ret, w1) ∧ ret ≠ 0 ∧
        occursIn d.usage1 w1.out) ∧
    (d = CMD_BOARD →
      ∃ ret w1, (main K B L X fuel argv w).2 = .ok (ret, w1) ∧ ret = K.ARG_ERR ∧
        ret ≠ 0 ∧
        occursIn "Invalid arguments number type \"plcpi -h\" for details\n" w1.out ∧
        (K.ARG_ERR = K.ARG_CNT_ERR → occursIn d.usage1 w1.out) ∧
        (K.ARG_ERR ≠ K.ARG_CNT_ERR →
          w1.out = w.out ++ "Invalid arguments number type \"plcpi -h\" for details\n" ∧
          ¬ occursIn d.usage1
            "Invalid arguments number type \"plcpi -h\" for details\n")) := by
  obtain ⟨a1, h1, hb, hv⟩ := hboard
  obtain ⟨hrun, _⟩ := main_run K B L X fuel argv w d (fixedArgcCmds_sub d hd) hdisp
  simp only [fixedArgcCmds, List.mem_cons, List.mem_singleton, List.not_mem_nil,
    or_false] at hd
  rcases hd with rfl | rfl | rfl | rfl | rfl | rfl | rfl | rfl | rfl | rfl | rfl | rfl |
    rfl | rfl
  · refine ⟨fun h => absurd rfl h, fun _ => ?_⟩
    have hcall := doBoard_wrong_argc K B L argv.length argv { w with sem := w.sem - 1 } hargc
    obtain ⟨_, t, ht, hin, hout⟩ := afterHandler_out K CMD_BOARD K.ARG_ERR
      (printf "Invalid arguments number type \"plcpi -h\" for details\n"
        { w with sem := w.sem - 1 })
    refine ⟨K.ARG_ERR, _, ?_, rfl, hARG, ?_, hin, ?_⟩
    · rw [hrun]
      show (doBoard K B L argv.length argv { w with sem := w.sem - 1 }).bind _ = _
      rw [hcall]
      rfl
    · rw [ht]
      exact occursIn_append_right _ _ _ (occursIn_suffix _ _)
    · intro hne
      refine ⟨?_, by decide⟩
      rw [ht, hout hne]
      simp [printf]
  · refine ⟨fun _ => ?_, fun h => absurd h (by decide)⟩
    obtain ⟨w1, hcall, hocc⟩ := doRelayWrite_wrong_argc K B L fuel argv.length argv
      { w with sem := w.sem - 1 } hargc
    exact run_of_wrong_argc K _ _ _ _ w1 hrun hcall (Or.inl ⟨rfl, hocc⟩) hFAIL hCNT
  · refine ⟨fun _ => ?_, fun h => absurd h (by decide)⟩
    obtain ⟨w1, hcall, hocc⟩ := doRelayRead_wrong_argc K B L argv.length argv
      { w with sem := w.sem - 1 } a1 h1 hb hargc
    exact run_of_wrong_argc K _ _ _ _ w1 hrun hcall (Or.inl ⟨rfl, hocc⟩) hFAIL hCNT
  · refine ⟨fun _ => ?_, fun h => absurd h (by decide)⟩
    obtain ⟨w1, hcall, hocc⟩ := doOdRead_wrong_argc K B L argv.length argv
      { w with sem := w.sem - 1 } a1 h1 hb hargc
    exact run_of_wrong_argc K _ _ _ _ w1 hrun hcall (Or.inl ⟨rfl, hocc⟩) hFAIL hCNT
  · refine ⟨fun _ => ?_, fun h => absurd h (by decide)⟩
    obtain ⟨w1, hcall, hocc⟩ := doOdWrite_wrong_argc K B L argv.length argv
      { w with sem := w.sem - 1 } a1 h1 hb hargc
    exact run_of_wrong_argc K _ _ _ _ w1 hrun hcall (Or.inl ⟨rfl, hocc⟩) hFAIL hCNT
  · refine ⟨fun _ => ?_, fun h => absurd h (by decide)⟩
    obtain ⟨w1, hcall⟩ := doOdCntRead_wrong_argc K B L argv.length argv
      { w with sem := w.sem - 1 } a1 h1 hb hargc
    exact run_of_wrong_argc K _ _ _ _ w1 hrun hcall (Or.inr rfl) hFAIL hCNT
  · refine ⟨fun _ => ?_, fun h => absurd h (by decide)⟩
    obtain ⟨w1, hcall, hocc⟩ := doOdCntWrite_wrong_argc K B L argv.length argv
      { w with sem := w.sem - 1 } a1 h1 hb hargc
    exact run_of_wrong_argc K _ _ _ _ w1 hrun hcall (Or.inl ⟨rfl, hocc⟩) hFAIL hCNT
  · refine ⟨fun _ => ?_, fun h => absurd h (by decide)⟩
    obtain ⟨w1, hcall, hocc⟩ := doOdCntSave_wrong_argc K B L argv.length argv
      { w with sem := w.sem - 1 } a1 h1 hb hargc
    exact run_of_wrong_argc K _ _ _ _ w1 hrun hcall (Or.inl ⟨rfl, hocc⟩) hFAIL hCNT
  · refine ⟨fun _ => ?_, fun h => absurd h (by decide)⟩
    obtain ⟨w1, hcall, hocc⟩ := doOdCntExec_wrong_argc K B L argv.length argv
      { w with sem := w.sem - 1 } a1 h1 hb hargc
    exact run_of_wrong_argc K _ _ _ _ w1 hrun hcall (Or.inl ⟨rfl, hocc⟩) hFAIL hCNT
  · refine ⟨fun _ => ?_, fun h => absurd h (by decide)⟩
    obtain ⟨w1, hcall, hocc⟩ := doOdCntReset_wrong_argc K B L argv.length argv
      { w with sem := w.sem - 1 } a1 h1 hb hargc
    exact run_of_wrong_argc K _ _ _ _ w1 hrun hcall (Or.inl ⟨rfl, hocc⟩) hFAIL hCNT
  · refine ⟨fun _ => ?_, fun h => absurd h (by decide)⟩
    obtain ⟨w1, hcall, hocc⟩ := doPwmFreqRead_wrong_argc K B L argv.length argv
      { w with sem := w.sem - 1 } a1 h1 hb hv hargc
    exact run_of_wrong_argc K _ _ _ _ w1 hrun hcall (Or.inl ⟨rfl, hocc⟩) hFAIL hCNT
  · refine ⟨fun _ => ?_, fun h => absurd h (by decide)⟩
    obtain ⟨w1, hcall, hocc⟩ := doPwmFreqWrite_wrong_argc K B L argv.length argv
      { w with sem := w.sem - 1 } a1 h1 hb hv hargc
    exact run_of_wrong_argc K _ _ _ _ w1 hrun hcall (Or.inl ⟨rfl, hocc⟩) hFAIL hCNT
  · refine ⟨fun _ => ?_, fun h => absurd h (by decide)⟩
    obtain ⟨w1, hcall, hocc⟩ := doMoveParWrite_wrong_argc K B L argv.length argv
      { w with sem := w.sem - 1 } a1 h1 hb hv hargc
    exact run_of_wrong_argc K _ _ _ _ w1 hrun hcall (Or.inl ⟨rfl, hocc⟩) hFAIL hCNT
  · refine ⟨fun _ => ?_, fun h => absurd h (by decide)⟩
    obtain ⟨w1, hcall, hocc⟩ := doEncThWr_wrong_argc K B L argv.length argv
      { w with sem := w.sem - 1 } a1 h1 hb hargc
    exact run_of_wrong_argc K _ _ _ _ w1 hrun hcall (Or.inl ⟨rfl, hocc⟩) hFAIL hCNT

/-- The command line `plcpi 0 odrd` prints the usage text of odrd; the command
line `plcpi 0 board x` prints only the hint of `doBoard`.  Board 0 is detected
and has hardware version 3. -/
theorem wrong_argc_reports_usage_witness :
    (∃ ret w1, (main card (storeBus card regs3) stdlib (extStub card) 100
        ["plcpi", "0", "odrd"] w0).2 = .ok (ret, w1) ∧ ret ≠ 0 ∧
      occursIn CMD_OD_READ.usage1 w1.out) ∧
    (∃ ret w1, (main card (storeBus card regs3) stdlib (extStub card) 100
        ["plcpi", "0", "board", "x"] w0).2 = .ok (ret, w1) ∧ ret = card.ARG_ERR ∧
      ret ≠ 0 ∧
      w1.out = w0.out ++ "Invalid arguments number type \"plcpi -h\" for details\n" ∧
      ¬ occursIn CMD_BOARD.usage1
        "Invalid arguments number type \"plcpi -h\" for details\n") := by
  refine ⟨(wrong_argc_reports_usage card (storeBus card regs3) stdlib (extStub card) 100
    ["plcpi", "0", "odrd"] w0 CMD_OD_READ (by decide) (by decide) (by decide)
    ⟨"0", rfl, by decide, by decide⟩ (by decide) (by decide) (by decide)).1 (by decide), ?_⟩
  obtain ⟨ret, w1, hrun, hret, hnz, _, _, hout⟩ :=
    (wrong_argc_reports_usage card (storeBus card regs3) stdlib (extStub card) 100
      ["plcpi", "0", "board", "x"] w0 CMD_BOARD (by decide) (by decide) (by decide)
      ⟨"0", rfl, by decide, by decide⟩ (by decide) (by decide) (by decide)).2 rfl
  exact ⟨ret, w1, hrun, hret, hnz, hout (by decide)⟩

/-- The run of `plcpi 0 board x` in full, with `ARG_ERR = -2` and
`ARG_CNT_ERR = -3`: it dispatches to `doBoard` with four arguments on a
detected board of hardware version 3, ends with `ARG_ERR`, and the only output
is the line `Invalid arguments number type "plcpi -h" for details`, which does
not contain the usage text of `CMD_BOARD`. -/
theorem wrong_argc_board_counterexample :
    CMD_BOARD ∈ fixedArgcCmds ∧
    (main card (storeBus card regs3) stdlib (extStub card) 100
      ["plcpi", "0", "board", "x"] w0).1
      = [Call.mk CMD_BOARD.pFunc 4 ["plcpi", "0", "board", "x"]] ∧
    (4 : Int) ∉ acceptedArgc CMD_BOARD.pFunc ∧
    0 < (doBoardInit card (storeBus card regs3) (stdlib.atoi "0")
      { w0 with sem := w0.sem - 1 }).1 ∧
    3 ≤ (doBoardInit card (storeBus card regs3) (stdlib.atoi "0")
      { w0 with sem := w0.sem - 1 }).2.gHwVer ∧
    (main card (storeBus card regs3) stdlib (extStub card) 100
      ["plcpi", "0", "board", "x"] w0).2
      = .ok (card.ARG_ERR,
          { w0 with out := "Invalid arguments number type \"plcpi -h\" for details\n" }) ∧
    ¬ ∃ ret w1, (main card (storeBus card regs3) stdlib (extStub card) 100
        ["plcpi", "0", "board", "x"] w0).2 = .ok (ret, w1) ∧ ret ≠ 0 ∧
      occursIn CMD_BOARD.usage1 w1.out := by
  have hm : (main card (storeBus card regs3) stdlib (extStub card) 100
      ["plcpi", "0", "board", "x"] w0).2
      = .ok (card.ARG_ERR,
          { w0 with out := "Invalid arguments number type \"plcpi -h\" for details\n" }) := by
    rfl
  refine ⟨by decide, by decide, by decide, by decide, by decide, hm, ?_⟩
  rintro ⟨ret, w1, h, _, ho⟩
  rw [hm] at h
  injection h with h
  injection h with _ hw
  subst hw
  exact absurd ho (by decide)

/-! ### PWM frequency (C10) -/

/-- The value `pwmFreqSet` sends is `val` clamped to [10, 65500]. -/
theorem pwmRaw_eq (val : Int) : (pwmRaw val : Int) = min (max val 10) 65500 := by
  unfold pwmRaw
  simp only
  have hc : (if (if val < 10 then 10 else val) > 65500 then (65500 : Int)
      else (if val < 10 then 10 else val)) = min (max val 10) 65500 := by
    by_cases h0 : val < 10
    · rw [if_pos h0, if_neg (by norm_num), max_eq_right (le_of_lt h0),
        min_eq_left (by norm_num)]
    · rw [if_neg h0]
      push_neg at h0
      rw [max_eq_left h0]
      by_cases h1 : val > 65500
      · rw [if_pos h1, min_eq_right (le_of_lt h1)]
      · rw [if_neg h1]
        push_neg at h1
        rw [min_eq_left h1]
  rw [hc]
  apply toU16_of_range
  · exact le_min (le_trans (by norm_num) (le_max_right val 10)) (by norm_num)
  · exact le_trans (min_le_right _ _) (by norm_num)

/-- C10: for every integer `val`, `pwmFreqSet` issues exactly one bus
operation, a 2-byte write to `I2C_MEM_OD_PWM_FREQUENCY` of the little-endian
bytes of `c = min(max(val, 10), 65500)`, and `pwmChFreqSet` writes the same two
bytes to `I2C_MEM_OD_PWM_FREQUENCY_CH1 + 2 * (ch - 1)`.  The bytes decode to
`c`: a value below 10 is sent as 10, a value above 65500 as 65500, and the
16-bit cast truncates nothing. -/
theorem pwmFreqSet_transmits_clamped (K : Consts) (B : Bus) (dev ch val : Int) (w : World) :
    ∃ c : Nat,
      (c : Int) = min (max val 10) 65500 ∧
      (pwmFreqSet K B dev val w).2.trace = w.trace ++
        [BusOp.mem8Write dev K.I2C_MEM_OD_PWM_FREQUENCY [c % 256, c / 256]] ∧
      (pwmChFreqSet K B dev ch val w).2.trace = w.trace ++
        [BusOp.mem8Write dev (K.I2C_MEM_OD_PWM_FREQUENCY_CH1 + 2 * (ch - 1))
          [c % 256, c / 256]] ∧
      c % 256 + 256 * (c / 256) = c ∧ c / 256 < 256 ∧
      (val < 10 → c = 10) ∧ (val > 65500 → c = 65500) := by
  have hraw := pwmRaw_eq val
  have hlo : (10 : Int) ≤ min (max val 10) 65500 :=
    le_min (le_max_right val 10) (by norm_num)
  have hhi : min (max val 10) 65500 ≤ (65500 : Int) := min_le_right _ _
  have hlt : pwmRaw val / 256 < 256 := by omega
  refine ⟨pwmRaw val, hraw, ?_, ?_, by omega, hlt, ?_, ?_⟩
  · unfold pwmFreqSet
    simp only [i2cMem8Write, le16, Nat.mod_eq_of_lt hlt]
    split <;> rfl
  · unfold pwmChFreqSet
    have hadd : K.I2C_MEM_OD_PWM_FREQUENCY_CH1 + (ch - 1) * 2
        = K.I2C_MEM_OD_PWM_FREQUENCY_CH1 + 2 * (ch - 1) := by ring
    simp only [i2cMem8Write, le16, Nat.mod_eq_of_lt hlt, hadd]
    split <;> rfl
  · intro hv
    have : (pwmRaw val : Int) = 10 := by
      rw [hraw, max_eq_right (le_of_lt hv), min_eq_left (by norm_num)]
    exact_mod_cast this
  · intro hv
    have : (pwmRaw val : Int) = 65500 := by
      rw [hraw, min_eq_right (le_trans (le_of_lt hv) (le_max_left val 10))]
    exact_mod_cast this

/-- A request of 70000 Hz on channel 2 is sent as 65500 = 0xFFDC. -/
theorem pwmFreqSet_transmits_clamped_witness :
    (pwmFreqSet card (storeBus card regs3) 40 70000 w0).2.trace =
      [BusOp.mem8Write 40 card.I2C_MEM_OD_PWM_FREQUENCY [220, 255]] ∧
    (pwmChFreqSet card (storeBus card regs3) 40 2 70000 w0).2.trace =
      [BusOp.mem8Write 40 (card.I2C_MEM_OD_PWM_FREQUENCY_CH1 + 2) [220, 255]] := by
  obtain ⟨c, _, h1, h2, _, _, _, h5⟩ :=
    pwmFreqSet_transmits_clamped card (storeBus card regs3) 40 2 70000 w0
  have hc : c = 65500 := h5 (by decide)
  subst hc
  exact ⟨h1, h2⟩

/-! ### Out-of-range arguments are rejected by the handlers (C11) -/

/-- The board initialisation issues no write. -/
theorem doBoardInit_writes (K : Consts) (B : Bus) (stack : Int) (w : World) :
    writesOf (doBoardInit K B stack w).2.trace = writesOf w.trace := by
  unfold doBoardInit
  simp only [i2cSetup, i2cMem8Read, printf]
  split
  · rfl
  · split
    · simp [writesOf, isWrite]
    · split <;> simp [writesOf, isWrite]

/-- C11 (amended): on a detected board, `doRelayWrite` with a relay number
outside 1..8 or a whole-register value outside 0..255, `doOdWrite` with a
channel outside `1..OD_CH_NR_MAX` or a percent outside [0, 100], and
`doPwmFreqWrite` with a channel outside 1..4 or a frequency outside
[10, 65500] each return `FAIL` (non-zero), print a message and issue no bus
operation after the board initialisation, which itself issues no write.  The
percent is the `float` the handler holds, the `double` of `atof` rounded to
`float`, and the frequency is the `int` it holds, that `double` truncated. -/
theorem out_of_range_args_rejected (K : Consts) (B : Bus) (L : Libc) (fuel : Nat)
    (argv : List String) (w : World) (a1 : String)
    (h1 : argvAt argv 1 = .ok a1)
    (hb : 0 < (doBoardInit K B (L.atoi a1) w).1)
    (hmin : 1 ≤ K.CHANNEL_NR_MIN) (hmax : K.RELAY_CH_NR_MAX ≤ 8) (hFAIL : K.FAIL ≠ 0) :
    K.FAIL ≠ 0 ∧
    writesOf (doBoardInit K B (L.atoi a1) w).2.trace = writesOf w.trace ∧
    (∀ a3, argv.length = 5 → argvAt argv 3 = .ok a3 →
      (L.atoi a3 < 1 ∨ 8 < L.atoi a3) →
      rejectsFrom K (doBoardInit K B (L.atoi a1) w).2
        (doRelayWrite K B L fuel argv.length argv w)) ∧
    (∀ a3, argv.length = 4 → argvAt argv 3 = .ok a3 →
      (L.atoi a3 < 0 ∨ 255 < L.atoi a3) →
      rejectsFrom K (doBoardInit K B (L.atoi a1) w).2
        (doRelayWrite K B L fuel argv.length argv w)) ∧
    (∀ a3 a4, argv.length = 5 → argvAt argv 3 = .ok a3 → argvAt argv 4 = .ok a4 →
      (L.atoi a3 < 1 ∨ K.OD_CH_NR_MAX < L.atoi a3 ∨
        toFloat (L.atof a4) < 0 ∨ 100 < toFloat (L.atof a4)) →
      rejectsFrom K (doBoardInit K B (L.atoi a1) w).2
        (doOdWrite K B L argv.length argv w)) ∧
    (∀ a3, argv.length = 4 → argvAt argv 3 = .ok a3 →
      (truncToInt (L.atof a3) < 10 ∨ 65500 < truncToInt (L.atof a3)) →
      rejectsFrom K (doBoardInit K B (L.atoi a1) w).2
        (doPwmFreqWrite K B L argv.length argv w)) ∧
    (∀ a3 a4, argv.length = 5 → argvAt argv 3 = .ok a3 → argvAt argv 4 = .ok a4 →
      (L.atoi a3 < 1 ∨ 4 < L.atoi a3 ∨
        truncToInt (L.atof a4) < 10 ∨ 65500 < truncToInt (L.atof a4)) →
      rejectsFrom K (doBoardInit K B (L.atoi a1) w).2
        (doPwmFreqWrite K B L argv.length argv w)) := by
  have hdev : ¬ (doBoardInit K B (L.atoi a1) w).1 ≤ 0 := not_le.mpr hb
  have h45 : ¬ ((4 : Int) = 5) := by decide
  have h54 : ¬ ((5 : Int) = 4) := by decide
  refine ⟨hFAIL, doBoardInit_writes K B _ w, ?_, ?_, ?_, ?_, ?_⟩
  · intro a3 hlen h3 hpin
    have hl : (argv.length : Int) = 5 := by omega
    have hg : L.atoi a3 < K.CHANNEL_NR_MIN ∨ L.atoi a3 > K.RELAY_CH_NR_MAX := by omega
    unfold doRelayWrite
    simp only [hl, h1, h3, Except.bind, if_neg hdev, if_pos hg, ne_eq, not_true_eq_false,
      false_and, and_false, if_false, if_true, reduceCtorEq]
    exact ⟨_, "Relay number value out of range\n", rfl, by decide, rfl, rfl⟩
  · intro a3 hlen h3 hval
    have hl : (argv.length : Int) = 4 := by omega
    have hg : L.atoi a3 < 0 ∨ L.atoi a3 > 255 := by omega
    have hn : ¬ ((4 : Int) ≠ 5 ∧ (4 : Int) ≠ 4) := by decide
    unfold doRelayWrite
    simp only [hl, h1, h3, Except.bind, if_neg hdev, if_neg hn, if_neg h45, if_pos hg]
    exact ⟨_, "Invalid relay value\n", rfl, by decide, rfl, rfl⟩
  · intro a3 a4 hlen h3 h4 hod
    have hl : (argv.length : Int) = 5 := by omega
    unfold doOdWrite
    simp only [hl, h1, h3, h4, Except.bind, if_neg hdev, if_true]
    by_cases hch : L.atoi a3 < K.CHANNEL_NR_MIN ∨ L.atoi a3 > K.OD_CH_NR_MAX
    · rw [if_pos hch]
      exact ⟨_, "Open drain channel out of range!\n", rfl, by decide, rfl, rfl⟩
    · rw [if_neg hch]
      have hp : toFloat (L.atof a4) < 0 ∨ toFloat (L.atof a4) > 100 := by
        rcases hod with h | h | h | h
        · exact absurd (Or.inl (by omega)) hch
        · exact absurd (Or.inr h) hch
        · exact Or.inl h
        · exact Or.inr h
      rw [if_pos hp]
      exact ⟨_, "Invalid open drain pwm value, must be 0..100 \n", rfl, by decide, rfl, rfl⟩
  · intro a3 hlen h3 hf
    have hl : (argv.length : Int) = 4 := by omega
    have hg : truncToInt (L.atof a3) < 10 ∨ truncToInt (L.atof a3) > 65500 := by omega
    unfold doPwmFreqWrite
    simp only [hl, h1, h3, Except.bind, if_neg hdev, if_true]
    by_cases hv : (doBoardInit K B (L.atoi a1) w).2.gHwVer < 3
    · rw [if_pos hv]
      exact ⟨_, _, rfl, by decide, rfl, rfl⟩
    · rw [if_neg hv, if_pos hg]
      exact ⟨_, "Invalid pwm frequency value, must be 10..65000 \n", rfl, by decide, rfl, rfl⟩
  · intro a3 a4 hlen h3 h4 hf
    have hl : (argv.length : Int) = 5 := by omega
    unfold doPwmFreqWrite
    simp only [hl, h1, h3, h4, Except.bind, if_neg hdev, if_neg h54, if_true]
    by_cases hv : (doBoardInit K B (L.atoi a1) w).2.gHwVer < 3
    · rw [if_pos hv]
      exact ⟨_, _, rfl, by decide, rfl, rfl⟩
    · rw [if_neg hv]
      by_cases hch : L.atoi a3 < 1 ∨ L.atoi a3 > 4
      · rw [if_pos hch]
        exact ⟨_, "Invalid channel number, must be 1..4 \n", rfl, by decide, rfl, rfl⟩
      · rw [if_neg hch]
        have hg : truncToInt (L.atof a4) < 10 ∨ truncToInt (L.atof a4) > 65500 := by omega
        rw [if_pos hg]
        exact ⟨_, "Invalid pwm frequency value, must be 10..65000 \n", rfl, by decide, rfl,
          rfl⟩

/-- A `double` holds every integer below `2 ^ 53` in magnitude. -/
theorem toDouble_intCast (n : Int) (hn : |n| < 9007199254740992) : toDouble (n : ℚ) = n := by
  unfold toDouble
  apply roundBinary_intCast 53 (-1074) n (by norm_num) (by norm_num)
  have : |(n : ℚ)| < 9007199254740992 := by exact_mod_cast hn
  norm_num
  exact this

/-- On a bus whose writes succeed, `odSet` on a valid channel returns `OK`. -/
theorem odSet_status (K : Consts) (B : Bus) (dev ch : Int) (v : ℚ) (w : World)
    (hch : K.CHANNEL_NR_MIN ≤ ch ∧ ch ≤ K.OD_CH_NR_MAX)
    (hW : ∀ t d a bs, B.mem8Write t d a bs = K.OK) :
    (odSet K B dev ch v w).1 = K.OK := by
  have hg : ¬ (ch < K.CHANNEL_NR_MIN ∨ ch > K.OD_CH_NR_MAX) := by omega
  unfold odSet
  simp [if_neg hg, i2cMem8Write, hW]

/-- The text `100.000001` denotes a `double` above 100 that rounds to the
`float` 100. -/
theorem atofDec_above_100 :
    stdlib.atof "100.000001" = 879609311016893 / 8796093022208 ∧
    toFloat (stdlib.atof "100.000001") = 100 := by
  have hp : decParts "100.000001" = (100000001, 6) := by decide
  have h1 : stdlib.atof "100.000001" = 879609311016893 / 8796093022208 := by
    show atofDec "100.000001" = _
    unfold atofDec toDouble
    rw [hp]
    rw [roundBinary_of_binade_pos 53 (-1074) _ 6 (-46) (by norm_num) (by norm_num)
      (by decide), roundHalfEven_eq _ 7036874488135144 (by norm_num) (by norm_num)]
    norm_num
  refine ⟨h1, ?_⟩
  rw [h1]
  unfold toFloat
  rw [roundBinary_of_binade_pos 24 (-149) _ 6 (-17) (by norm_num) (by norm_num)
    (by decide), roundHalfEven_eq _ 13107200 (by norm_num) (by norm_num)]
  norm_num

/-- The text `65500.5` denotes the `double` 65500.5, which truncates to 65500. -/
theorem atofDec_above_65500 :
    stdlib.atof "65500.5" = 131001 / 2 ∧ truncToInt (stdlib.atof "65500.5") = 65500 := by
  have hp : decParts "65500.5" = (655005, 1) := by decide
  have h1 : stdlib.atof "65500.5" = 131001 / 2 := by
    show atofDec "65500.5" = _
    unfold atofDec toDouble
    rw [hp]
    rw [roundBinary_of_binade_pos 53 (-1074) _ 15 (-37) (by norm_num) (by norm_num)
      (by decide), roundHalfEven_eq _ 9002320171892736 (by norm_num) (by norm_num)]
    norm_num
  refine ⟨h1, ?_⟩
  rw [h1]
  unfold truncToInt
  rw [if_pos (by norm_num), Int.floor_eq_iff]
  constructor <;> norm_num

/-- With 4 arguments, hardware version 3 or more and a frequency whose `int`
value lies in 10..65500, `doPwmFreqWrite` writes the frequency and, the write
succeeding, returns `OK`. -/
theorem doPwmFreqWrite_accepts (K : Consts) (B : Bus) (L : Libc) (argv : List String)
    (w : World) (a1 a3 : String)
    (h1 : argvAt argv 1 = .ok a1) (h3 : argvAt argv 3 = .ok a3)
    (hb : 0 < (doBoardInit K B (L.atoi a1) w).1)
    (hv : 3 ≤ (doBoardInit K B (L.atoi a1) w).2.gHwVer)
    (hlo : 10 ≤ truncToInt (L.atof a3)) (hhi : truncToInt (L.atof a3) ≤ 65500)
    (hW : ∀ t d a bs, B.mem8Write t d a bs = K.OK) :
    ∃ w1, doPwmFreqWrite K B L 4 argv w = .ok (K.OK, w1) ∧
      w1.trace = (doBoardInit K B (L.atoi a1) w).2.trace ++
        [BusOp.mem8Write (doBoardInit K B (L.atoi a1) w).1 K.I2C_MEM_OD_PWM_FREQUENCY
          (le16 (pwmRaw (truncToInt (L.atof a3))))] := by
  have hd : ¬ (doBoardInit K B (L.atoi a1) w).1 ≤ 0 := by omega
  have hge : ¬ (doBoardInit K B (L.atoi a1) w).2.gHwVer < 3 := by omega
  have hr : ¬ (truncToInt (L.atof a3) < 10 ∨ truncToInt (L.atof a3) > 65500) := by omega
  unfold doPwmFreqWrite
  simp only [h1, h3, Except.bind, if_neg hd, if_neg hge, if_true, if_neg hr]
  unfold pwmFreqSet
  simp only [i2cMem8Write, hW, ne_eq, not_true_eq_false, if_false, printf]
  exact ⟨_, rfl, rfl⟩

/-- The text `150` denotes the `double` 150, which is also a `float`. -/
theorem atofDec_150 : toFloat (stdlib.atof "150") = 150 := by
  have hp : decParts "150" = (150, 0) := by decide
  have h1 : stdlib.atof "150" = 150 := by
    show atofDec "150" = _
    unfold atofDec
    rw [hp]
    have := toDouble_intCast 150 (by norm_num)
    norm_num at this ⊢
    exact this
  rw [h1]
  have := toFloat_intCast 150 (by norm_num)
  norm_num at this ⊢
  exact this

/-- The command lines `plcpi 0 relwr 9 on`, `plcpi 0 relwr 256` and
`plcpi 0 odwr 2 150` on board 0. -/
theorem out_of_range_args_rejected_witness :
    rejectsFrom card (doBoardInit card (storeBus card regs3) (stdlib.atoi "0") w0).2
      (doRelayWrite card (storeBus card regs3) stdlib 100 5
        ["plcpi", "0", "relwr", "9", "on"] w0) ∧
    rejectsFrom card (doBoardInit card (storeBus card regs3) (stdlib.atoi "0") w0).2
      (doRelayWrite card (storeBus card regs3) stdlib 100 4
        ["plcpi", "0", "relwr", "256"] w0) ∧
    rejectsFrom card (doBoardInit card (storeBus card regs3) (stdlib.atoi "0") w0).2
      (doOdWrite card (storeBus card regs3) stdlib 5
        ["plcpi", "0", "odwr", "2", "150"] w0) :=
  ⟨(out_of_range_args_rejected card (storeBus card regs3) stdlib 100
      ["plcpi", "0", "relwr", "9", "on"] w0 "0" rfl (by decide) (by decide) (by decide)
      (by decide)).2.2.1 "9" rfl rfl (by decide),
    (out_of_range_args_rejected card (storeBus card regs3) stdlib 100
      ["plcpi", "0", "relwr", "256"] w0 "0" rfl (by decide) (by decide) (by decide)
      (by decide)).2.2.2.1 "256" rfl rfl (by decide),
    (out_of_range_args_rejected card (storeBus card regs3) stdlib 100
      ["plcpi", "0", "odwr", "2", "150"] w0 "0" rfl (by decide) (by decide) (by decide)
      (by decide)).2.2.2.2.1 "2" "150" rfl rfl rfl
      (Or.inr (Or.inr (Or.inr (by rw [atofDec_150]; norm_num))))⟩

/-- C11 as stated fails just outside two of the ranges.  The command line
`plcpi 0 odwr 2 100.000001` asks for a percent above 100: `atof` returns a
`double` above 100, the `float proc` rounds it to 100, the handler accepts it,
writes the count of 100 percent and returns `OK`.  The command line
`plcpi 0 pwmfwr 65500.5` asks for a frequency above 65500: the `int val` holds
65500, the handler accepts it, writes 65500 and returns `OK`. -/
theorem out_of_range_args_accepted_counterexample :
    ((100 : ℚ) < stdlib.atof "100.000001" ∧
      ∃ w1, doOdWrite card (storeBus card regs3) stdlib 5
          ["plcpi", "0", "odwr", "2", "100.000001"] w0 = .ok (card.OK, w1) ∧
        w1.trace = [BusOp.setup 40, BusOp.mem8Read 40 120 1,
          BusOp.mem8Write 40 22 [16, 39]]) ∧
    ((65500 : ℚ) < stdlib.atof "65500.5" ∧
      ∃ w1, doPwmFreqWrite card (storeBus card regs3) stdlib 4
          ["plcpi", "0", "pwmfwr", "65500.5"] w0 = .ok (card.OK, w1) ∧
        w1.trace = [BusOp.setup 40, BusOp.mem8Read 40 120 1,
          BusOp.mem8Write 40 81 [220, 255]]) := by
  have hdev : (doBoardInit card (storeBus card regs3) (stdlib.atoi "0") w0).1 = 40 := by
    decide
  have hd0 : ¬ (doBoardInit card (storeBus card regs3) (stdlib.atoi "0") w0).1 ≤ 0 := by
    decide
  have htrace : (doBoardInit card (storeBus card regs3) (stdlib.atoi "0") w0).2.trace =
      [BusOp.setup 40, BusOp.mem8Read 40 120 1] := by
    decide
  have hW : ∀ t d a bs, (storeBus card regs3).mem8Write t d a bs = card.OK :=
    fun _ _ _ _ => rfl
  constructor
  · obtain ⟨hd, hf⟩ := atofDec_above_100
    refine ⟨by rw [hd]; norm_num, ?_⟩
    have h1 : argvAt ["plcpi", "0", "odwr", "2", "100.000001"] 1 = .ok "0" := rfl
    have h3 : argvAt ["plcpi", "0", "odwr", "2", "100.000001"] 3 = .ok "2" := rfl
    have h4 : argvAt ["plcpi", "0", "odwr", "2", "100.000001"] 4 = .ok "100.000001" := rfl
    have hch : card.CHANNEL_NR_MIN ≤ stdlib.atoi "2" ∧ stdlib.atoi "2" ≤ card.OD_CH_NR_MAX := by
      decide
    have hchn : ¬ (stdlib.atoi "2" < card.CHANNEL_NR_MIN ∨
        stdlib.atoi "2" > card.OD_CH_NR_MAX) := by
      decide
    have hst := odSet_status card (storeBus card regs3)
      (doBoardInit card (storeBus card regs3) (stdlib.atoi "0") w0).1 (stdlib.atoi "2") 100
      (doBoardInit card (storeBus card regs3) (stdlib.atoi "0") w0).2 hch hW
    have htr := odSet_trace card (storeBus card regs3)
      (doBoardInit card (storeBus card regs3) (stdlib.atoi "0") w0).1 (stdlib.atoi "2") 100
      (doBoardInit card (storeBus card regs3) (stdlib.atoi "0") w0).2 hch
    have hraw : odRaw card 100 = 10000 := by
      have h := odRaw_full card 100 (by decide) (by decide) (le_refl _)
      have hM : card.OD_PWM_VAL_MAX = 10000 := rfl
      omega
    rw [hraw, htrace, hdev] at htr
    unfold doOdWrite
    simp only [h1, h3, h4, Except.bind, hf, if_true]
    rw [if_neg hd0, if_neg hchn, if_neg (by norm_num), if_neg (by rw [hst]; simp)]
    exact ⟨_, rfl, htr⟩
  · obtain ⟨hd, ht⟩ := atofDec_above_65500
    refine ⟨by rw [hd]; norm_num, ?_⟩
    obtain ⟨w1, hrun, htr⟩ := doPwmFreqWrite_accepts card (storeBus card regs3) stdlib
      ["plcpi", "0", "pwmfwr", "65500.5"] w0 "0" "65500.5" rfl rfl (by decide) (by decide)
      (by omega) (by omega) hW
    have hraw : pwmRaw 65500 = 65500 := by decide
    have hle : le16 65500 = [220, 255] := by decide
    have hadd : card.I2C_MEM_OD_PWM_FREQUENCY = 81 := rfl
    rw [ht, hraw, hle, htrace, hdev, hadd] at htr
    exact ⟨w1, hrun, htr⟩

/-! ### The whole-register write-verify loop of `doRelayWrite` (C12) -/

/-- The only fault of a read of `argv[k]` is the range fault. -/
theorem argvAt_fault (argv : List String) (k : Int) (e : Fault)
    (h : argvAt argv k = .error e) : e = Fault.argvRange := by
  unfold argvAt at h
  split at h
  · injection h with h; exact h.symm
  · split at h
    · cases h
    · injection h with h; exact h.symm

/-- The whole-register loop never ends on a bus whose transactions succeed and
whose read-back differs from the value written: every step budget runs out. -/
theorem relayWriteLoop_spins (K : Consts) (B : Bus) (dev val : Int)
    (hW : ∀ t d a bs, B.mem8Write t d a bs = K.OK)
    (hR : ∀ t d a, (B.readByteAS t d a).1 = K.OK ∧
      (((B.readByteAS t d a).2 % 256 : Nat) : Int) ≠ val) :
    ∀ (n : Nat) (retry valR : Int) (w : World), 0 < retry → valR ≠ val →
      relayWriteLoop K B dev val n retry valR w = .spin := by
  intro n
  induction n with
  | zero => intro retry valR w _ _; rfl
  | succ n ih =>
    intro retry valR w hretry hne
    unfold relayWriteLoop
    have hc : retry > 0 ∧ valR ≠ val := ⟨hretry, hne⟩
    simp only [if_pos hc, relaySet, relayGet, i2cMem8Write, i2cReadByteAS, hW, (hR _ _ _).1,
      ne_eq, not_true_eq_false, if_false, Option.getD_some]
    exact ih retry _ _ hretry (hR _ _ _).2

/-- The single-channel loop always ends: it never reports an exhausted budget. -/
theorem relayChWriteLoop_ends (K : Consts) (B : Bus) (dev pin state : Int) :
    ∀ (n : Nat) (retry stateR : Int) (w : World),
      relayChWriteLoop K B dev pin state n retry stateR w ≠ .spin := by
  intro n
  induction n with
  | zero => intro retry stateR w; simp [relayChWriteLoop]
  | succ n ih =>
    intro retry stateR w
    unfold relayChWriteLoop
    split
    · simp only
      split
      · simp
      · split
        · simp
        · exact ih _ _ _
    · simp

/-- C12 fails for the whole-register form: with `RETRY_TIMES > 0`, a value in
0..255, a detected board and a bus on which every transaction succeeds while
the value read back never equals the value written, `doRelayWrite` with
`argc = 4` does not end within any step budget (its loop never lowers `retry`).
The single-channel form (`argc = 5`) never exhausts a budget. -/
theorem doRelayWrite_register_form_unbounded (K : Consts) (B : Bus) (L : Libc)
    (argv : List String) (w : World) (a1 a3 : String)
    (hlen : argv.length = 4)
    (h1 : argvAt argv 1 = .ok a1) (h3 : argvAt argv 3 = .ok a3)
    (hb : 0 < (doBoardInit K B (L.atoi a1) w).1)
    (hval : 0 ≤ L.atoi a3 ∧ L.atoi a3 ≤ 255)
    (hretry : 0 < K.RETRY_TIMES)
    (hW : ∀ t d a bs, B.mem8Write t d a bs = K.OK)
    (hR : ∀ t d a, (B.readByteAS t d a).1 = K.OK ∧
      (((B.readByteAS t d a).2 % 256 : Nat) : Int) ≠ L.atoi a3) :
    (∀ fuel, doRelayWrite K B L fuel argv.length argv w = .error Fault.fuel) ∧
    (∀ fuel (argv5 : List String) (w5 : World),
      doRelayWrite K B L fuel 5 argv5 w5 ≠ .error Fault.fuel) := by
  constructor
  · intro fuel
    have hl : (argv.length : Int) = 4 := by omega
    have hdev : ¬ (doBoardInit K B (L.atoi a1) w).1 ≤ 0 := not_le.mpr hb
    have h45 : ¬ ((4 : Int) = 5) := by decide
    have hn : ¬ ((4 : Int) ≠ 5 ∧ (4 : Int) ≠ 4) := by decide
    have hg : ¬ (L.atoi a3 < 0 ∨ L.atoi a3 > 255) := by omega
    unfold doRelayWrite
    simp only [hl, h1, h3, Except.bind, if_neg hdev, if_neg hn, if_neg h45, if_neg hg]
    rw [relayWriteLoop_spins K B _ _ hW hR fuel K.RETRY_TIMES (-1) _ hretry (by omega)]
  · intro fuel argv5 w5
    unfold doRelayWrite
    have hn : ¬ ((5 : Int) ≠ 5 ∧ (5 : Int) ≠ 4) := by decide
    simp only [if_neg hn, if_true]
    cases h1' : argvAt argv5 1 with
    | error e =>
      have he : e = Fault.argvRange := argvAt_fault argv5 1 e h1'
      simp [Except.bind, he]
    | ok b1 =>
      simp only [Except.bind]
      split
      · simp
      · cases h3' : argvAt argv5 3 with
        | error e =>
          have he : e = Fault.argvRange := argvAt_fault argv5 3 e h3'
          simp [he]
        | ok b3 =>
          simp only
          split
          · simp
          · cases h4' : argvAt argv5 4 with
            | error e =>
              have he : e = Fault.argvRange := argvAt_fault argv5 4 e h4'
              simp [he]
            | ok b4 =>
              simp only
              split
              · simp
              · rename_i state _
                have hne := relayChWriteLoop_ends K B (doBoardInit K B (L.atoi b1) w5).1
                  (L.atoi b3) state K.RETRY_TIMES.toNat K.RETRY_TIMES K.STATE_COUNT
                  (doBoardInit K B (L.atoi b1) w5).2
                split
                · simp
                · rename_i hsp; exact absurd hsp hne
                · split <;> simp

/-- The command line `plcpi 0 relwr 165` on a board whose relay register always
reads 0: a budget of a million steps of the loop is exhausted like any other. -/
theorem doRelayWrite_register_form_unbounded_witness :
    doRelayWrite card (stuckBus card) stdlib 1000000 4
      ["plcpi", "0", "relwr", "165"] w0 = .error Fault.fuel :=
  (doRelayWrite_register_form_unbounded card (stuckBus card) stdlib
    ["plcpi", "0", "relwr", "165"] w0 "0" "165" rfl rfl rfl (by decide) (by decide)
    (by decide) (fun _ _ _ _ => rfl) (fun _ _ _ =>
      ⟨rfl, by show (((0 : Nat) % 256 : Nat) : Int) ≠ stdlib.atoi "165"; decide⟩)).1
    1000000

/-! ### `relayChSet` is a read-modify-write of one bit (C18) -/

set_option maxRecDepth 100000 in
/-- For a byte and a bit 0..7, `|= 1 << k` stores the byte OR `2^k`. -/
theorem setBit8_eq : ∀ k < 8, ∀ b < 256, setBit8 b ((k : Nat) : Int) = b ||| 2 ^ k := by
  unfold setBit8 shl1
  simp only [Int.toNat_ofNat]
  decide

set_option maxRecDepth 100000 in
/-- For a byte and a bit 0..7, `&= ~(1 << k)` stores the byte AND the
complement of `2^k` within the byte. -/
theorem clearBit8_eq : ∀ k < 8, ∀ b < 256,
    clearBit8 b ((k : Nat) : Int) = b &&& (255 - 2 ^ k) := by
  unfold clearBit8 shl1
  simp only [Int.toNat_ofNat]
  decide

/-- The mask `255 - 2^k` has every bit 0..7 other than `k` set, and bit `k`
clear. -/
theorem clearMask_testBit : ∀ k < 8, ∀ i < 8,
    (255 - 2 ^ k).testBit i = decide (i ≠ k) := by
  decide

/-- A byte has no bit at position 8 or above. -/
theorem byte_testBit_high (b i : Nat) (hb : b < 256) (hi : 8 ≤ i) : b.testBit i = false := by
  apply Nat.testBit_lt_two_pow
  calc b < 2 ^ 8 := hb
    _ ≤ 2 ^ i := Nat.pow_le_pow_right (by norm_num) hi

/-- The state `relayChSet` reaches for a valid channel and state `ON` when the
read of the register does not fail. -/
theorem relayChSet_on (K : Consts) (B : Bus) (dev : Int) (ch : Nat) (w : World)
    (hch : K.CHANNEL_NR_MIN ≤ (ch : Int) ∧ (ch : Int) ≤ K.RELAY_CH_NR_MAX)
    (hne : K.OFF ≠ K.ON)
    (hread : (B.mem8Read w.trace dev K.I2C_MEM_RELAY_VAL_ADD 1).1 ≠ K.FAIL) :
    relayChSet K B dev ch K.ON w =
      (B.mem8Write (w.trace ++ [BusOp.mem8Read dev K.I2C_MEM_RELAY_VAL_ADD 1]) dev
          K.I2C_MEM_RELAY_VAL_ADD
          [setBit8 (byteAt (B.mem8Read w.trace dev K.I2C_MEM_RELAY_VAL_ADD 1).2 0)
            ((ch : Int) - 1)],
        { w with trace := w.trace ++
          [BusOp.mem8Read dev K.I2C_MEM_RELAY_VAL_ADD 1,
           BusOp.mem8Write dev K.I2C_MEM_RELAY_VAL_ADD
            [setBit8 (byteAt (B.mem8Read w.trace dev K.I2C_MEM_RELAY_VAL_ADD 1).2 0)
              ((ch : Int) - 1)]] }) := by
  have hg : ¬ ((ch : Int) < K.CHANNEL_NR_MIN ∨ (ch : Int) > K.RELAY_CH_NR_MAX) := by omega
  have hr : ¬ (K.FAIL = (B.mem8Read w.trace dev K.I2C_MEM_RELAY_VAL_ADD 1).1) :=
    fun h => hread h.symm
  unfold relayChSet
  simp only [if_neg hg, i2cMem8Read, i2cMem8Write, if_neg hr, if_neg hne.symm, if_true,
    List.append_assoc, List.singleton_append]

/-- The state `relayChSet` reaches for a valid channel and state `OFF` when the
read of the register does not fail. -/
theorem relayChSet_off (K : Consts) (B : Bus) (dev : Int) (ch : Nat) (w : World)
    (hch : K.CHANNEL_NR_MIN ≤ (ch : Int) ∧ (ch : Int) ≤ K.RELAY_CH_NR_MAX)
    (hread : (B.mem8Read w.trace dev K.I2C_MEM_RELAY_VAL_ADD 1).1 ≠ K.FAIL) :
    relayChSet K B dev ch K.OFF w =
      (B.mem8Write (w.trace ++ [BusOp.mem8Read dev K.I2C_MEM_RELAY_VAL_ADD 1]) dev
          K.I2C_MEM_RELAY_VAL_ADD
          [clearBit8 (byteAt (B.mem8Read w.trace dev K.I2C_MEM_RELAY_VAL_ADD 1).2 0)
            ((ch : Int) - 1)],
        { w with trace := w.trace ++
          [BusOp.mem8Read dev K.I2C_MEM_RELAY_VAL_ADD 1,
           BusOp.mem8Write dev K.I2C_MEM_RELAY_VAL_ADD
            [clearBit8 (byteAt (B.mem8Read w.trace dev K.I2C_MEM_RELAY_VAL_ADD 1).2 0)
              ((ch : Int) - 1)]] }) := by
  have hg : ¬ ((ch : Int) < K.CHANNEL_NR_MIN ∨ (ch : Int) > K.RELAY_CH_NR_MAX) := by omega
  have hr : ¬ (K.FAIL = (B.mem8Read w.trace dev K.I2C_MEM_RELAY_VAL_ADD 1).1) :=
    fun h => hread h.symm
  unfold relayChSet
  simp only [if_neg hg, i2cMem8Read, i2cMem8Write, if_neg hr, if_true,
    List.append_assoc, List.singleton_append]

/-- C18: `relayChSet` reads the relay register and writes it back with one bit
changed.  For a channel 1..8 and the register byte `r` the read delivers,
`ON` writes `r OR 2^(ch-1)` and `OFF` writes `r AND NOT 2^(ch-1)`: every bit
other than `ch-1` keeps its value, bit `ch-1` is set (cleared), and applying
the update to its own result changes nothing.  For a channel outside 1..8 the
function returns `ERROR` with no bus operation; for a state other than `ON`
and `OFF` it returns `ERROR` (when the read did not fail) and never writes. -/
theorem relayChSet_read_modify_write (K : Consts) (B : Bus) (dev : Int) (ch : Nat)
    (state : Int) (w : World)
    (hmin : K.CHANNEL_NR_MIN = 1) (hmax : K.RELAY_CH_NR_MAX = 8) (hne : K.OFF ≠ K.ON) :
    (1 ≤ ch ∧ ch ≤ 8 →
      (B.mem8Read w.trace dev K.I2C_MEM_RELAY_VAL_ADD 1).1 ≠ K.FAIL →
      ∃ r, r = byteAt (B.mem8Read w.trace dev K.I2C_MEM_RELAY_VAL_ADD 1).2 0 ∧ r < 256 ∧
        (relayChSet K B dev ch K.ON w).2.trace = w.trace ++
          [BusOp.mem8Read dev K.I2C_MEM_RELAY_VAL_ADD 1,
           BusOp.mem8Write dev K.I2C_MEM_RELAY_VAL_ADD [r ||| 2 ^ (ch - 1)]] ∧
        (relayChSet K B dev ch K.OFF w).2.trace = w.trace ++
          [BusOp.mem8Read dev K.I2C_MEM_RELAY_VAL_ADD 1,
           BusOp.mem8Write dev K.I2C_MEM_RELAY_VAL_ADD [r &&& (255 - 2 ^ (ch - 1))]] ∧
        (∀ i, i ≠ ch - 1 →
          (r ||| 2 ^ (ch - 1)).testBit i = r.testBit i ∧
          (r &&& (255 - 2 ^ (ch - 1))).testBit i = r.testBit i) ∧
        (r ||| 2 ^ (ch - 1)).testBit (ch - 1) = true ∧
        (r &&& (255 - 2 ^ (ch - 1))).testBit (ch - 1) = false ∧
        (r ||| 2 ^ (ch - 1)) ||| 2 ^ (ch - 1) = r ||| 2 ^ (ch - 1) ∧
        (r &&& (255 - 2 ^ (ch - 1))) &&& (255 - 2 ^ (ch - 1))
          = r &&& (255 - 2 ^ (ch - 1)) ∧
        (state ≠ K.ON → state ≠ K.OFF → (relayChSet K B dev ch state w).1 = K.ERROR)) ∧
    (ch < 1 ∨ 8 < ch →
      (relayChSet K B dev ch state w).1 = K.ERROR ∧
      (relayChSet K B dev ch state w).2.trace = w.trace) ∧
    (state ≠ K.ON → state ≠ K.OFF →
      writesOf (relayChSet K B dev ch state w).2.trace = writesOf w.trace) := by
  refine ⟨?_, ?_, ?_⟩
  · intro hch hread
    have hr : K.CHANNEL_NR_MIN ≤ (ch : Int) ∧ (ch : Int) ≤ K.RELAY_CH_NR_MAX := by omega
    have hk : ((ch - 1 : Nat) : Int) = (ch : Int) - 1 := by omega
    have hk8 : ch - 1 < 8 := by omega
    have hb : byteAt (B.mem8Read w.trace dev K.I2C_MEM_RELAY_VAL_ADD 1).2 0 < 256 :=
      Nat.mod_lt _ (by norm_num)
    have hset := setBit8_eq (ch - 1) hk8 _ hb
    have hclr := clearBit8_eq (ch - 1) hk8 _ hb
    rw [hk] at hset hclr
    refine ⟨_, rfl, hb, ?_, ?_, ?_, ?_, ?_, ?_, ?_, ?_⟩
    · rw [relayChSet_on K B dev ch w hr hne hread, hset]
    · rw [relayChSet_off K B dev ch w hr hread, hclr]
    · intro i hi
      constructor
      · rw [Nat.testBit_or, Nat.testBit_two_pow]
        have : decide (ch - 1 = i) = false := by simpa using fun h => hi h.symm
        rw [this, Bool.or_false]
      · rw [Nat.testBit_and]
        by_cases hi8 : i < 8
        · rw [clearMask_testBit (ch - 1) hk8 i hi8]
          simp [hi]
        · rw [byte_testBit_high _ i hb (by omega), Bool.false_and]
    · rw [Nat.testBit_or, Nat.testBit_two_pow]
      simp
    · rw [Nat.testBit_and, clearMask_testBit (ch - 1) hk8 (ch - 1) hk8]
      simp
    · rw [Nat.or_assoc, Nat.or_self]
    · rw [Nat.and_assoc, Nat.and_self]
    · intro h1 h2
      have hg : ¬ ((ch : Int) < K.CHANNEL_NR_MIN ∨ (ch : Int) > K.RELAY_CH_NR_MAX) := by
        omega
      have hf : ¬ (K.FAIL = (B.mem8Read w.trace dev K.I2C_MEM_RELAY_VAL_ADD 1).1) :=
        fun h => hread h.symm
      unfold relayChSet
      simp only [if_neg hg, i2cMem8Read, if_neg hf, if_neg h1, if_neg h2]
  · intro hch
    have hg : (ch : Int) < K.CHANNEL_NR_MIN ∨ (ch : Int) > K.RELAY_CH_NR_MAX := by omega
    unfold relayChSet
    simp only [if_pos hg, printf, and_self]
  · intro h1 h2
    unfold relayChSet
    simp only [i2cMem8Read, if_neg h1, if_neg h2, printf]
    split
    · rfl
    · split <;> simp [writesOf, isWrite]

/-- Relay 3 on a board whose relay register holds 0: `ON` writes 4. -/
theorem relayChSet_read_modify_write_witness :
    (relayChSet card (storeBus card regs3) 40 3 card.ON w0).2.trace =
      [BusOp.mem8Read 40 card.I2C_MEM_RELAY_VAL_ADD 1,
       BusOp.mem8Write 40 card.I2C_MEM_RELAY_VAL_ADD [4]] ∧
    (relayChSet card (storeBus card regs3) 40 9 card.ON w0).1 = card.ERROR ∧
    (relayChSet card (storeBus card regs3) 40 9 card.ON w0).2.trace = w0.trace ∧
    writesOf (relayChSet card (storeBus card regs3) 40 3 5 w0).2.trace = writesOf w0.trace := by
  obtain ⟨h1, _, h3⟩ := relayChSet_read_modify_write card (storeBus card regs3) 40 3 5 w0
    rfl rfl (by decide)
  obtain ⟨_, h2, _⟩ := relayChSet_read_modify_write card (storeBus card regs3) 40 9 card.ON w0
    rfl rfl (by decide)
  obtain ⟨r, hr, _, hon, _⟩ := h1 (by decide) (by decide)
  have hr0 : r = 0 := by rw [hr]; decide
  subst hr0
  exact ⟨hon, (h2 (by decide)).1, (h2 (by decide)).2, h3 (by decide) (by decide)⟩

/-! ### A match at the last attempt of the single-channel loop (C13) -/

/-- Two more operations, one of them a write, add one write to the trace. -/
theorem writesOf_read_write (t : List BusOp) (dev add : Int) (bytes : List Nat) :
    (writesOf (t ++ [BusOp.mem8Read dev add 1, BusOp.mem8Write dev add bytes])).length
      = (writesOf t).length + 1 := by
  simp [writesOf, isWrite]

/-- Every write succeeds on `lateBus`. -/
theorem lateBus_write (K : Consts) (n : Nat) (t : List BusOp) (dev add : Int)
    (bytes : List Nat) : (lateBus K n).mem8Write t dev add bytes = K.OK :=
  rfl

/-- On `lateBus`, `relayChGet` reports `ON` exactly when the trace holds `n`
writes or more. -/
theorem relayChGet_late (K : Consts) (n : Nat) (dev : Int) (ch : Nat) (s : Int) (w : World)
    (hmin : K.CHANNEL_NR_MIN ≤ 1) (hmax : 8 ≤ K.RELAY_CH_NR_MAX) (hch : 1 ≤ ch ∧ ch ≤ 8) :
    relayChGet K (lateBus K n) dev ch (some s) w =
      (K.OK, some (if n ≤ (writesOf w.trace).length then K.ON else K.OFF),
        { w with trace := w.trace ++ [BusOp.readByteAS dev K.I2C_MEM_RELAY_VAL_ADD] }) := by
  have hg : ¬ ((ch : Int) < K.CHANNEL_NR_MIN ∨ (ch : Int) > K.RELAY_CH_NR_MAX) := by omega
  have hk : (ch : Int) - 1 = ((ch - 1 : Nat) : Int) := by omega
  have hbit : ∀ k < 8, 255 % 256 &&& shl1 ((k : Nat) : Int) ≠ 0 := by
    unfold shl1
    simp only [Int.toNat_ofNat]
    decide
  unfold relayChGet
  simp only [if_neg hg, i2cReadByteAS, lateBus, ne_eq, not_true_eq_false, if_false]
  by_cases hn : n ≤ (writesOf w.trace).length
  · have := hbit (ch - 1) (by omega)
    rw [← hk] at this
    simp only [if_pos hn, if_pos this]
  · simp only [if_neg hn, Nat.zero_mod, Nat.zero_and, not_true_eq_false, if_false]

/-- On `lateBus K n` with `m + 1` attempts left and `n - (m + 1)` writes issued,
the loop that switches a relay on runs all its attempts, sees `ON` at the last
read-back only, and leaves `retry = 0`. -/
theorem relayChWriteLoop_late (K : Consts) (n : Nat) (dev pin : Int)
    (hfail : K.FAIL ≠ K.OK) (hne : K.OFF ≠ K.ON)
    (hmin : K.CHANNEL_NR_MIN ≤ 1) (hmax : 8 ≤ K.RELAY_CH_NR_MAX)
    (hpin : 1 ≤ pin ∧ pin ≤ 8) :
    ∀ (m : Nat) (stateR : Int) (w : World), stateR ≠ K.ON →
      (writesOf w.trace).length + (m + 1) = n →
      ∃ t, relayChWriteLoop K (lateBus K n) dev pin K.ON (m + 1) ((m + 1 : Nat) : Int)
          stateR w
          = .done 0 { w with trace := t ++ [BusOp.readByteAS dev K.I2C_MEM_RELAY_VAL_ADD] } ∧
        (writesOf t).length = n := by
  have hp : 1 ≤ toU8 pin ∧ toU8 pin ≤ 8 := by
    have h := toU8_cast pin
    rw [Int.emod_eq_of_lt (by omega) (by omega)] at h
    omega
  have hr : K.CHANNEL_NR_MIN ≤ (toU8 pin : Int) ∧ (toU8 pin : Int) ≤ K.RELAY_CH_NR_MAX := by
    omega
  have hread : ∀ w : World,
      ((lateBus K n).mem8Read w.trace dev K.I2C_MEM_RELAY_VAL_ADD 1).1 ≠ K.FAIL :=
    fun _ => hfail.symm
  intro m
  induction m with
  | zero =>
    intro stateR w hs hw
    unfold relayChWriteLoop
    have hc : ((0 + 1 : Nat) : Int) > 0 ∧ stateR ≠ K.ON := ⟨by norm_num, hs⟩
    rw [if_pos hc]
    simp only [relayChSet_on K (lateBus K n) dev (toU8 pin) w hr hne (hread w),
      relayChGet_late K n dev (toU8 pin) stateR _ hmin hmax hp]
    refine ⟨w.trace ++
      [BusOp.mem8Read dev K.I2C_MEM_RELAY_VAL_ADD 1,
       BusOp.mem8Write dev K.I2C_MEM_RELAY_VAL_ADD
        [setBit8 (byteAt ((lateBus K n).mem8Read w.trace dev K.I2C_MEM_RELAY_VAL_ADD 1).2 0)
          ((toU8 pin : Int) - 1)]], ?_, ?_⟩
    · have h0 : ((0 + 1 : Nat) : Int) - 1 = 0 := by norm_num
      rw [h0]
      simp only [lateBus_write, ne_eq, not_true_eq_false, if_false, relayChWriteLoop]
    · rw [writesOf_read_write]
      omega
  | succ m ih =>
    intro stateR w hs hw
    unfold relayChWriteLoop
    have hc : ((m + 1 + 1 : Nat) : Int) > 0 ∧ stateR ≠ K.ON := ⟨by positivity, hs⟩
    have hlt : ¬ (n ≤ (writesOf w.trace).length + 1) := by omega
    have hretry : ((m + 1 + 1 : Nat) : Int) - 1 = ((m + 1 : Nat) : Int) := by
      push_cast; ring
    rw [if_pos hc]
    simp only [relayChSet_on K (lateBus K n) dev (toU8 pin) w hr hne (hread w),
      relayChGet_late K n dev (toU8 pin) stateR _ hmin hmax hp, lateBus_write, ne_eq,
      not_true_eq_false, if_false, writesOf_read_write, if_neg hlt, Option.getD_some, hretry]
    obtain ⟨t, ht, hwt⟩ := ih K.OFF
      { w with trace := w.trace ++
        [BusOp.mem8Read dev K.I2C_MEM_RELAY_VAL_ADD 1,
         BusOp.mem8Write dev K.I2C_MEM_RELAY_VAL_ADD
          [setBit8 (byteAt ((lateBus K n).mem8Read w.trace dev K.I2C_MEM_RELAY_VAL_ADD 1).2 0)
            ((toU8 pin : Int) - 1)]] ++
        [BusOp.readByteAS dev K.I2C_MEM_RELAY_VAL_ADD] }
      hne
      (by
        have h3 : (writesOf (w.trace ++
            [BusOp.mem8Read dev K.I2C_MEM_RELAY_VAL_ADD 1,
             BusOp.mem8Write dev K.I2C_MEM_RELAY_VAL_ADD
              [setBit8 (byteAt ((lateBus K n).mem8Read w.trace dev
                K.I2C_MEM_RELAY_VAL_ADD 1).2 0) ((toU8 pin : Int) - 1)]] ++
            [BusOp.readByteAS dev K.I2C_MEM_RELAY_VAL_ADD])).length
            = (writesOf w.trace).length + 1 := by
          simp [writesOf, isWrite]
        simp only [h3]
        omega)
    exact ⟨t, ht, hwt⟩

/-- C13 fails at the last attempt: on a bus where every transaction succeeds
and the relay is seen on at the read-back of write number `RETRY_TIMES` and not
before, `plcpi <stack> relwr <1..8> on` makes exactly `RETRY_TIMES` writes, its
last bus operation is the read-back that reports `ON`, and the command still
returns `FAIL`: after the loop `retry` is 0 and the handler tests `retry`, not
the state read back. -/
theorem doRelayWrite_match_at_last_attempt_fails (K : Consts) (L : Libc) (fuel : Nat)
    (argv : List String) (w : World) (a1 a3 a4 : String) (n : Nat)
    (hretry : K.RETRY_TIMES = ((n + 1 : Nat) : Int))
    (hlen : argv.length = 5)
    (h1 : argvAt argv 1 = .ok a1) (h3 : argvAt argv 3 = .ok a3)
    (h4 : argvAt argv 4 = .ok a4)
    (hpin : 1 ≤ L.atoi a3 ∧ L.atoi a3 ≤ 8)
    (hon : strcasecmp a4 "on" = 0)
    (hb : 0 < (doBoardInit K (lateBus K (n + 1)) (L.atoi a1) w).1)
    (hw : writesOf w.trace = [])
    (hfail : K.FAIL ≠ K.OK) (hne : K.OFF ≠ K.ON) (hsc : K.STATE_COUNT ≠ K.ON)
    (hmin : K.CHANNEL_NR_MIN ≤ 1) (hmax : 8 ≤ K.RELAY_CH_NR_MAX) :
    ∃ w1 t,
      doRelayWrite K (lateBus K (n + 1)) L fuel argv.length argv w = .ok (K.FAIL, w1) ∧
      w1.trace = t ++ [BusOp.readByteAS
        (doBoardInit K (lateBus K (n + 1)) (L.atoi a1) w).1 K.I2C_MEM_RELAY_VAL_ADD] ∧
      (writesOf t).length = n + 1 ∧
      (relayChGet K (lateBus K (n + 1))
        (doBoardInit K (lateBus K (n + 1)) (L.atoi a1) w).1 (toU8 (L.atoi a3))
        (some K.OFF) { w1 with trace := t }).2.1 = some K.ON := by
  have hl : (argv.length : Int) = 5 := by omega
  have hdev : ¬ (doBoardInit K (lateBus K (n + 1)) (L.atoi a1) w).1 ≤ 0 := not_le.mpr hb
  have hn : ¬ ((5 : Int) ≠ 5 ∧ (5 : Int) ≠ 4) := by decide
  have hg : ¬ (L.atoi a3 < K.CHANNEL_NR_MIN ∨ L.atoi a3 > K.RELAY_CH_NR_MAX) := by omega
  have hp : 1 ≤ toU8 (L.atoi a3) ∧ toU8 (L.atoi a3) ≤ 8 := by
    have h := toU8_cast (L.atoi a3)
    rw [Int.emod_eq_of_lt (by omega) (by omega)] at h
    omega
  have hw0 : (writesOf (doBoardInit K (lateBus K (n + 1)) (L.atoi a1) w).2.trace).length
      + (n + 1) = n + 1 := by
    rw [doBoardInit_writes, hw]
    simp
  obtain ⟨t, hloop, ht⟩ := relayChWriteLoop_late K (n + 1)
    (doBoardInit K (lateBus K (n + 1)) (L.atoi a1) w).1 (L.atoi a3) hfail hne hmin hmax hpin
    n K.STATE_COUNT (doBoardInit K (lateBus K (n + 1)) (L.atoi a1) w).2 hsc hw0
  have htn : K.RETRY_TIMES.toNat = n + 1 := by rw [hretry]; rfl
  refine ⟨printf "Fail to write relay\n"
    { (doBoardInit K (lateBus K (n + 1)) (L.atoi a1) w).2 with
      trace := t ++ [BusOp.readByteAS
        (doBoardInit K (lateBus K (n + 1)) (L.atoi a1) w).1 K.I2C_MEM_RELAY_VAL_ADD] },
    t, ?_, ?_, ht, ?_⟩
  · unfold doRelayWrite
    simp only [hl, h1, h3, h4, Except.bind, if_neg hn, if_neg hdev, if_true, if_neg hg, hon,
      or_true, htn]
    rw [hretry, hloop]
    simp only [if_true]
  · rfl
  · rw [relayChGet_late K (n + 1) _ _ _ _ hmin hmax hp]
    simp only [ht, le_refl, if_true]

/-- The command line `plcpi 0 relwr 3 on` with ten attempts, the relay being
seen on at the tenth read-back: the status is `FAIL`. -/
theorem doRelayWrite_match_at_last_attempt_fails_witness :
    ∃ w1 t,
      doRelayWrite card (lateBus card 10) stdlib 0 5 ["plcpi", "0", "relwr", "3", "on"] w0
        = .ok (card.FAIL, w1) ∧
      w1.trace = t ++ [BusOp.readByteAS 40 card.I2C_MEM_RELAY_VAL_ADD] ∧
      (writesOf t).length = 10 ∧
      (relayChGet card (lateBus card 10) 40 3 (some card.OFF)
        { w1 with trace := t }).2.1 = some card.ON :=
  doRelayWrite_match_at_last_attempt_fails card stdlib 0
    ["plcpi", "0", "relwr", "3", "on"] w0 "0" "3" "on" 9 rfl rfl rfl rfl rfl
    (by decide) (by decide) (by decide) rfl (by decide) (by decide) (by decide)
    (by decide) (by decide)

/-! ### The movement profile (C14, C19) -/

/-- The two bytes of a value in 0..65535 and their decoding. -/
theorem le16_of_range (z : Int) (h0 : 0 ≤ z) (h1 : z ≤ 65535) :
    ∃ v : Nat, (v : Int) = z ∧ le16 (toU16 z) = [v % 256, v / 256] ∧
      v % 256 + 256 * (v / 256) = v ∧ v / 256 < 256 := by
  have h := toU16_of_range z h0 h1
  have hlt : toU16 z / 256 < 256 := by omega
  exact ⟨toU16 z, h, by rw [le16, Nat.mod_eq_of_lt hlt], by omega, hlt⟩

/-- Once the channel, the acceleration and the deceleration have passed their
tests, `odOutMoveSet` issues the 8-byte write whatever the speeds are, and the
command write when the first write succeeded. -/
theorem odOutMoveSet_sends (K : Consts) (B : Bus) (dev ch acc dec minSpd maxSpd : Int)
    (w : World) (hch : 1 ≤ ch ∧ ch ≤ 4) (hacc : 0 ≤ acc ∧ acc ≤ 60000)
    (hdec : 0 ≤ dec ∧ dec ≤ 60000) :
    (K.OK ≠ B.mem8Write w.trace dev K.I2C_MEM_ODP_ACC
        (le16 (toU16 acc) ++ le16 (toU16 dec) ++ le16 (toU16 maxSpd) ++ le16 (toU16 minSpd)) →
      (odOutMoveSet K B dev ch acc dec minSpd maxSpd w).1 = -1 ∧
      (odOutMoveSet K B dev ch acc dec minSpd maxSpd w).2.trace = w.trace ++
        [BusOp.mem8Write dev K.I2C_MEM_ODP_ACC
          (le16 (toU16 acc) ++ le16 (toU16 dec) ++ le16 (toU16 maxSpd)
            ++ le16 (toU16 minSpd))]) ∧
    ((∀ t d a bs, B.mem8Write t d a bs = K.OK) →
      (odOutMoveSet K B dev ch acc dec minSpd maxSpd w).1 = K.OK ∧
      (odOutMoveSet K B dev ch acc dec minSpd maxSpd w).2.trace = w.trace ++
        [BusOp.mem8Write dev K.I2C_MEM_ODP_ACC
          (le16 (toU16 acc) ++ le16 (toU16 dec) ++ le16 (toU16 maxSpd)
            ++ le16 (toU16 minSpd)),
         BusOp.mem8Write dev K.I2C_MEM_ODP_CMD [toU8 ch]] ∧
      (odOutMoveSet K B dev ch acc dec minSpd maxSpd w).2.out = w.out ++
        ((if maxSpd < 10 ∨ maxSpd > 60000 then "Invalid speed [10..60000]\n" else "") ++
         (if minSpd < 10 ∨ minSpd > maxSpd then "Invalid speed [10..60000]\n" else ""))) := by
  have h1 : ¬ (ch ≤ 0 ∨ ch > 4) := by omega
  have h2 : ¬ (acc < 0 ∨ acc > MAX_ACC) := by unfold MAX_ACC; omega
  have h3 : ¬ (dec < 0 ∨ dec > MAX_ACC) := by unfold MAX_ACC; omega
  unfold odOutMoveSet
  simp only [if_neg h1, if_neg h2, if_neg h3, MIN_SPEED, MAX_SPEED, i2cMem8Write]
  constructor
  · intro hf
    by_cases hm : maxSpd < 10 ∨ maxSpd > 60000 <;>
      by_cases hn : minSpd < 10 ∨ minSpd > maxSpd <;>
      simp only [hm, hn, if_true, if_false, printf, if_pos hf, and_self]
  · intro hW
    by_cases hm : maxSpd < 10 ∨ maxSpd > 60000 <;>
      by_cases hn : minSpd < 10 ∨ minSpd > maxSpd <;>
      simp [hm, hn, printf, hW, String.append_assoc]

/-- The command byte of a channel 0..255 is the channel. -/
theorem toU8_of_range (z : Int) (h0 : 0 ≤ z) (h1 : z ≤ 255) : ((toU8 z : Nat) : Int) = z := by
  rw [toU8_cast, Int.emod_eq_of_lt h0 (by omega)]

/-- C14: for a channel 1..4, acceleration and deceleration in 0..60000 and
speeds in 10..60000 with `minSpd <= maxSpd`, `odOutMoveSet` on a bus whose
writes succeed returns `OK`, prints nothing and issues exactly two operations:
the 8-byte write at `I2C_MEM_ODP_ACC` of the little-endian pairs of `acc`,
`dec`, `maxSpd`, `minSpd` (each pair decodes to its argument), then the 1-byte
write of `ch` at `I2C_MEM_ODP_CMD`.  When the first write fails, the result is
-1 and the command byte is not written. -/
theorem odOutMoveSet_valid_profile (K : Consts) (B : Bus)
    (dev ch acc dec minSpd maxSpd : Int) (w : World)
    (hch : 1 ≤ ch ∧ ch ≤ 4) (hacc : 0 ≤ acc ∧ acc ≤ 60000)
    (hdec : 0 ≤ dec ∧ dec ≤ 60000) (hmax : 10 ≤ maxSpd ∧ maxSpd ≤ 60000)
    (hmin : 10 ≤ minSpd ∧ minSpd ≤ maxSpd) :
    ∃ a d mx mn c : Nat,
      (a : Int) = acc ∧ (d : Int) = dec ∧ (mx : Int) = maxSpd ∧ (mn : Int) = minSpd ∧
      (c : Int) = ch ∧
      (a % 256 + 256 * (a / 256) = a ∧ a / 256 < 256) ∧
      (d % 256 + 256 * (d / 256) = d ∧ d / 256 < 256) ∧
      (mx % 256 + 256 * (mx / 256) = mx ∧ mx / 256 < 256) ∧
      (mn % 256 + 256 * (mn / 256) = mn ∧ mn / 256 < 256) ∧
      ((∀ t dv ad bs, B.mem8Write t dv ad bs = K.OK) →
        (odOutMoveSet K B dev ch acc dec minSpd maxSpd w).1 = K.OK ∧
        (odOutMoveSet K B dev ch acc dec minSpd maxSpd w).2.out = w.out ∧
        (odOutMoveSet K B dev ch acc dec minSpd maxSpd w).2.trace = w.trace ++
          [BusOp.mem8Write dev K.I2C_MEM_ODP_ACC
            [a % 256, a / 256, d % 256, d / 256, mx % 256, mx / 256, mn % 256, mn / 256],
           BusOp.mem8Write dev K.I2C_MEM_ODP_CMD [c]]) ∧
      (K.OK ≠ B.mem8Write w.trace dev K.I2C_MEM_ODP_ACC
          [a % 256, a / 256, d % 256, d / 256, mx % 256, mx / 256, mn % 256, mn / 256] →
        (odOutMoveSet K B dev ch acc dec minSpd maxSpd w).1 = -1 ∧
        (odOutMoveSet K B dev ch acc dec minSpd maxSpd w).2.trace = w.trace ++
          [BusOp.mem8Write dev K.I2C_MEM_ODP_ACC
            [a % 256, a / 256, d % 256, d / 256, mx % 256, mx / 256, mn % 256, mn / 256]]) := by
  obtain ⟨a, ha, hla, hda, hba⟩ := le16_of_range acc hacc.1 (by omega)
  obtain ⟨d, hd, hld, hdd, hbd⟩ := le16_of_range dec hdec.1 (by omega)
  obtain ⟨mx, hmx, hlmx, hdmx, hbmx⟩ := le16_of_range maxSpd (by omega) (by omega)
  obtain ⟨mn, hmn, hlmn, hdmn, hbmn⟩ := le16_of_range minSpd (by omega) (by omega)
  have hc := toU8_of_range ch (by omega) (by omega)
  have hsend := odOutMoveSet_sends K B dev ch acc dec minSpd maxSpd w hch hacc hdec
  rw [hla, hld, hlmx, hlmn] at hsend
  simp only [List.cons_append, List.nil_append] at hsend
  have hm : ¬ (maxSpd < 10 ∨ maxSpd > 60000) := by omega
  have hn : ¬ (minSpd < 10 ∨ minSpd > maxSpd) := by omega
  refine ⟨a, d, mx, mn, toU8 ch, ha, hd, hmx, hmn, hc, ⟨hda, hba⟩, ⟨hdd, hbd⟩, ⟨hdmx, hbmx⟩,
    ⟨hdmn, hbmn⟩, ?_, hsend.1⟩
  intro hW
  obtain ⟨h1, h2, h3⟩ := hsend.2 hW
  refine ⟨h1, ?_, h2⟩
  rw [h3, if_neg hm, if_neg hn]
  simp

/-- The profile of the usage example, `mvpwr 1 1000 500 1000 20000`, on a bus
whose writes succeed. -/
theorem odOutMoveSet_valid_profile_witness :
    (odOutMoveSet card (storeBus card regs3) 40 1 1000 500 1000 20000 w0).1 = card.OK ∧
    (odOutMoveSet card (storeBus card regs3) 40 1 1000 500 1000 20000 w0).2.trace =
      [BusOp.mem8Write 40 card.I2C_MEM_ODP_ACC [232, 3, 244, 1, 32, 78, 232, 3],
       BusOp.mem8Write 40 card.I2C_MEM_ODP_CMD [1]] := by
  obtain ⟨a, d, mx, mn, c, ha, hd, hmx, hmn, hc, _, _, _, _, hok, _⟩ :=
    odOutMoveSet_valid_profile card (storeBus card regs3) 40 1 1000 500 1000 20000 w0
      (by decide) (by decide) (by decide) (by decide) (by decide)
  have ha' : a = 1000 := by exact_mod_cast ha
  have hd' : d = 500 := by exact_mod_cast hd
  have hmx' : mx = 20000 := by exact_mod_cast hmx
  have hmn' : mn = 1000 := by exact_mod_cast hmn
  have hc' : c = 1 := by exact_mod_cast hc
  subst ha' hd' hmx' hmn' hc'
  obtain ⟨h1, _, h3⟩ := hok (fun _ _ _ _ => rfl)
  exact ⟨h1, h3⟩

/-- C19 fails for the speeds: with a valid channel, acceleration and
deceleration, a maximum speed outside 10..60000 or a minimum speed outside
`10..maxSpd` only prints `Invalid speed [10..60000]`; on a bus whose writes
succeed `odOutMoveSet` still issues both writes and returns `OK`.  The two
speed tests have no `return`. -/
theorem odOutMoveSet_bad_speed_transmitted (K : Consts) (B : Bus)
    (dev ch acc dec minSpd maxSpd : Int) (w : World)
    (hch : 1 ≤ ch ∧ ch ≤ 4) (hacc : 0 ≤ acc ∧ acc ≤ 60000)
    (hdec : 0 ≤ dec ∧ dec ≤ 60000)
    (hbad : maxSpd < 10 ∨ maxSpd > 60000 ∨ minSpd < 10 ∨ minSpd > maxSpd)
    (hW : ∀ t dv ad bs, B.mem8Write t dv ad bs = K.OK) :
    (odOutMoveSet K B dev ch acc dec minSpd maxSpd w).1 = K.OK ∧
    (odOutMoveSet K B dev ch acc dec minSpd maxSpd w).2.trace = w.trace ++
      [BusOp.mem8Write dev K.I2C_MEM_ODP_ACC
        (le16 (toU16 acc) ++ le16 (toU16 dec) ++ le16 (toU16 maxSpd)
          ++ le16 (toU16 minSpd)),
       BusOp.mem8Write dev K.I2C_MEM_ODP_CMD [toU8 ch]] ∧
    occursIn "Invalid speed [10..60000]\n"
      (odOutMoveSet K B dev ch acc dec minSpd maxSpd w).2.out := by
  obtain ⟨h1, h2, h3⟩ :=
    (odOutMoveSet_sends K B dev ch acc dec minSpd maxSpd w hch hacc hdec).2 hW
  refine ⟨h1, h2, ?_⟩
  rw [h3]
  by_cases hm : maxSpd < 10 ∨ maxSpd > 60000
  · rw [if_pos hm, ← String.append_assoc]
    exact occursIn_append_right _ _ _ (occursIn_suffix _ _)
  · have hn : minSpd < 10 ∨ minSpd > maxSpd := by
      rcases hbad with h | h | h | h
      · exact absurd (Or.inl h) hm
      · exact absurd (Or.inr h) hm
      · exact Or.inl h
      · exact Or.inr h
    rw [if_neg hm, if_pos hn, String.empty_append]
    exact occursIn_suffix _ _

/-- The call `odOutMoveSet(dev, 1, 100, 100, 5, 70000)`: status `OK`, both
writes issued, the maximum speed sent as 70000 - 65536 = 4464 (bytes 112, 17)
and the minimum speed 5 sent as it is. -/
theorem odOutMoveSet_bad_speed_transmitted_witness :
    (odOutMoveSet card (storeBus card regs3) 40 1 100 100 5 70000 w0).1 = 0 ∧
    (odOutMoveSet card (storeBus card regs3) 40 1 100 100 5 70000 w0).2.trace =
      [BusOp.mem8Write 40 card.I2C_MEM_ODP_ACC [100, 0, 100, 0, 112, 17, 5, 0],
       BusOp.mem8Write 40 card.I2C_MEM_ODP_CMD [1]] ∧
    (odOutMoveSet card (storeBus card regs3) 40 1 100 100 5 70000 w0).2.out =
      "Invalid speed [10..60000]\nInvalid speed [10..60000]\n" := by
  obtain ⟨h1, h2, _⟩ := odOutMoveSet_bad_speed_transmitted card (storeBus card regs3)
    40 1 100 100 5 70000 w0 (by decide) (by decide) (by decide) (by decide)
    (fun _ _ _ _ => rfl)
  exact ⟨h1, h2, by decide⟩

/-! ### Encoder threshold and pulse counts (C15, C16) -/

/-- The four bytes of a 32-bit value and their decoding. -/
theorem le32_of_range (v : Nat) (h : v < 4294967296) :
    le32 v = [v % 256, v / 256 % 256, v / 65536 % 256, v / 16777216] ∧
    v % 256 + 256 * (v / 256 % 256) + 65536 * (v / 65536 % 256) + 16777216 * (v / 16777216)
      = v := by
  have h3 : v / 16777216 < 256 := by omega
  exact ⟨by rw [le32, Nat.mod_eq_of_lt h3], by omega⟩

/-- C15: for a channel in `CHANNEL_NR_MIN..OD_CH_NR_MAX` and a 32-bit unsigned
`val`, `encSetThreshold` issues exactly one bus operation, a 5-byte write at
`I2C_MEM_ENCODER_LIMIT` of the four little-endian bytes of `val` (which decode
to `val`) followed by `ch`; for a channel outside the range it returns `ERROR`
and issues no bus operation. -/
theorem encSetThreshold_one_write (K : Consts) (B : Bus) (dev ch : Int) (val : Nat)
    (w : World) (hval : val < 4294967296)
    (h0 : 0 ≤ K.CHANNEL_NR_MIN) (h255 : K.OD_CH_NR_MAX ≤ 255) :
    (K.CHANNEL_NR_MIN ≤ ch ∧ ch ≤ K.OD_CH_NR_MAX →
      ∃ c : Nat, (c : Int) = ch ∧
        (encSetThreshold K B dev ch val w).2.trace = w.trace ++
          [BusOp.mem8Write dev K.I2C_MEM_ENCODER_LIMIT
            [val % 256, val / 256 % 256, val / 65536 % 256, val / 16777216, c]] ∧
        val % 256 + 256 * (val / 256 % 256) + 65536 * (val / 65536 % 256)
          + 16777216 * (val / 16777216) = val) ∧
    (ch < K.CHANNEL_NR_MIN ∨ K.OD_CH_NR_MAX < ch →
      (encSetThreshold K B dev ch val w).1 = K.ERROR ∧
      (encSetThreshold K B dev ch val w).2.trace = w.trace) := by
  obtain ⟨hle, hdec⟩ := le32_of_range val hval
  constructor
  · intro hch
    have hg : ¬ (ch < K.CHANNEL_NR_MIN ∨ ch > K.OD_CH_NR_MAX) := by omega
    refine ⟨toU8 ch, toU8_of_range ch (by omega) (by omega), ?_, hdec⟩
    unfold encSetThreshold
    simp only [if_neg hg, i2cMem8Write, hle, List.cons_append, List.nil_append]
    split <;> rfl
  · intro hch
    have hg : ch < K.CHANNEL_NR_MIN ∨ ch > K.OD_CH_NR_MAX := by omega
    unfold encSetThreshold
    simp only [if_pos hg, printf, and_self]

/-- The threshold 1000 for channel 2, and the rejected channel 5. -/
theorem encSetThreshold_one_write_witness :
    (encSetThreshold card (storeBus card regs3) 40 2 1000 w0).2.trace =
      [BusOp.mem8Write 40 card.I2C_MEM_ENCODER_LIMIT [232, 3, 0, 0, 2]] ∧
    (encSetThreshold card (storeBus card regs3) 40 5 1000 w0).1 = card.ERROR ∧
    (encSetThreshold card (storeBus card regs3) 40 5 1000 w0).2.trace = w0.trace := by
  obtain ⟨h1, _⟩ := encSetThreshold_one_write card (storeBus card regs3) 40 2 1000 w0
    (by decide) (by decide) (by decide)
  obtain ⟨_, h2⟩ := encSetThreshold_one_write card (storeBus card regs3) 40 5 1000 w0
    (by decide) (by decide) (by decide)
  obtain ⟨c, hc, ht, _⟩ := h1 (by decide)
  have hc' : c = 2 := by exact_mod_cast hc
  subst hc'
  exact ⟨ht, h2 (by decide)⟩

set_option maxRecDepth 100000 in
/-- The tag bytes of the three pulse commands for the channels 1..8 (written
`k + 1` with `k < 8`): the save tag has bit 0x10 set, bit 0x20 clear and the
channel in its low nibble; the channel number has bit 0x20 clear; the execute
byte has bit 0x20 set and the channel in its low nibble, and differs from
every save tag and from every channel number. -/
theorem pulse_tags : ∀ k < 8,
    ((k + 1) ||| PULSE_SAVE_MASK) % 256 = (k + 1) ||| 0x10 ∧
    ((k + 1) ||| 0x10) &&& 0x10 = 0x10 ∧ ((k + 1) ||| 0x10) &&& 0x20 = 0 ∧
    ((k + 1) ||| 0x10) &&& 0x0f = k + 1 ∧
    ((0x0f &&& (k + 1)) ||| PULSE_EXEC_MASK) % 256 = ((k + 1) &&& 0x0f) ||| 0x20 ∧
    (((k + 1) &&& 0x0f) ||| 0x20) &&& 0x0f = k + 1 ∧
    (∀ j < 8, ((k + 1) &&& 0x0f) ||| 0x20 ≠ (j + 1) ||| 0x10 ∧
      ((k + 1) &&& 0x0f) ||| 0x20 ≠ j + 1) ∧
    (k + 1) &&& 0x20 = 0 ∧ (((k + 1) &&& 0x0f) ||| 0x20) &&& 0x20 = 0x20 ∧
    (k + 1) % 256 = k + 1 ∧ ((k + 1) ||| 0x10) % 256 = (k + 1) ||| 0x10 ∧
    (((k + 1) &&& 0x0f) ||| 0x20) % 256 = ((k + 1) &&& 0x0f) ||| 0x20 := by
  unfold PULSE_SAVE_MASK PULSE_EXEC_MASK
  decide

/-- The cast to `u32` keeps a value in 0..2^32-1. -/
theorem toU32_of_range (z : Int) (h0 : 0 ≤ z) (h1 : z < 4294967296) :
    ((toU32 z : Nat) : Int) = z := by
  unfold toU32
  rw [Int.emod_eq_of_lt h0 h1, Int.toNat_of_nonneg h0]

/-- The bytes stored by a trace extended by one operation. -/
theorem storedAt_snoc (dev add : Int) (t : List BusOp) (op : BusOp) :
    storedAt dev add (t ++ [op]) = storedAt dev add t ++ storedAt dev add [op] := by
  induction t with
  | nil => rfl
  | cons x t ih =>
    cases x with
    | mem8Write d a bytes =>
      simp only [List.cons_append, storedAt]
      split
      · exact congrArg (List.cons _) ih
      · exact ih
    | setup _ => simpa only [List.cons_append, storedAt] using ih
    | mem8Read _ _ _ => simpa only [List.cons_append, storedAt] using ih
    | readByteAS _ _ => simpa only [List.cons_append, storedAt] using ih
    | readWordAS _ _ => simpa only [List.cons_append, storedAt] using ih
    | readDWord _ _ => simpa only [List.cons_append, storedAt] using ih

/-- What a write of five bytes at `a` stores in the register `a + 4`: its
fifth byte. -/
theorem storedAt_fifth (dev a : Int) (b0 b1 b2 b3 b4 : Nat) (h : b4 % 256 = b4) :
    storedAt dev (a + 4) [BusOp.mem8Write dev a [b0, b1, b2, b3, b4]] = [b4] := by
  have hc : dev = dev ∧ a ≤ a + 4 ∧
      a + 4 < a + (([b0, b1, b2, b3, b4] : List Nat).length : Int) := by
    refine ⟨rfl, by omega, ?_⟩
    simp
  have h4 : (a + 4 - a).toNat = 4 := by
    have : a + 4 - a = 4 := by omega
    rw [this]
    rfl
  unfold storedAt
  rw [if_pos hc, h4]
  unfold storedAt byteAt
  simp [h]

/-- A write of five bytes at `a` stores nothing in a register outside
`a .. a + 4`. -/
theorem storedAt_outside (dev a add : Int) (bs : List Nat) (h5 : bs.length = 5)
    (h : add < a ∨ a + 4 < add) :
    storedAt dev add [BusOp.mem8Write dev a bs] = [] := by
  have hc : ¬ (dev = dev ∧ a ≤ add ∧ add < a + (bs.length : Int)) := by
    rw [h5]
    omega
  unfold storedAt
  rw [if_neg hc]
  rfl

/-- What a write of one byte at `a` stores in the register `a`. -/
theorem storedAt_single (dev a : Int) (b : Nat) (h : b % 256 = b) :
    storedAt dev a [BusOp.mem8Write dev a [b]] = [b] := by
  have hc : dev = dev ∧ a ≤ a ∧ a < a + (([b] : List Nat).length : Int) := by
    refine ⟨rfl, le_refl _, ?_⟩
    simp
  unfold storedAt
  rw [if_pos hc]
  unfold storedAt byteAt
  simp [h]

/-- C16 (amended): for a channel 1..8 and a 32-bit count, `odSaveOdPulses`
issues exactly one bus operation, the 5-byte write at `I2C_MEM_OD_P_SET_VALUE`
of the four little-endian bytes of the count followed by the tag `ch | 0x10`
(save bit set, execute bit 0x20 clear, low nibble `ch`).  The tag is stored in
the register `I2C_MEM_OD_P_SET_VALUE + 4`: when that is the command register
`I2C_MEM_OD_P_SET_CMD`, saving does write the command register, with a byte
whose execute bit is clear; when the command register lies outside the five
registers written, saving does not write it.  The same holds for
`odWritePulses`, whose tag is `ch`.  `odExecPulses` issues the single byte
`(ch & 0x0f) | 0x20` to `I2C_MEM_OD_P_SET_CMD`: it has the execute bit set, its
low nibble is `ch`, and it differs from every save tag and from every
immediate-write tag. -/
theorem odSaveOdPulses_does_not_execute (K : Consts) (B : Bus) (dev ch : Int)
    (count : Nat) (w : World)
    (hmin : K.CHANNEL_NR_MIN ≤ 1) (hmax : 8 ≤ 2 * K.OD_CH_NR_MAX)
    (hch : 1 ≤ ch ∧ ch ≤ 8) (hcount : count < 4294967296) :
    ∃ c : Nat, (c : Int) = ch ∧
      (odSaveOdPulses K B dev ch count w).2.trace = w.trace ++
        [BusOp.mem8Write dev K.I2C_MEM_OD_P_SET_VALUE
          [count % 256, count / 256 % 256, count / 65536 % 256, count / 16777216,
            c ||| 0x10]] ∧
      (c ||| 0x10) &&& 0x10 = 0x10 ∧ (c ||| 0x10) &&& 0x20 = 0 ∧
      (c ||| 0x10) &&& 0x0f = c ∧
      (K.I2C_MEM_OD_P_SET_CMD = K.I2C_MEM_OD_P_SET_VALUE + 4 →
        storedAt dev K.I2C_MEM_OD_P_SET_CMD (odSaveOdPulses K B dev ch count w).2.trace
          = storedAt dev K.I2C_MEM_OD_P_SET_CMD w.trace ++ [c ||| 0x10]) ∧
      ((K.I2C_MEM_OD_P_SET_CMD < K.I2C_MEM_OD_P_SET_VALUE ∨
          K.I2C_MEM_OD_P_SET_VALUE + 4 < K.I2C_MEM_OD_P_SET_CMD) →
        storedAt dev K.I2C_MEM_OD_P_SET_CMD (odSaveOdPulses K B dev ch count w).2.trace
          = storedAt dev K.I2C_MEM_OD_P_SET_CMD w.trace) ∧
      (odWritePulses K B dev ch count w).2.trace = w.trace ++
        [BusOp.mem8Write dev K.I2C_MEM_OD_P_SET_VALUE
          [count % 256, count / 256 % 256, count / 65536 % 256, count / 16777216, c]] ∧
      c &&& 0x20 = 0 ∧
      (K.I2C_MEM_OD_P_SET_CMD = K.I2C_MEM_OD_P_SET_VALUE + 4 →
        storedAt dev K.I2C_MEM_OD_P_SET_CMD (odWritePulses K B dev ch count w).2.trace
          = storedAt dev K.I2C_MEM_OD_P_SET_CMD w.trace ++ [c]) ∧
      ((K.I2C_MEM_OD_P_SET_CMD < K.I2C_MEM_OD_P_SET_VALUE ∨
          K.I2C_MEM_OD_P_SET_VALUE + 4 < K.I2C_MEM_OD_P_SET_CMD) →
        storedAt dev K.I2C_MEM_OD_P_SET_CMD (odWritePulses K B dev ch count w).2.trace
          = storedAt dev K.I2C_MEM_OD_P_SET_CMD w.trace) ∧
      (odExecPulses K B dev ch w).2.trace = w.trace ++
        [BusOp.mem8Write dev K.I2C_MEM_OD_P_SET_CMD [(c &&& 0x0f) ||| 0x20]] ∧
      storedAt dev K.I2C_MEM_OD_P_SET_CMD (odExecPulses K B dev ch w).2.trace
        = storedAt dev K.I2C_MEM_OD_P_SET_CMD w.trace ++ [(c &&& 0x0f) ||| 0x20] ∧
      ((c &&& 0x0f) ||| 0x20) &&& 0x20 = 0x20 ∧
      ((c &&& 0x0f) ||| 0x20) &&& 0x0f = c ∧
      (∀ c2 : Nat, 1 ≤ c2 → c2 ≤ 8 →
        (c &&& 0x0f) ||| 0x20 ≠ c2 ||| 0x10 ∧ (c &&& 0x0f) ||| 0x20 ≠ c2) := by
  obtain ⟨hle, _⟩ := le32_of_range count hcount
  have hg : ¬ (ch < K.CHANNEL_NR_MIN ∨ ch > 2 * K.OD_CH_NR_MAX) := by omega
  have hc8 := toU8_of_range ch (by omega) (by omega)
  have hc32 := toU32_of_range ch (by omega) (by omega)
  have h328 : toU32 ch = toU8 ch := by omega
  have hk : toU8 ch - 1 < 8 := by omega
  have hk1 : toU8 ch - 1 + 1 = toU8 ch := by omega
  obtain ⟨t1, t2, t3, t4, t5, t6, t7, t8, t9, m1, m2, m3⟩ := pulse_tags (toU8 ch - 1) hk
  rw [hk1] at t1 t2 t3 t4 t5 t6 t7 t8 t9 m1 m2 m3
  have hsave : (odSaveOdPulses K B dev ch count w).2.trace = w.trace ++
      [BusOp.mem8Write dev K.I2C_MEM_OD_P_SET_VALUE
        [count % 256, count / 256 % 256, count / 65536 % 256, count / 16777216,
          toU8 ch ||| 0x10]] := by
    unfold odSaveOdPulses
    simp only [if_neg hg, i2cMem8Write, hle, h328, t1, List.cons_append, List.nil_append]
    split <;> rfl
  have himm : (odWritePulses K B dev ch count w).2.trace = w.trace ++
      [BusOp.mem8Write dev K.I2C_MEM_OD_P_SET_VALUE
        [count % 256, count / 256 % 256, count / 65536 % 256, count / 16777216,
          toU8 ch]] := by
    unfold odWritePulses
    simp only [if_neg hg, i2cMem8Write, hle, List.cons_append, List.nil_append]
    split <;> rfl
  have hexec : (odExecPulses K B dev ch w).2.trace = w.trace ++
      [BusOp.mem8Write dev K.I2C_MEM_OD_P_SET_CMD [(toU8 ch &&& 0x0f) ||| 0x20]] := by
    unfold odExecPulses
    simp only [if_neg hg, i2cMem8Write, t5]
    split <;> rfl
  refine ⟨toU8 ch, hc8, hsave, t2, t3, t4, ?_, ?_, himm, t8, ?_, ?_, hexec, ?_, t9, t6, ?_⟩
  · intro hcmd
    rw [hsave, storedAt_snoc, hcmd, storedAt_fifth dev _ _ _ _ _ _ m2]
  · intro hout
    rw [hsave, storedAt_snoc, storedAt_outside dev _ _ _ (by rfl) hout, List.append_nil]
  · intro hcmd
    rw [himm, storedAt_snoc, hcmd, storedAt_fifth dev _ _ _ _ _ _ m1]
  · intro hout
    rw [himm, storedAt_snoc, storedAt_outside dev _ _ _ (by rfl) hout, List.append_nil]
  · rw [hexec, storedAt_snoc, storedAt_single dev _ _ m3]
  · intro c2 h1 h8
    have := t7 (c2 - 1) (by omega)
    have hc2 : c2 - 1 + 1 = c2 := by omega
    rw [hc2] at this
    exact this

/-- Saving 100 pulses for channel 2 with the command register at
`I2C_MEM_OD_P_SET_VALUE + 4`: one write, which stores the tag 0x12 in the
command register; the execute command for channel 2 stores 0x22 there. -/
theorem odSaveOdPulses_does_not_execute_witness :
    (odSaveOdPulses card (storeBus card regs3) 40 2 100 w0).2.trace =
      [BusOp.mem8Write 40 card.I2C_MEM_OD_P_SET_VALUE [100, 0, 0, 0, 0x12]] ∧
    storedAt 40 card.I2C_MEM_OD_P_SET_CMD
      (odSaveOdPulses card (storeBus card regs3) 40 2 100 w0).2.trace = [0x12] ∧
    (odExecPulses card (storeBus card regs3) 40 2 w0).2.trace =
      [BusOp.mem8Write 40 card.I2C_MEM_OD_P_SET_CMD [0x22]] ∧
    storedAt 40 card.I2C_MEM_OD_P_SET_CMD
      (odExecPulses card (storeBus card regs3) 40 2 w0).2.trace = [0x22] := by
  obtain ⟨c, hc, hsave, _, _, _, hst, _, _, _, _, _, hexec, hste, _⟩ :=
    odSaveOdPulses_does_not_execute card (storeBus card regs3) 40 2 100 w0
      (by decide) (by decide) (by decide) (by decide)
  have hc' : c = 2 := by exact_mod_cast hc
  subst hc'
  exact ⟨hsave, hst rfl, hexec, hste⟩

/-- C16 as stated fails where the command register follows the four value
registers (`I2C_MEM_OD_P_SET_CMD = I2C_MEM_OD_P_SET_VALUE + 4`, the layout under
which the one 5-byte transfer of `odWritePulses` and its variant in two
transfers send the same bytes to the same registers): on a board of stored
registers the command register holds 0 before `odSaveOdPulses` for channel 2
and the tag 0x12 after it, so saving has written the command register. -/
theorem odSaveOdPulses_writes_cmd_counterexample :
    card.I2C_MEM_OD_P_SET_CMD = card.I2C_MEM_OD_P_SET_VALUE + 4 ∧
    storeMem regs3 w0.trace 40 card.I2C_MEM_OD_P_SET_CMD = 0 ∧
    storeMem regs3 (odSaveOdPulses card (storeBus card regs3) 40 2 100 w0).2.trace 40
      card.I2C_MEM_OD_P_SET_CMD = 0x12 ∧
    storedAt 40 card.I2C_MEM_OD_P_SET_CMD
      (odSaveOdPulses card (storeBus card regs3) 40 2 100 w0).2.trace = [0x12] := by
  decide

/-! ### The hardware-version gate (C17) -/

/-- A returned status is not a fault. -/
theorem ok_ne_fault {α : Type} (x : α) (e : Fault) :
    (Except.ok x : Except Fault α) ≠ .error e := by
  intro h
  cases h

/-- Reading `argv[k]` with `0 ≤ k < argc` and continuing with code that stays
in range stays in range. -/
theorem argvAt_bind_safe {α : Type} (argv : List String) (k : Int)
    (f : String → Except Fault α) (h0 : 0 ≤ k) (h1 : k < (argv.length : Int))
    (hf : ∀ a, f a ≠ .error Fault.argvRange) :
    (argvAt argv k).bind f ≠ .error Fault.argvRange := by
  obtain ⟨a, ha⟩ := argvAt_ok argv k h0 h1
  rw [ha]
  exact hf a

/-- Two steps in sequence stay in range when each does. -/
theorem bind_safe {α β : Type} (x : Except Fault α) (f : α → Except Fault β)
    (hx : x ≠ .error Fault.argvRange) (hf : ∀ a, f a ≠ .error Fault.argvRange) :
    x.bind f ≠ .error Fault.argvRange := by
  cases x with
  | error e =>
    intro h
    apply hx
    cases h
    rfl
  | ok a => exact hf a

/-- The handlers `doHelp`, `doVersion`, `doWarranty` and `doList`, registered
at name position 1, read `argv` in range whatever `argc` is: only `doHelp` reads
it, at index 2 once `argc = 3`. -/
theorem callPFunc_argv_pos1 (K : Consts) (B : Bus) (L : Libc) (X : Ext) (fuel : Nat)
    (p : PFunc) (argv : List String) (w : World)
    (hp : p = .doHelp ∨ p = .doVersion ∨ p = .doWarranty ∨ p = .doList) :
    callPFunc K B L X fuel p argv.length argv w ≠ .error Fault.argvRange := by
  rcases hp with h | h | h | h <;> subst h <;> simp only [callPFunc]
  · unfold doHelp
    repeat' (first
      | exact ok_ne_fault _ _
      | (intro h; cases h)
      | (refine argvAt_bind_safe _ _ _ (by omega) (by omega) (fun _ => ?_))
      | (dsimp only)
      | split)
  · unfold doVersion
    exact ok_ne_fault _ _
  · unfold doWarranty
    exact ok_ne_fault _ _
  · unfold doList
    exact ok_ne_fault _ _

/-- The other handlers defined in `plcpi.c` read `argv[1]` first and the later
arguments only where `argc` has been tested: they read `argv` in range as soon
as `argc ≥ 3`. -/
theorem callPFunc_argv_pos2 (K : Consts) (B : Bus) (L : Libc) (X : Ext) (fuel : Nat)
    (p : PFunc) (argv : List String) (w : World)
    (hp : definedInPlcpi p = true) (h3 : 3 ≤ argv.length) :
    callPFunc K B L X fuel p argv.length argv w ≠ .error Fault.argvRange := by
  cases p <;> first
    | exact absurd hp (by decide)
    | (simp only [callPFunc]
       first
         | unfold doBoard | unfold doRelayWrite | unfold doRelayRead | unfold doRelayTest
         | unfold doOdRead | unfold doOdWrite | unfold doOdCntRead | unfold doOdCntWrite
         | unfold doOdCntSave | unfold doOdCntExec | unfold doOdCntReset
         | unfold doPwmFreqRead | unfold doPwmFreqWrite | unfold doMoveParWrite
         | unfold doEncThWr
       repeat' (first
         | exact ok_ne_fault _ _
         | (intro h; cases h)
         | (refine argvAt_bind_safe _ _ _ (by omega) (by omega) (fun _ => ?_))
         | (refine bind_safe _ _ ?_ (fun _ => ?_))
         | (dsimp only)
         | split))
    | exact callPFunc_argv_pos1 K B L X fuel _ argv w (by decide)

set_option maxRecDepth 100000 in
/-- Every descriptor of the table points to one of the four handlers that need
no board, or is registered at name position 2 or later. -/
theorem gCmdArray_pos2 : ∀ d ∈ gCmdArray,
    (d.pFunc = .doHelp ∨ d.pFunc = .doVersion ∨ d.pFunc = .doWarranty ∨
      d.pFunc = .doList) ∨ 2 ≤ d.namePos := by
  decide

/-- A fault of the scan of `main` is the fault of the handler it called. -/
theorem mainLoop_fault (K : Consts) (B : Bus) (L : Libc) (X : Ext) (fuel : Nat)
    (argv : List String) (e : Fault) (tbl : List CliCmdType)
    (hpos : ∀ d ∈ tbl, 0 ≤ d.namePos) (w : World)
    (h : (mainLoop K B L X fuel argv.length argv tbl w).2 = .error e) :
    ∃ c ∈ (mainLoop K B L X fuel argv.length argv tbl w).1,
      callPFunc K B L X fuel c.pFunc c.argc c.argv w = .error e := by
  induction tbl with
  | nil =>
    unfold mainLoop at h
    cases h
  | cons d rest ih =>
    have ihr := ih (fun x hx => hpos x (List.mem_cons_of_mem _ hx))
    unfold mainLoop at h ⊢
    cases hn : d.name with
    | none =>
      simp only [hn] at h ⊢
      exact ihr h
    | some name =>
      simp only [hn] at h ⊢
      by_cases hlt : d.namePos < (argv.length : Int)
      · obtain ⟨tok, htok⟩ := argvAt_ok argv d.namePos (hpos d (List.mem_cons_self _ _)) hlt
        simp only [if_pos hlt, htok] at h ⊢
        by_cases hm : strcasecmp tok name = 0
        · simp only [if_pos hm] at h ⊢
          refine ⟨_, List.mem_singleton.mpr rfl, ?_⟩
          cases hc : callPFunc K B L X fuel d.pFunc argv.length argv w with
          | error e2 =>
            rw [hc] at h
            exact h
          | ok rw2 =>
            rw [hc] at h
            cases h
        · simp only [if_neg hm] at h ⊢
          exact ihr h
      · simp only [if_neg hlt] at h ⊢
        exact ihr h

/-- C20: for every argument vector, every handler call `main` makes passes
`argc = ` the length of `argv`, and when the handler called is one of those
defined in `plcpi.c` it never reads `argv[k]` with `k` outside `0..argc-1`,
whatever the state it runs in; `main` itself reads `argv[namePos]` only after
testing `namePos < argc`, so a run of `main` can read outside `argv` only
inside a handler that `plcpi.c` does not define. -/
theorem main_argv_reads_in_range (K : Consts) (B : Bus) (L : Libc) (X : Ext)
    (fuel : Nat) (argv : List String) (w : World) :
    (∀ c ∈ (main K B L X fuel argv w).1,
      c.argc = argv.length ∧ c.argv = argv ∧
      (definedInPlcpi c.pFunc = true → ∀ w1,
        callPFunc K B L X fuel c.pFunc c.argc c.argv w1 ≠ .error Fault.argvRange)) ∧
    ((main K B L X fuel argv w).2 = .error Fault.argvRange →
      ∃ c ∈ (main K B L X fuel argv w).1, definedInPlcpi c.pFunc = false) := by
  have hsafe : ∀ c ∈ (main K B L X fuel argv w).1,
      c.argc = argv.length ∧ c.argv = argv ∧
      (definedInPlcpi c.pFunc = true → ∀ w1,
        callPFunc K B L X fuel c.pFunc c.argc c.argv w1 ≠ .error Fault.argvRange) := by
    intro c hc
    obtain ⟨d, hd, hcd, hm⟩ := main_calls K B L X fuel argv w c hc
    obtain ⟨name, tok, _, hlt, _, _⟩ := (matchesAt_iff d argv.length argv).mp hm
    subst hcd
    refine ⟨rfl, rfl, ?_⟩
    intro hdef w1
    rcases gCmdArray_pos2 d hd with h1 | h2
    · exact callPFunc_argv_pos1 K B L X fuel d.pFunc argv w1 h1
    · exact callPFunc_argv_pos2 K B L X fuel d.pFunc argv w1 hdef (by omega)
  refine ⟨hsafe, ?_⟩
  intro h
  unfold main at h hsafe ⊢
  by_cases h1 : ((argv.length : Int) = 1)
  · simp only [if_pos h1] at h
    cases h
  · simp only [if_neg h1] at h hsafe ⊢
    obtain ⟨c, hc, hf⟩ := mainLoop_fault K B L X fuel argv Fault.argvRange gCmdArray
      (fun d hd => by have := gCmdArray_namePos d hd; omega) _ h
    refine ⟨c, hc, ?_⟩
    cases hdef : definedInPlcpi c.pFunc with
    | false => rfl
    | true => exact absurd hf ((hsafe c hc).2.2 hdef _)

end Plcpi
